import Mathlib

/-!
# desafio-api: items and users behind a service layer

A shallow embedding of the domain types (`internal/domain`), the two services
(`internal/application/service`) and the in-memory repositories
(`internal/adapters/repository/mock_repository.go`).

Modelling conventions

* Go pointers (`*domain.Item`, `*domain.User`) are addresses `Ptr` into a heap,
  a total function from addresses to records; a repository map holds addresses,
  so a write through a pointer that the map also holds is seen by the map, as in
  the source.  Pointers handed to the services are non-nil.
* A Go `map` is an association list with unique keys (`AList`).  The loops that
  range over a map and stop at the first hit are order independent and are
  written with `List.any`.
* `error` results are `Option Error` (`none` is `nil`); `(value, error)` results
  are `Except Error value`.
* `time.Now()` is an explicit argument, one per reading, in source order.
* Integers (`int`, `int64`) are `Int`.  The id counter `nextID++` is exact below
  `2^63 - 1` saved records.  The arithmetic of paging, on values a caller
  chooses, wraps as Go's 64-bit `int` does (`wrapInt`); a slice expression out
  of bounds is a run-time panic, the result `none`.
* The order in which a `range` visits a map is not fixed by Go: `FindAll` takes
  it as an argument, the list of keys in the order visited.
* Strings are `String`; Go `len` is the UTF-8 byte length `String.utf8ByteSize`.
* Logging is not modelled.
-/

namespace Desafio

/-! ## internal/domain/errors.go -/

/-- The sentinel errors of `domain/errors.go`; `other` stands for every error
value that is not one of them (`fmt.Errorf`, library and driver errors). -/
inductive Error where
  | ErrItemNotFound
  | ErrCodeRequired
  | ErrTitleRequired
  | ErrDescriptionRequired
  | ErrInvalidPrice
  | ErrInvalidStock
  | ErrDuplicateCode
  | ErrUserNotFound
  | ErrUsernameRequired
  | ErrPasswordTooShort
  | ErrDuplicateUsername
  | ErrInvalidCredentials
  | ErrInvalidToken
  | other (msg : String)
  deriving DecidableEq, Repr

/-- An address in a heap of records. -/
abbrev Ptr := Nat

/-- An instant (`time.Time`), in nanoseconds. -/
abbrev Time := Int

/-- The request context, as far as the services read it:
`ctx.Value("userID").(int)` succeeds exactly when `userID` is `some u`. -/
structure Context where
  userID : Option Int
  deriving DecidableEq, Repr

/-! ## internal/domain/item.go -/

/-- The record `domain.Item`. -/
structure Item where
  ID : Int
  Code : String
  Title : String
  Description : String
  Price : Int
  Stock : Int
  Status : String
  CreatedAt : Time
  UpdatedAt : Time
  CreatedBy : Int
  UpdatedBy : Int
  deriving DecidableEq, Repr

/-- The checks of `(*Item).Validate`, in source order, on the record read
through the receiver. -/
def Item.Validate (i : Item) : Option Error :=
  if i.Code = "" then some Error.ErrCodeRequired
  else if i.Title = "" then some Error.ErrTitleRequired
  else if i.Description = "" then some Error.ErrDescriptionRequired
  else if i.Price ≤ 0 then some Error.ErrInvalidPrice
  else if i.Stock < 0 then some Error.ErrInvalidStock
  else none

/-- Heap of items. -/
abbrev ItemHeap := Ptr → Item

/-- The method call `p.Validate()` on a pointer receiver: the error it returns
and the heap it leaves.  The body has no assignment, so the heap is the one it
was given. -/
def Item.ValidateAt (h : ItemHeap) (p : Ptr) : Option Error × ItemHeap :=
  ((h p).Validate, h)

/-- The heap after `*p = v`. -/
def ItemHeap.write (h : ItemHeap) (p : Ptr) (v : Item) : ItemHeap :=
  fun q => if q = p then v else h q

/-- The heap after an assignment to fields of `*p`: `f` maps the record to the
record with those fields replaced. -/
def ItemHeap.modify (h : ItemHeap) (p : Ptr) (f : Item → Item) : ItemHeap :=
  fun q => if q = p then f (h q) else h q

/-- A heap together with the state of the repository behind the service. -/
structure ItemWorld (σ : Type) where
  heap : ItemHeap
  store : σ

/-! ## internal/ports/repository/item_repository.go -/

/-- The value of an expression of Go's 64-bit `int` whose exact value is `x`:
`x` wrapped modulo `2^64` into `[-2^63, 2^63)`. -/
def wrapInt (x : Int) : Int :=
  (x + 2 ^ 63) % 2 ^ 64 - 2 ^ 63

/-- What `FindAll` returns: the items, the total and the error. -/
abbrev FindAllResult := List Ptr × Int × Option Error

/-- The interface `ItemRepository`.  A method may change both the repository
and the records.  `FindAll` gets the limit, the offset and the iteration order
of the call (see the conventions above); its result is `none` when it panics. -/
structure ItemRepository (σ : Type) where
  Save : ItemWorld σ → Context → Ptr → Time → Time → Option Error × ItemWorld σ
  Update : ItemWorld σ → Context → Ptr → Time → Option Error × ItemWorld σ
  FindByID : ItemWorld σ → Context → Int → Except Error Ptr × ItemWorld σ
  FindAll : ItemWorld σ → Context → String → Int → Int → List Int →
    Option FindAllResult × ItemWorld σ
  Delete : ItemWorld σ → Context → Int → Option Error × ItemWorld σ
  ExistsByCode : ItemWorld σ → Context → String → Int → Except Error Bool × ItemWorld σ

/-! ## internal/adapters/repository/mock_repository.go (items) -/

/-- The fields `items` and `nextID` of `MockItemRepository` (the mutex is not
modelled: calls are sequential). -/
structure MockItemRepository where
  items : AList (fun _ : Int => Ptr)
  nextID : Int

/-- The constructor `NewMockItemRepository`. -/
def NewMockItemRepository : MockItemRepository :=
  { items := ∅, nextID := 1 }

/-- The method `MockItemRepository.Save`. -/
def MockItemRepository.Save (w : ItemWorld MockItemRepository) (_ctx : Context)
    (item : Ptr) (t1 t2 : Time) : Option Error × ItemWorld MockItemRepository :=
  if w.store.items.entries.any (fun e => (w.heap e.2).Code == (w.heap item).Code) then
    (some Error.ErrDuplicateCode, w)
  else
    let id := w.store.nextID
    let h1 := w.heap.modify item (fun i => { i with ID := id })
    let h2 := h1.modify item (fun i => { i with CreatedAt := t1 })
    let h3 := h2.modify item (fun i => { i with UpdatedAt := t2 })
    (none, { heap := h3,
             store := { items := w.store.items.insert (h3 item).ID item, nextID := id + 1 } })

/-- The method `MockItemRepository.Update`. -/
def MockItemRepository.Update (w : ItemWorld MockItemRepository) (_ctx : Context)
    (item : Ptr) (t : Time) : Option Error × ItemWorld MockItemRepository :=
  if (w.store.items.lookup (w.heap item).ID).isNone then
    (some Error.ErrItemNotFound, w)
  else if w.store.items.entries.any
      (fun e => (w.heap e.2).Code == (w.heap item).Code && e.1 != (w.heap item).ID) then
    (some Error.ErrDuplicateCode, w)
  else
    let h1 := w.heap.modify item (fun i => { i with UpdatedAt := t })
    (none, { heap := h1,
             store := { w.store with items := w.store.items.insert (h1 item).ID item } })

/-- The method `MockItemRepository.FindByID`: the stored pointer itself. -/
def MockItemRepository.FindByID (w : ItemWorld MockItemRepository) (_ctx : Context)
    (id : Int) : Except Error Ptr × ItemWorld MockItemRepository :=
  match w.store.items.lookup id with
  | none => (Except.error Error.ErrItemNotFound, w)
  | some item => (Except.ok item, w)

/-- The method `MockItemRepository.FindAll`.  `order` lists the keys of the map
in the order the `range` visits them.  The slice expression
`filteredItems[offset:end]` panics unless `0 <= offset <= end <= cap`; `end` is
at most `total`, the length, so the last bound always holds. -/
def MockItemRepository.FindAll (w : ItemWorld MockItemRepository) (_ctx : Context)
    (status : String) (limit offset : Int) (order : List Int) :
    Option FindAllResult × ItemWorld MockItemRepository :=
  let visited := order.filterMap (fun id => w.store.items.lookup id)
  let filteredItems := visited.filter (fun item => status == "" || (w.heap item).Status == status)
  let total : Int := filteredItems.length
  if offset ≥ total then
    (some ([], total, none), w)
  else
    let end1 := wrapInt (offset + limit)
    let end2 := if end1 > total then total else end1
    if 0 ≤ offset ∧ offset ≤ end2 then
      (some ((filteredItems.drop offset.toNat).take (end2 - offset).toNat, total, none), w)
    else
      (none, w)

/-- The method `MockItemRepository.Delete`. -/
def MockItemRepository.Delete (w : ItemWorld MockItemRepository) (_ctx : Context)
    (id : Int) : Option Error × ItemWorld MockItemRepository :=
  if (w.store.items.lookup id).isNone then
    (some Error.ErrItemNotFound, w)
  else
    (none, { w with store := { w.store with items := w.store.items.erase id } })

/-- The method `MockItemRepository.ExistsByCode`. -/
def MockItemRepository.ExistsByCode (w : ItemWorld MockItemRepository) (_ctx : Context)
    (code : String) (excludeID : Int) : Except Error Bool × ItemWorld MockItemRepository :=
  if w.store.items.entries.any (fun e => (w.heap e.2).Code == code && e.1 != excludeID) then
    (Except.ok true, w)
  else
    (Except.ok false, w)

/-- The in-memory repository as an `ItemRepository`. -/
def mockItemRepository : ItemRepository MockItemRepository where
  Save := MockItemRepository.Save
  Update := MockItemRepository.Update
  FindByID := MockItemRepository.FindByID
  FindAll := MockItemRepository.FindAll
  Delete := MockItemRepository.Delete
  ExistsByCode := MockItemRepository.ExistsByCode

/-! ## internal/application/service/item_service.go -/

/-- The statement `if x.Stock > 0 { x.Status = "ACTIVE" } else { x.Status = "INACTIVE" }`. -/
def deriveStatus (h : ItemHeap) (p : Ptr) : ItemHeap :=
  if (h p).Stock > 0 then h.modify p (fun i => { i with Status := "ACTIVE" })
  else h.modify p (fun i => { i with Status := "INACTIVE" })

/-- The statement of `Create`
`if userID, ok := ctx.Value("userID").(int); ok { item.CreatedBy = userID; item.UpdatedBy = userID }`. -/
def stampCreator (h : ItemHeap) (ctx : Context) (item : Ptr) : ItemHeap :=
  match ctx.userID with
  | some userID =>
    let h1 := h.modify item (fun i => { i with CreatedBy := userID })
    h1.modify item (fun i => { i with UpdatedBy := userID })
  | none => h

/-- The statement of `Update`
`if userID, ok := ctx.Value("userID").(int); ok { existing.UpdatedBy = userID }`. -/
def stampUpdater (h : ItemHeap) (ctx : Context) (existing : Ptr) : ItemHeap :=
  match ctx.userID with
  | some userID => h.modify existing (fun e => { e with UpdatedBy := userID })
  | none => h

/-- The five assignments of `Update` from `*item` to `*existing`, in source
order; each reads `item` in the heap the previous one left. -/
def copyFields (h : ItemHeap) (existing item : Ptr) : ItemHeap :=
  let h1 := h.modify existing (fun e => { e with Code := (h item).Code })
  let h2 := h1.modify existing (fun e => { e with Title := (h1 item).Title })
  let h3 := h2.modify existing (fun e => { e with Description := (h2 item).Description })
  let h4 := h3.modify existing (fun e => { e with Price := (h3 item).Price })
  h4.modify existing (fun e => { e with Stock := (h4 item).Stock })

/-- The method `ItemService.Create`. -/
def ItemService.Create {σ : Type} (repo : ItemRepository σ) (w : ItemWorld σ)
    (ctx : Context) (item : Ptr) (t1 t2 : Time) : Option Error × ItemWorld σ :=
  match (Item.ValidateAt w.heap item).1 with
  | some err => (some err, w)
  | none =>
    match repo.ExistsByCode w ctx (w.heap item).Code 0 with
    | (Except.error err, w1) => (some err, w1)
    | (Except.ok true, w1) => (some Error.ErrDuplicateCode, w1)
    | (Except.ok false, w1) =>
      let h2 := deriveStatus w1.heap item
      let h3 := stampCreator h2 ctx item
      repo.Save { w1 with heap := h3 } ctx item t1 t2

/-- The method `ItemService.Update`. -/
def ItemService.Update {σ : Type} (repo : ItemRepository σ) (w : ItemWorld σ)
    (ctx : Context) (id : Int) (item : Ptr) (t : Time) : Option Error × ItemWorld σ :=
  match repo.FindByID w ctx id with
  | (Except.error err, w1) => (some err, w1)
  | (Except.ok existing, w1) =>
    let h5 := copyFields w1.heap existing item
    let h6 := deriveStatus h5 existing
    let h7 := stampUpdater h6 ctx existing
    match (Item.ValidateAt h7 existing).1 with
    | some err => (some err, { w1 with heap := h7 })
    | none =>
      match repo.ExistsByCode { w1 with heap := h7 } ctx (h7 existing).Code id with
      | (Except.error err, w2) => (some err, w2)
      | (Except.ok true, w2) => (some Error.ErrDuplicateCode, w2)
      | (Except.ok false, w2) =>
        match repo.Update w2 ctx existing t with
        | (some err, w3) => (some err, w3)
        | (none, w3) => (none, { w3 with heap := w3.heap.write item (w3.heap existing) })

/-- The method `ItemService.GetByID`. -/
def ItemService.GetByID {σ : Type} (repo : ItemRepository σ) (w : ItemWorld σ)
    (ctx : Context) (id : Int) : Except Error Ptr × ItemWorld σ :=
  repo.FindByID w ctx id

/-- The method `ItemService.List`; `order` is handed on to the store. -/
def ItemService.List {σ : Type} (repo : ItemRepository σ) (w : ItemWorld σ)
    (ctx : Context) (status : String) (page limit : Int) (order : List Int) :
    Option FindAllResult × ItemWorld σ :=
  let page1 := if page < 1 then 1 else page
  let limit1 := if limit < 1 ∨ limit > 20 then 10 else limit
  let offset := wrapInt (wrapInt (page1 - 1) * limit1)
  repo.FindAll w ctx status limit1 offset order

/-- The method `ItemService.Delete`. -/
def ItemService.Delete {σ : Type} (repo : ItemRepository σ) (w : ItemWorld σ)
    (ctx : Context) (id : Int) : Option Error × ItemWorld σ :=
  repo.Delete w ctx id


/-! ## Representation invariants of the in-memory item store -/

/-- The counter `nextID` starts at 1 and only grows, and every key of the map
was handed out from it by `Save`: keys are positive and below the counter. -/
def MockItemRepository.WF (s : MockItemRepository) : Prop :=
  0 < s.nextID ∧ ∀ k, k ∈ s.items → 0 < k ∧ k < s.nextID

/-- Every stored record carries the key it is stored under in its `ID` field. -/
def IdsMatch (w : ItemWorld MockItemRepository) : Prop :=
  ∀ k p, w.store.items.lookup k = some p → (w.heap p).ID = k

/-- No two records stored under different ids have the same code. -/
def UniqueCodes (w : ItemWorld MockItemRepository) : Prop :=
  ∀ k1 p1 k2 p2, w.store.items.lookup k1 = some p1 → w.store.items.lookup k2 = some p2 →
    k1 ≠ k2 → (w.heap p1).Code ≠ (w.heap p2).Code

/-- One call of the item service on the in-memory store. -/
inductive ItemCall where
  | Create (ctx : Context) (item : Ptr) (t1 t2 : Time)
  | Update (ctx : Context) (id : Int) (item : Ptr) (t : Time)
  | Delete (ctx : Context) (id : Int)
  deriving Repr

/-- The world a call leaves, whether it succeeds or fails. -/
def ItemCall.run (w : ItemWorld MockItemRepository) : ItemCall → ItemWorld MockItemRepository
  | ItemCall.Create ctx item t1 t2 => (ItemService.Create mockItemRepository w ctx item t1 t2).2
  | ItemCall.Update ctx id item t => (ItemService.Update mockItemRepository w ctx id item t).2
  | ItemCall.Delete ctx id => (ItemService.Delete mockItemRepository w ctx id).2

/-- The world after a sequence of calls, first call first. -/
def runItemCalls (w : ItemWorld MockItemRepository) (calls : List ItemCall) :
    ItemWorld MockItemRepository :=
  calls.foldl ItemCall.run w

/-- The worlds reachable from a new, empty store (over any heap of records the
callers hold) by calls of `Create`, `Update` and `Delete`. -/
def ItemReachable (w : ItemWorld MockItemRepository) : Prop :=
  ∃ (h : ItemHeap) (calls : List ItemCall),
    w = runItemCalls { heap := h, store := NewMockItemRepository } calls

/-- Some record stored under an id other than `id` has the code `code`. -/
def HeldByOther (w : ItemWorld MockItemRepository) (id : Int) (code : String) : Prop :=
  ∃ k q, w.store.items.lookup k = some q ∧ k ≠ id ∧ (w.heap q).Code = code

/-- The two representation invariants together. -/
def ItemInv (w : ItemWorld MockItemRepository) : Prop :=
  w.store.WF ∧ IdsMatch w

/-! ## Paging: the words of the spec, and the bounds of the machine -/

/-- A value of Go's 64-bit `int`. -/
def IsInt (x : Int) : Prop :=
  -2 ^ 63 ≤ x ∧ x < 2 ^ 63

/-- A length a slice of pointers can have: with 8 bytes an element there are
fewer than `2^60` of them in the address space. -/
def IsSliceLen (n : Nat) : Prop :=
  (n : Int) < 2 ^ 60

/-- The page as the spec normalises it: `page` when `page >= 1`, else 1. -/
def normalPage (page : Int) : Int :=
  if page ≥ 1 then page else 1

/-- The limit as the spec normalises it: `limit` when `1 <= limit <= 20`, else 10. -/
def normalLimit (limit : Int) : Int :=
  if 1 ≤ limit ∧ limit ≤ 20 then limit else 10

/-- An iteration order of the map: its keys, each once, in any order. -/
def IsIterationOrder (s : MockItemRepository) (order : List Int) : Prop :=
  order.Perm s.items.keys

/-- The stored items that match the status filter: every item when the filter
is empty, else those whose `Status` is the filter. -/
def matchingItems (w : ItemWorld MockItemRepository) (status : String) : List Ptr :=
  (w.store.items.entries.map (fun e => e.2)).filter
    (fun item => status == "" || (w.heap item).Status == status)

/-- The items the loop of `FindAll` keeps, in the order visited. -/
def filteredItems (w : ItemWorld MockItemRepository) (status : String) (order : List Int) :
    List Ptr :=
  (order.filterMap (fun id => w.store.items.lookup id)).filter
    (fun item => status == "" || (w.heap item).Status == status)

/-- Most recently updated first: no item is updated earlier than the item after it. -/
def UpdatedDescending (h : ItemHeap) : List Ptr → Prop
  | a :: b :: rest => (h a).UpdatedAt ≥ (h b).UpdatedAt ∧ UpdatedDescending h (b :: rest)
  | _ => True

/-- The statements of `ItemHandler.List` that compute `totalPages` from the
total and the limit, which the handler has checked to be at least 1; Go's `/`
truncates. -/
def ItemHandler.totalPages (total limit : Int) : Int :=
  if total > 0 then Int.tdiv (wrapInt (wrapInt (total + limit) - 1)) limit else 0

/-! ## internal/adapters/repository/item_repository.go

The SQL-backed repository.  The database is taken to execute every statement:
the only error it raises is the violation of the unique index on `code`. -/

/-- Modelled from the spec: the table `items` of the migration
`migrations/001_create_items_table.mysql.sql`, which is not among the sources;
the spec gives its columns, one for each field of `Item`, and the unique index
on `code`.  `rows` holds the rows by primary key, `nextID` is the
auto-increment counter and `now` is what the server's `NOW()` returns.
`nextPtr` is the address of the next record the repository allocates with
`var item domain.Item`: no record the callers hold lives at or above it. -/
structure ItemDB where
  rows : AList (fun _ : Int => Item)
  nextID : Int
  now : Time
  nextPtr : Ptr

/-- The error of the driver for a duplicate key, an error value of its own. -/
def duplicateEntry : Error :=
  Error.other "Error 1062 (23000): Duplicate entry for key 'code'"

/-- The method `itemRepository.Save`: the `INSERT`, then the three assignments. -/
def itemRepository.Save (w : ItemWorld ItemDB) (_ctx : Context) (item : Ptr) (t1 t2 : Time) :
    Option Error × ItemWorld ItemDB :=
  if w.store.rows.entries.any (fun e => e.2.Code == (w.heap item).Code) then
    (some duplicateEntry, w)
  else
    let id := w.store.nextID
    let row : Item :=
      { w.heap item with ID := id, CreatedAt := w.store.now, UpdatedAt := w.store.now }
    let h1 := w.heap.modify item (fun i => { i with ID := id })
    let h2 := h1.modify item (fun i => { i with CreatedAt := t1 })
    let h3 := h2.modify item (fun i => { i with UpdatedAt := t2 })
    (none, { heap := h3,
             store := { w.store with rows := w.store.rows.insert id row, nextID := id + 1 } })

/-- The method `itemRepository.Update`: the `UPDATE ... WHERE id = ?`, whose
count of affected rows is not looked at, then the assignment of `UpdatedAt`. -/
def itemRepository.Update (w : ItemWorld ItemDB) (_ctx : Context) (item : Ptr) (t : Time) :
    Option Error × ItemWorld ItemDB :=
  let it := w.heap item
  match w.store.rows.lookup it.ID with
  | none => (none, { w with heap := w.heap.modify item (fun i => { i with UpdatedAt := t }) })
  | some row =>
    if w.store.rows.entries.any (fun e => e.2.Code == it.Code && e.1 != it.ID) then
      (some duplicateEntry, w)
    else
      let row1 : Item :=
        { row with
          Code := it.Code, Title := it.Title, Description := it.Description, Price := it.Price,
          Stock := it.Stock, Status := it.Status, UpdatedAt := w.store.now,
          UpdatedBy := it.UpdatedBy }
      (none, { heap := w.heap.modify item (fun i => { i with UpdatedAt := t }),
               store := { w.store with rows := w.store.rows.insert it.ID row1 } })

/-- The method `itemRepository.FindByID`: the row is scanned into a new record. -/
def itemRepository.FindByID (w : ItemWorld ItemDB) (_ctx : Context) (id : Int) :
    Except Error Ptr × ItemWorld ItemDB :=
  match w.store.rows.lookup id with
  | none => (Except.error Error.ErrItemNotFound, w)
  | some row =>
    (Except.ok w.store.nextPtr,
      { heap := w.heap.write w.store.nextPtr row,
        store := { w.store with nextPtr := w.store.nextPtr + 1 } })

/-- The rows a `SELECT` scans into new records, one after the other: the
addresses of the records and the heap that holds them. -/
def scanRows (h : ItemHeap) (next : Ptr) : List Item → List Ptr × ItemHeap
  | [] => ([], h)
  | row :: rest =>
    let r := scanRows (h.write next row) (next + 1) rest
    (next :: r.1, r.2)

/-- The method `itemRepository.FindAll`.  `order` lists the primary keys in the
order the server scans the table, which decides between rows with one
`updated_at`; a negative `LIMIT` or `OFFSET` is an error of the server. -/
def itemRepository.FindAll (w : ItemWorld ItemDB) (_ctx : Context) (status : String)
    (limit offset : Int) (order : List Int) : Option FindAllResult × ItemWorld ItemDB :=
  let scanned := order.filterMap (fun id => w.store.rows.lookup id)
  let selected := scanned.filter (fun row => status == "" || row.Status == status)
  let count : Int := selected.length
  if count = 0 then
    (some ([], 0, none), w)
  else if limit < 0 ∨ offset < 0 then
    (some ([], 0, some (Error.other "failed to fetch items: Error 1064 (42000)")), w)
  else
    let sorted := selected.insertionSort (fun a b => a.UpdatedAt ≥ b.UpdatedAt)
    let page := (sorted.drop offset.toNat).take limit.toNat
    let r := scanRows w.heap w.store.nextPtr page
    (some (r.1, count, none),
      { heap := r.2, store := { w.store with nextPtr := w.store.nextPtr + page.length } })

/-- The method `itemRepository.Delete`. -/
def itemRepository.Delete (w : ItemWorld ItemDB) (_ctx : Context) (id : Int) :
    Option Error × ItemWorld ItemDB :=
  if (w.store.rows.lookup id).isNone then
    (some Error.ErrItemNotFound, w)
  else
    (none, { w with store := { w.store with rows := w.store.rows.erase id } })

/-- The method `itemRepository.ExistsByCode`. -/
def itemRepository.ExistsByCode (w : ItemWorld ItemDB) (_ctx : Context) (code : String)
    (excludeID : Int) : Except Error Bool × ItemWorld ItemDB :=
  (Except.ok (w.store.rows.entries.any (fun e => e.2.Code == code && e.1 != excludeID)), w)

/-- The SQL-backed repository as an `ItemRepository`. -/
def sqlItemRepository : ItemRepository ItemDB where
  Save := itemRepository.Save
  Update := itemRepository.Update
  FindByID := itemRepository.FindByID
  FindAll := itemRepository.FindAll
  Delete := itemRepository.Delete
  ExistsByCode := itemRepository.ExistsByCode

/-- Every row carries its primary key in its `ID` column. -/
def RowsMatch (s : ItemDB) : Prop :=
  ∀ k r, s.rows.lookup k = some r → r.ID = k

/-- The two records agree in every field other than `UpdatedAt`. -/
def Item.AgreesButUpdatedAt (a b : Item) : Prop :=
  a.ID = b.ID ∧ a.Code = b.Code ∧ a.Title = b.Title ∧ a.Description = b.Description ∧
  a.Price = b.Price ∧ a.Stock = b.Stock ∧ a.Status = b.Status ∧ a.CreatedAt = b.CreatedAt ∧
  a.CreatedBy = b.CreatedBy ∧ a.UpdatedBy = b.UpdatedBy

/-- The SQL-backed repository in a race: the `INSERT` of another client, of the
row `other`, commits after the `SELECT EXISTS` of `ExistsByCode` has answered
and before the next statement of this client. -/
def sqlItemRepositoryRaced (other : Item) : ItemRepository ItemDB :=
  { sqlItemRepository with
    ExistsByCode := fun w ctx code excludeID =>
      let r := itemRepository.ExistsByCode w ctx code excludeID
      (r.1,
        { r.2 with
          store :=
            { r.2.store with
              rows := r.2.store.rows.insert r.2.store.nextID
                        { other with ID := r.2.store.nextID, CreatedAt := r.2.store.now,
                                     UpdatedAt := r.2.store.now },
              nextID := r.2.store.nextID + 1 } }) }

/-! ## internal/application/service/item_service_interface.go -/

/-- The interface `ItemServiceInterface`. -/
structure ItemServiceInterface (σ : Type) where
  Create : ItemWorld σ → Context → Ptr → Time → Time → Option Error × ItemWorld σ
  GetByID : ItemWorld σ → Context → Int → Except Error Ptr × ItemWorld σ
  Update : ItemWorld σ → Context → Int → Ptr → Time → Option Error × ItemWorld σ
  Delete : ItemWorld σ → Context → Int → Option Error × ItemWorld σ
  List : ItemWorld σ → Context → String → Int → Int → List Int →
    Option FindAllResult × ItemWorld σ

/-- The service `NewItemService(repo)` as an `ItemServiceInterface`. -/
def NewItemService {σ : Type} (repo : ItemRepository σ) : ItemServiceInterface σ where
  Create := ItemService.Create repo
  GetByID := ItemService.GetByID repo
  Update := ItemService.Update repo
  Delete := ItemService.Delete repo
  List := ItemService.List repo

/-! ## internal/adapters/http/item_handler.go -/

/-- The text of an error, `err.Error()`. -/
def errorText : Error → String
  | Error.ErrItemNotFound => "item not found"
  | Error.ErrCodeRequired => "code is required"
  | Error.ErrTitleRequired => "title is required"
  | Error.ErrDescriptionRequired => "description is required"
  | Error.ErrInvalidPrice => "price must be greater than zero"
  | Error.ErrInvalidStock => "stock cannot be negative"
  | Error.ErrDuplicateCode => "item with this code already exists"
  | Error.ErrUserNotFound => "user not found"
  | Error.ErrUsernameRequired => "username is required"
  | Error.ErrPasswordTooShort => "password must be at least 6 characters"
  | Error.ErrDuplicateUsername => "user with this username already exists"
  | Error.ErrInvalidCredentials => "invalid username or password"
  | Error.ErrInvalidToken => "invalid or expired token"
  | Error.other msg => msg

/-- The record `CreateRequest`. -/
structure CreateRequest where
  Code : String
  Title : String
  Description : String
  Price : Int
  Stock : Int
  deriving DecidableEq, Repr

/-- The record `UpdateRequest`. -/
structure UpdateRequest where
  Code : String
  Title : String
  Description : String
  Price : Int
  Stock : Int
  deriving DecidableEq, Repr

/-- The record `ItemResponse`; a formatted time is the instant it shows, and
the empty string of a zero time is `none`. -/
structure ItemResponse where
  ID : Int
  Code : String
  Title : String
  Description : String
  Price : Int
  Stock : Int
  Status : String
  CreatedAt : Option Time
  UpdatedAt : Option Time
  CreatedBy : Int
  UpdatedBy : Int
  deriving DecidableEq, Repr

/-- The function `toItemResponse`, on a pointer that is not nil; the zero
`time.Time` is the instant 0. -/
def toItemResponse (item : Item) : ItemResponse :=
  { ID := item.ID, Code := item.Code, Title := item.Title, Description := item.Description,
    Price := item.Price, Stock := item.Stock, Status := item.Status,
    CreatedAt := if item.CreatedAt ≠ 0 then some item.CreatedAt else none,
    UpdatedAt := if item.UpdatedAt ≠ 0 then some item.UpdatedAt else none,
    CreatedBy := item.CreatedBy, UpdatedBy := item.UpdatedBy }

/-- The record `LoginRequest` of `auth_handler.go`. -/
structure LoginRequest where
  Username : String
  Password : String
  deriving DecidableEq, Repr

/-- What a handler reads from its `*gin.Context`: the result of
`strconv.ParseInt(c.Param("id"), 10, 64)`, the `int` under the gin key "userID"
(`c.Get`), the context of the request (`c.Request.Context()`) and the result of
`c.ShouldBindJSON(&req)` for an update.  The gin keys and the context of the
request are two stores: `c.Set` writes the first only.  Further: the string
under the gin key "username"; the header `Authorization`; the query parameter
`status`; the results of `strconv.Atoi` on the query parameters `limit` and
`page`, which a request that omits them gives as "10" and "1"; and the results
of `c.ShouldBindJSON(&req)` for a create and for a login. -/
structure GinContext where
  paramID : Except Error Int
  userID : Option Int
  Request : Context
  updateBody : Except Error UpdateRequest
  username : Option String := none
  authorization : String := ""
  queryStatus : String := ""
  queryLimit : Except Error Int := Except.ok 10
  queryPage : Except Error Int := Except.ok 1
  createBody : Except Error CreateRequest := Except.error (Error.other "EOF")
  loginBody : Except Error LoginRequest := Except.error (Error.other "EOF")

/-- The call `c.Set("userID", v)`, as the auth middleware makes it. -/
def GinContext.SetUserID (c : GinContext) (v : Int) : GinContext :=
  { c with userID := some v }

/-- The call `c.Set("username", v)`. -/
def GinContext.SetUsername (c : GinContext) (v : String) : GinContext :=
  { c with username := some v }

/-- The record `ListResponse`. -/
structure ListResponse where
  TotalPages : Int
  Data : List ItemResponse
  deriving DecidableEq, Repr

/-- What a handler writes: the status, and the item, the message, the list or
the token of the body. -/
structure HttpResponse where
  status : Nat
  item : Option ItemResponse
  message : Option String
  list : Option ListResponse := none
  token : Option String := none
  deriving DecidableEq, Repr

/-- The function `RespondWithError`, without the time stamp of the body. -/
def RespondWithError (status : Nat) (message : String) : HttpResponse :=
  { status := status, item := none, message := some message }

/-- The method `ItemHandler.Update`; `t` is the reading of the clock of the
service's `Update`. -/
def ItemHandler.Update {σ : Type} (itemService : ItemServiceInterface σ) (w : ItemWorld σ)
    (c : GinContext) (t : Time) : HttpResponse × ItemWorld σ :=
  match c.paramID with
  | Except.error _ => (RespondWithError 400 "ID de item inválido", w)
  | Except.ok id =>
    match c.userID with
    | none => (RespondWithError 500 "Falha ao identificar o usuário autenticado", w)
    | some userID =>
      match itemService.GetByID w c.Request id with
      | (Except.error err, w1) =>
        if err = Error.ErrItemNotFound then (RespondWithError 404 "Item não encontrado", w1)
        else (RespondWithError 500 "Falha ao recuperar o item para atualização", w1)
      | (Except.ok existingItem, w1) =>
        match c.updateBody with
        | Except.error err => (RespondWithError 400 ("Dados inválidos: " ++ errorText err), w1)
        | Except.ok req =>
          let h1 := w1.heap.modify existingItem (fun i => { i with Code := req.Code })
          let h2 := h1.modify existingItem (fun i => { i with Title := req.Title })
          let h3 := h2.modify existingItem (fun i => { i with Description := req.Description })
          let h4 := h3.modify existingItem (fun i => { i with Price := req.Price })
          let h5 := h4.modify existingItem (fun i => { i with Stock := req.Stock })
          let h6 := h5.modify existingItem (fun i => { i with UpdatedBy := userID })
          match itemService.Update { w1 with heap := h6 } c.Request id existingItem t with
          | (some err, w2) =>
            if err = Error.ErrItemNotFound then
              (RespondWithError 404 "Item não encontrado", w2)
            else if err = Error.ErrDuplicateCode then
              (RespondWithError 409 "Já existe um item com este código", w2)
            else if err = Error.ErrCodeRequired ∨ err = Error.ErrTitleRequired ∨
                err = Error.ErrDescriptionRequired ∨ err = Error.ErrInvalidPrice ∨
                err = Error.ErrInvalidStock then
              (RespondWithError 400 (errorText err), w2)
            else (RespondWithError 500 "Falha ao atualizar o item", w2)
          | (none, w2) =>
            ({ status := 200, item := some (toItemResponse (w2.heap existingItem)),
               message := none }, w2)

/-- The record `ItemHandler.Create` builds from the body of the request and the
user under the gin key "userID"; the fields it does not name are zero. -/
def ItemHandler.Create.item (req : CreateRequest) (userID : Int) : Item :=
  { ID := 0, Code := req.Code, Title := req.Title, Description := req.Description,
    Price := req.Price, Stock := req.Stock, Status := "INACTIVE", CreatedAt := 0,
    UpdatedAt := 0, CreatedBy := userID, UpdatedBy := userID }

/-- The method `ItemHandler.Create`; `item` is the address of the record the
handler allocates, and `t1`, `t2` are the readings of the clock of the
service's `Create`. -/
def ItemHandler.Create {σ : Type} (itemService : ItemServiceInterface σ) (w : ItemWorld σ)
    (c : GinContext) (item : Ptr) (t1 t2 : Time) : HttpResponse × ItemWorld σ :=
  match c.createBody with
  | Except.error err => (RespondWithError 400 ("Dados inválidos: " ++ errorText err), w)
  | Except.ok req =>
    match c.userID with
    | none => (RespondWithError 500 "Falha ao identificar o usuário autenticado", w)
    | some userID =>
      let h1 := w.heap.write item (ItemHandler.Create.item req userID)
      match itemService.Create { w with heap := h1 } c.Request item t1 t2 with
      | (some err, w1) =>
        if err = Error.ErrDuplicateCode then
          (RespondWithError 409 "Já existe um item com este código", w1)
        else if err = Error.ErrCodeRequired ∨ err = Error.ErrTitleRequired ∨
            err = Error.ErrDescriptionRequired ∨ err = Error.ErrInvalidPrice ∨
            err = Error.ErrInvalidStock then
          (RespondWithError 400 (errorText err), w1)
        else (RespondWithError 500 "Falha ao criar o item", w1)
      | (none, w1) =>
        ({ status := 201, item := some (toItemResponse (w1.heap item)), message := none }, w1)

/-- The method `ItemHandler.List`; `order` is handed on to the service.  The
service is called with `limit` and `offset` as its third and fourth arguments,
as the source has it.  `none` is a panic of the service. -/
def ItemHandler.List {σ : Type} (itemService : ItemServiceInterface σ) (w : ItemWorld σ)
    (c : GinContext) (order : List Int) : Option HttpResponse × ItemWorld σ :=
  let status := c.queryStatus
  if status ≠ "" ∧ status ≠ "ACTIVE" ∧ status ≠ "INACTIVE" then
    (some (RespondWithError 400 "Status inválido. Use 'ACTIVE' ou 'INACTIVE'"), w)
  else
    match c.queryLimit with
    | Except.error _ =>
      (some (RespondWithError 400 "O parâmetro 'limit' deve ser um número entre 1 e 100"), w)
    | Except.ok limit =>
      if limit < 1 ∨ limit > 100 then
        (some (RespondWithError 400 "O parâmetro 'limit' deve ser um número entre 1 e 100"), w)
      else
        match c.queryPage with
        | Except.error _ =>
          (some (RespondWithError 400 "O parâmetro 'page' deve ser um número maior que zero"),
            w)
        | Except.ok page =>
          if page < 1 then
            (some (RespondWithError 400
              "O parâmetro 'page' deve ser um número maior que zero"), w)
          else
            let offset := wrapInt (wrapInt (page - 1) * limit)
            match itemService.List w c.Request status limit offset order with
            | (none, w1) => (none, w1)
            | (some (_, _, some _), w1) =>
              (some (RespondWithError 500 "Falha ao recuperar a lista de itens"), w1)
            | (some (items, total, none), w1) =>
              (some { status := 200, item := none, message := none,
                      list := some { TotalPages := ItemHandler.totalPages total limit,
                                     Data := items.map (fun p => toItemResponse (w1.heap p)) } },
                w1)

/-! ## internal/domain/user.go -/

/-- The record `domain.User`. -/
structure User where
  ID : Int
  Username : String
  Password : String
  CreatedAt : Time
  UpdatedAt : Time
  deriving DecidableEq, Repr

/-- Heap of users. -/
abbrev UserHeap := Ptr → User

/-- The heap after an assignment to fields of `*p`. -/
def UserHeap.modify (h : UserHeap) (p : Ptr) (f : User → User) : UserHeap :=
  fun q => if q = p then f (h q) else h q

/-- The two functions of the library `golang.org/x/crypto/bcrypt` that
`domain/user.go` calls.  `GenerateFromPassword` draws a random salt, given here
as its first argument; `CompareHashAndPassword` returns `nil` (`none`) on a
match. -/
structure Bcrypt where
  GenerateFromPassword : (salt : Nat) → (password : String) → (cost : Nat) → Except Error String
  CompareHashAndPassword : (hashedPassword password : String) → Option Error

/-- The constant `bcrypt.DefaultCost`. -/
def Bcrypt.DefaultCost : Nat := 10

/-- The method `(*User).HashPassword`. -/
def User.HashPassword (b : Bcrypt) (h : UserHeap) (u : Ptr) (salt : Nat) :
    Option Error × UserHeap :=
  match b.GenerateFromPassword salt (h u).Password Bcrypt.DefaultCost with
  | Except.error err => (some err, h)
  | Except.ok hashedPassword => (none, h.modify u (fun x => { x with Password := hashedPassword }))

/-- The method `(*User).ComparePassword`. -/
def User.ComparePassword (b : Bcrypt) (h : UserHeap) (u : Ptr) (password : String) : Bool :=
  (b.CompareHashAndPassword (h u).Password password).isNone

/-- The checks of `(*User).Validate`, on the record read through the receiver;
`len` is the byte length. -/
def User.Validate (u : User) : Option Error :=
  if u.Username = "" then some Error.ErrUsernameRequired
  else if u.ID = 0 ∧ u.Password.utf8ByteSize < 6 then some Error.ErrPasswordTooShort
  else none

/-! ## internal/domain/jwt_claims.go -/

/-- The record `domain.JWTClaims`; of the embedded `jwt.RegisteredClaims` the
three dates are kept (a `NumericDate` pointer is an `Option`). -/
structure JWTClaims where
  UserID : Int
  Username : String
  ExpiresAt : Option Time
  NotBefore : Option Time
  IssuedAt : Option Time
  deriving DecidableEq, Repr

/-- The duration `time.Second`, in nanoseconds. -/
def Second : Int := 1000000000

/-- The duration `time.Hour`. -/
def Hour : Int := 3600 * Second

/-- The function `jwt.NewNumericDate`: the instant truncated to `jwt.TimePrecision`,
one second. -/
def NewNumericDate (t : Time) : Time := t - t % Second

/-- Signing with the library `github.com/golang-jwt/jwt/v5`:
`jwt.NewWithClaims(method, claims).SignedString(key)`, the method given by its
name. -/
structure JwtSigner where
  SignedString : (method : String) → JWTClaims → (key : String) → Except Error String

/-! ## internal/application/service/user_service.go -/

/-- A heap of users together with the state of the repository behind the service. -/
structure UserWorld (σ : Type) where
  heap : UserHeap
  store : σ

/-- The interface `UserRepository`. -/
structure UserRepository (σ : Type) where
  Create : UserWorld σ → Context → Ptr → Time → Time → Option Error × UserWorld σ
  FindByUsername : UserWorld σ → Context → String → Except Error Ptr × UserWorld σ
  FindByID : UserWorld σ → Context → Int → Except Error Ptr × UserWorld σ

/-- The field `jwtSecret` of `UserService` (the field `userRepo` is the
repository argument of each method). -/
structure UserService where
  jwtSecret : String
  deriving DecidableEq, Repr

/-- The method `UserService.Register`. -/
def UserService.Register {σ : Type} (b : Bcrypt) (repo : UserRepository σ) (w : UserWorld σ)
    (ctx : Context) (user : Ptr) (salt : Nat) (t1 t2 : Time) : Option Error × UserWorld σ :=
  match (w.heap user).Validate with
  | some err => (some err, w)
  | none =>
    match User.HashPassword b w.heap user salt with
    | (some err, h1) => (some err, { w with heap := h1 })
    | (none, h1) =>
      match repo.Create { w with heap := h1 } ctx user t1 t2 with
      | (some err, w2) => (some err, w2)
      | (none, w2) => (none, w2)

/-- The method `UserService.generateToken`; `now` is its reading of the clock. -/
def UserService.generateToken (jwt : JwtSigner) (s : UserService) (h : UserHeap) (user : Ptr)
    (now : Time) : (String × Option Error) × UserService :=
  let expirationTime := now + 1 * Hour
  if (h user).ID ≤ 0 then
    (("", some (Error.other "ID de usuário inválido")), s)
  else
    let claims : JWTClaims :=
      { UserID := (h user).ID
        Username := (h user).Username
        ExpiresAt := some (NewNumericDate expirationTime)
        NotBefore := none
        IssuedAt := some (NewNumericDate now) }
    let s1 : UserService :=
      if s.jwtSecret = "" then { s with jwtSecret := "your-super-secret-jwt-key" } else s
    match jwt.SignedString "HS256" claims s1.jwtSecret with
    | Except.error err => (("", some err), s1)
    | Except.ok tokenString => ((tokenString, none), s1)

/-- The method `UserService.Login`: the token and the error it returns, and the
service and the world it leaves. -/
def UserService.Login {σ : Type} (b : Bcrypt) (jwt : JwtSigner) (repo : UserRepository σ)
    (s : UserService) (w : UserWorld σ) (ctx : Context) (username password : String)
    (now : Time) : (String × Option Error) × UserService × UserWorld σ :=
  if username = "" then
    (("", some Error.ErrInvalidCredentials), s, w)
  else if password = "" then
    (("", some Error.ErrInvalidCredentials), s, w)
  else
    match repo.FindByUsername w ctx username with
    | (Except.error _, w1) => (("", some Error.ErrInvalidCredentials), s, w1)
    | (Except.ok user, w1) =>
      if !User.ComparePassword b w1.heap user password then
        (("", some Error.ErrInvalidCredentials), s, w1)
      else if (w1.heap user).ID ≤ 0 then
        (("", some (Error.other "usuário com ID inválido")), s, w1)
      else
        match UserService.generateToken jwt s w1.heap user now with
        | ((_, some err), s1) => (("", some err), s1, w1)
        | ((token, none), s1) => ((token, none), s1, w1)

/-- The conditions under which the spec has `Login` fail uniformly: the username
is empty, the password is empty, the store finds no user with that username, or
the stored hash does not verify against the password. -/
def LoginRejected {σ : Type} (b : Bcrypt) (repo : UserRepository σ) (w : UserWorld σ)
    (ctx : Context) (username password : String) : Prop :=
  username = "" ∨ password = "" ∨
    (∃ err, (repo.FindByUsername w ctx username).1 = Except.error err) ∨
    (∃ user, (repo.FindByUsername w ctx username).1 = Except.ok user ∧
      User.ComparePassword b (repo.FindByUsername w ctx username).2.heap user password = false)

/-! ## internal/adapters/repository/mock_repository.go (users) -/

/-- The fields `users` and `nextID` of `MockUserRepository`. -/
structure MockUserRepository where
  users : AList (fun _ : Int => Ptr)
  nextID : Int

/-- The constructor `NewMockUserRepository`. -/
def NewMockUserRepository : MockUserRepository :=
  { users := ∅, nextID := 1 }

/-- The method `MockUserRepository.Create`. -/
def MockUserRepository.Create (w : UserWorld MockUserRepository) (_ctx : Context)
    (user : Ptr) (t1 t2 : Time) : Option Error × UserWorld MockUserRepository :=
  if w.store.users.entries.any (fun e => (w.heap e.2).Username == (w.heap user).Username) then
    (some Error.ErrDuplicateUsername, w)
  else
    let id := w.store.nextID
    let h1 := w.heap.modify user (fun u => { u with ID := id })
    let h2 := h1.modify user (fun u => { u with CreatedAt := t1 })
    let h3 := h2.modify user (fun u => { u with UpdatedAt := t2 })
    (none, { heap := h3,
             store := { users := w.store.users.insert (h3 user).ID user, nextID := id + 1 } })

/-- The method `MockUserRepository.FindByUsername`: the first user of the
iteration with that username; the order of the association list stands for the
order of the iteration. -/
def MockUserRepository.FindByUsername (w : UserWorld MockUserRepository) (_ctx : Context)
    (username : String) : Except Error Ptr × UserWorld MockUserRepository :=
  match w.store.users.entries.find? (fun e => (w.heap e.2).Username == username) with
  | some e => (Except.ok e.2, w)
  | none => (Except.error Error.ErrUserNotFound, w)

/-- The method `MockUserRepository.FindByID`. -/
def MockUserRepository.FindByID (w : UserWorld MockUserRepository) (_ctx : Context)
    (id : Int) : Except Error Ptr × UserWorld MockUserRepository :=
  match w.store.users.lookup id with
  | none => (Except.error Error.ErrUserNotFound, w)
  | some user => (Except.ok user, w)

/-- The in-memory repository as a `UserRepository`. -/
def mockUserRepository : UserRepository MockUserRepository where
  Create := MockUserRepository.Create
  FindByUsername := MockUserRepository.FindByUsername
  FindByID := MockUserRepository.FindByID

/-! ## Representation invariants of the in-memory user store -/

/-- The counter starts at 1 and only grows; keys are positive and below it. -/
def MockUserRepository.WF (s : MockUserRepository) : Prop :=
  0 < s.nextID ∧ ∀ k, k ∈ s.users → 0 < k ∧ k < s.nextID

/-- Every stored user carries the key it is stored under in its `ID` field. -/
def UserIdsMatch (w : UserWorld MockUserRepository) : Prop :=
  ∀ k p, w.store.users.lookup k = some p → (w.heap p).ID = k

/-- No two users stored under different ids have the same username. -/
def UniqueUsernames (w : UserWorld MockUserRepository) : Prop :=
  ∀ k1 p1 k2 p2, w.store.users.lookup k1 = some p1 → w.store.users.lookup k2 = some p2 →
    k1 ≠ k2 → (w.heap p1).Username ≠ (w.heap p2).Username

/-- The arguments of one call of `UserService.Register`. -/
structure RegisterCall where
  ctx : Context
  user : Ptr
  salt : Nat
  t1 : Time
  t2 : Time
  deriving Repr

/-- The world a call of `Register` leaves, whether it succeeds or fails. -/
def RegisterCall.run (b : Bcrypt) (w : UserWorld MockUserRepository) (c : RegisterCall) :
    UserWorld MockUserRepository :=
  (UserService.Register b mockUserRepository w c.ctx c.user c.salt c.t1 c.t2).2

/-- The world after a sequence of `Register` calls, first call first. -/
def runRegisterCalls (b : Bcrypt) (w : UserWorld MockUserRepository)
    (calls : List RegisterCall) : UserWorld MockUserRepository :=
  calls.foldl (RegisterCall.run b) w

/-- The worlds reachable from a new, empty user store (over any heap of records
the callers hold) by calls of `Register`. -/
def UserReachable (b : Bcrypt) (w : UserWorld MockUserRepository) : Prop :=
  ∃ (h : UserHeap) (calls : List RegisterCall),
    w = runRegisterCalls b { heap := h, store := NewMockUserRepository } calls

/-- The three invariants of the user store together. -/
def UserInv (w : UserWorld MockUserRepository) : Prop :=
  w.store.WF ∧ UserIdsMatch w ∧ UniqueUsernames w

/-- The heap `HashPassword` leaves when the hasher returns `hashed`. -/
def hashedHeap (h : UserHeap) (user : Ptr) (hashed : String) : UserHeap :=
  h.modify user (fun x => { x with Password := hashed })

/-! ## The library `github.com/golang-jwt/jwt/v5`

The library is modelled over its encodings and its signature scheme, which are
the fields of `JwtCodec`; what it does with them follows its `token.go`,
`parser.go` and `validator.go`.  Bytes and text are both `String`. -/

/-- The encodings and the signature scheme of the library.  `EncodeHeader alg`
is the first segment of a token made by `jwt.NewWithClaims`, the base64url text
of the JSON of the header; `DecodeHeader` decodes a first segment and gives the
string under "alg", `none` when the header has none.  `Sign` and `Verify` are
the methods of the signing method with the given name. -/
structure JwtCodec where
  EncodeHeader : (alg : String) → String
  EncodeClaims : JWTClaims → String
  EncodeSegment : String → String
  DecodeHeader : String → Except Error (Option String)
  DecodeClaims : String → Except Error JWTClaims
  DecodeSegment : String → Except Error String
  Sign : (alg signingString key : String) → Except Error String
  Verify : (alg signingString sig key : String) → Option Error

/-- The types of the signing methods the library registers. -/
inductive SigningMethodType
  | SigningMethodHMAC
  | SigningMethodRSA
  | SigningMethodRSAPSS
  | SigningMethodECDSA
  | SigningMethodEd25519
  | signingMethodNone
  deriving DecidableEq, Repr

/-- The function `jwt.GetSigningMethod`, by the type of the method it returns;
`none` for a name that is not registered. -/
def GetSigningMethod (alg : String) : Option SigningMethodType :=
  if alg = "HS256" ∨ alg = "HS384" ∨ alg = "HS512" then
    some SigningMethodType.SigningMethodHMAC
  else if alg = "RS256" ∨ alg = "RS384" ∨ alg = "RS512" then
    some SigningMethodType.SigningMethodRSA
  else if alg = "PS256" ∨ alg = "PS384" ∨ alg = "PS512" then
    some SigningMethodType.SigningMethodRSAPSS
  else if alg = "ES256" ∨ alg = "ES384" ∨ alg = "ES512" then
    some SigningMethodType.SigningMethodECDSA
  else if alg = "EdDSA" then some SigningMethodType.SigningMethodEd25519
  else if alg = "none" then some SigningMethodType.signingMethodNone
  else none

/-- The record `jwt.Token` with claims of type `*domain.JWTClaims`; `alg` is
the entry "alg" of `Header`, and `Method` the type of the method. -/
structure Token where
  Raw : String
  alg : String
  Method : SigningMethodType
  Claims : JWTClaims
  Signature : String
  Valid : Bool
  deriving DecidableEq, Repr

/-- The type `jwt.Keyfunc`. -/
abbrev Keyfunc := Token → Except Error String

/-- The method `(*Token).SigningString` of the token `jwt.NewWithClaims(method,
claims)`: the encoded header and the encoded claims, joined by a dot. -/
def Jwt.SigningString (codec : JwtCodec) (method : String) (claims : JWTClaims) : String :=
  codec.EncodeHeader method ++ "." ++ codec.EncodeClaims claims

/-- The method `(*Token).SignedString` of the token `jwt.NewWithClaims(method,
claims)`: the two encoded segments joined by a dot are signed, and the encoded
signature is the third segment. -/
def Jwt.SignedString (codec : JwtCodec) (method : String) (claims : JWTClaims)
    (key : String) : Except Error String :=
  let sstr := Jwt.SigningString codec method claims
  match codec.Sign method sstr key with
  | Except.error err => Except.error err
  | Except.ok sig => Except.ok (sstr ++ "." ++ codec.EncodeSegment sig)

/-- The signer the library is. -/
def jwtSigner (codec : JwtCodec) : JwtSigner where
  SignedString := Jwt.SignedString codec

/-- The method `(*Validator).Validate` of the default validator on registered
claims, at the instant `now`: an expiry date must lie after `now`, and a
not-before date must not; neither is required, and the issue date is not
looked at. -/
def Validator.Validate (claims : JWTClaims) (now : Time) : Option Error :=
  let expired : Bool :=
    match claims.ExpiresAt with
    | none => false
    | some exp => !decide (now < exp)
  let early : Bool :=
    match claims.NotBefore with
    | none => false
    | some nbf => decide (now < nbf)
  if expired ∨ early then some (Error.other "token has invalid claims") else none

/-- The function `jwt.ParseWithClaims` with no parser option, at the instant
`now`.  The token is split at its dots into three segments; header and claims
are decoded; the method named by the header is looked up; the key function
gives the key; the signature is verified under it; the claims are validated.
Every failure is an error of the library. -/
def Jwt.ParseWithClaims (codec : JwtCodec) (tokenString : String) (keyFunc : Keyfunc)
    (now : Time) : Except Error Token :=
  match tokenString.split (fun c => c == '.') with
  | [p0, p1, p2] =>
    match codec.DecodeHeader p0 with
    | Except.error _ => Except.error (Error.other "token is malformed")
    | Except.ok header =>
      match codec.DecodeClaims p1 with
      | Except.error _ => Except.error (Error.other "token is malformed")
      | Except.ok claims =>
        match header with
        | none => Except.error (Error.other "token is unverifiable")
        | some alg =>
          match GetSigningMethod alg with
          | none => Except.error (Error.other "token is unverifiable")
          | some method =>
            match codec.DecodeSegment p2 with
            | Except.error _ => Except.error (Error.other "token is malformed")
            | Except.ok sig =>
              let token : Token :=
                { Raw := tokenString, alg := alg, Method := method, Claims := claims,
                  Signature := sig, Valid := false }
              match keyFunc token with
              | Except.error _ => Except.error (Error.other "token is unverifiable")
              | Except.ok key =>
                match codec.Verify alg (p0 ++ "." ++ p1) sig key with
                | some _ => Except.error (Error.other "token signature is invalid")
                | none =>
                  match Validator.Validate claims now with
                  | some _ => Except.error (Error.other "token has invalid claims")
                  | none => Except.ok { token with Valid := true }
  | _ => Except.error (Error.other "token is malformed")

/-- What `UserService.ValidateToken` calls of the library. -/
structure JwtLib where
  ParseWithClaims : (tokenString : String) → Keyfunc → (now : Time) → Except Error Token

/-- The library as `JwtLib`. -/
def jwtLib (codec : JwtCodec) : JwtLib where
  ParseWithClaims := Jwt.ParseWithClaims codec

/-! ## internal/application/service/user_service.go, continued -/

/-- The function `NewUserService`, on the value of the environment variable
`JWT_SECRET` (empty when it is not set). -/
def NewUserService (env : String) : UserService :=
  { jwtSecret := if env = "" then "your-super-secret-jwt-key" else env }

/-- The slice expression `s[:n]` of a string: its first `n` bytes; it panics
(`none`) unless `n <= len(s)`. -/
def sliceTo (s : String) (n : Nat) : Option ByteArray :=
  if n ≤ s.utf8ByteSize then some (s.toUTF8.extract 0 n) else none

/-- The key function of `UserService.ValidateToken`: the secret for a method of
type `*jwt.SigningMethodHMAC`, an error for every other. -/
def UserService.ValidateToken.keyFunc (s : UserService) : Keyfunc :=
  fun token =>
    if token.Method = SigningMethodType.SigningMethodHMAC then Except.ok s.jwtSecret
    else Except.error Error.ErrInvalidToken

/-- The method `UserService.ValidateToken`; `now` is the reading of the clock in
the library's validator.  `none` is a panic; nil claims with an error is
`Except.error`. -/
def UserService.ValidateToken (lib : JwtLib) (s : UserService) (tokenString : String)
    (now : Time) : Option (Except Error JWTClaims) :=
  if tokenString.utf8ByteSize < 10 then
    some (Except.error Error.ErrInvalidToken)
  else
    match sliceTo tokenString 10 with
    | none => none
    | some _ =>
      match lib.ParseWithClaims tokenString (UserService.ValidateToken.keyFunc s) now with
      | Except.error _ => some (Except.error Error.ErrInvalidToken)
      | Except.ok token =>
        if !token.Valid then some (Except.error Error.ErrInvalidToken)
        else some (Except.ok token.Claims)

/-- What the theorems on issued tokens take of the codec, for one method name,
one set of claims and one key: the encoded segments contain no dot, the header
has at least ten bytes, decoding undoes encoding, signing succeeds, and the
signature verifies under the key it was made with.  Nothing is taken about
other keys: under HMAC two keys can verify the same signatures. -/
def JwtCodec.RoundTrips (codec : JwtCodec) (alg : String) (claims : JWTClaims)
    (key : String) : Prop :=
  '.' ∉ (codec.EncodeHeader alg).data ∧
  10 ≤ (codec.EncodeHeader alg).utf8ByteSize ∧
  '.' ∉ (codec.EncodeClaims claims).data ∧
  codec.DecodeHeader (codec.EncodeHeader alg) = Except.ok (some alg) ∧
  codec.DecodeClaims (codec.EncodeClaims claims) = Except.ok claims ∧
  ∃ sig,
    codec.Sign alg (Jwt.SigningString codec alg claims) key = Except.ok sig ∧
    '.' ∉ (codec.EncodeSegment sig).data ∧
    codec.DecodeSegment (codec.EncodeSegment sig) = Except.ok sig ∧
    codec.Verify alg (Jwt.SigningString codec alg claims) sig key = none

/-- The claims of a token for the user `u` issued at the instant `now`: the
issue date is `now` cut to the whole second, and the expiry date is one hour
after the issue date. -/
def issuedClaims (u : User) (now : Time) : JWTClaims :=
  { UserID := u.ID, Username := u.Username,
    ExpiresAt := some (NewNumericDate now + Hour), NotBefore := none,
    IssuedAt := some (NewNumericDate now) }

/-- The secret `UserService.generateToken` signs with: the default when the
field is empty. -/
def signingSecret (s : UserService) : String :=
  if s.jwtSecret = "" then "your-super-secret-jwt-key" else s.jwtSecret

/-- The token `Jwt.ParseWithClaims` hands to the key function when it parses
the token signed under `alg` for `claims` with the signature `sig`. -/
def parsedToken (codec : JwtCodec) (alg : String) (method : SigningMethodType)
    (claims : JWTClaims) (sig : String) : Token :=
  { Raw := codec.EncodeHeader alg ++ "." ++ codec.EncodeClaims claims ++ "." ++
      codec.EncodeSegment sig,
    alg := alg, Method := method, Claims := claims, Signature := sig, Valid := false }

/-! ## internal/application/service/user_service_interface.go -/

/-- The methods of the interface `UserServiceInterface` that `AuthHandler.Login`
and the middleware call, over a state `S` of the service behind it.  A method
reads its clock itself.  `ValidateToken` returns claims and a nil error, or an
error. -/
structure UserServiceInterface (S : Type) where
  Login : S → Context → (username password : String) → (String × Option Error) × S
  ValidateToken : S → (tokenString : String) → Except Error JWTClaims

/-! ## internal/adapters/http/auth_handler.go -/

/-- The function `respondWithError` of `auth_handler.go`, without the time stamp
of the body. -/
def respondWithError (status : Nat) (message : String) : HttpResponse :=
  { status := status, item := none, message := some message }

/-- The method `AuthHandler.Login`. -/
def AuthHandler.Login {S : Type} (userService : UserServiceInterface S) (st : S)
    (c : GinContext) : HttpResponse × S :=
  match c.loginBody with
  | Except.error err => (RespondWithError 400 ("Dados inválidos: " ++ errorText err), st)
  | Except.ok req =>
    match userService.Login st c.Request req.Username req.Password with
    | ((_, some _), st1) => (RespondWithError 401 "Credenciais inválidas", st1)
    | ((token, none), st1) =>
      ({ status := 200, item := none, message := none, token := some token }, st1)

/-! ## internal/adapters/http/auth_middleware.go -/

/-- What the middleware does with a request: it answers and aborts, so that
the handlers after it do not run, or it calls `c.Next()`, which runs them on the
context as the middleware leaves it. -/
inductive MiddlewareResult
  | aborted (response : HttpResponse)
  | next (c : GinContext)

/-- The function `strings.HasPrefix(s, "Bearer ")`. -/
def hasBearer (s : String) : Bool :=
  "Bearer ".data.isPrefixOf s.data

/-- The function `strings.TrimPrefix(s, "Bearer ")`: `s` without its first
seven bytes when it starts with "Bearer ", and `s` otherwise. -/
def trimBearer (s : String) : String :=
  if hasBearer s then String.mk (s.data.drop 7) else s

/-- The handler `AuthMiddleware(userService)` returns. -/
def AuthMiddleware {S : Type} (userService : UserServiceInterface S) (st : S)
    (c : GinContext) : MiddlewareResult :=
  let authHeader := c.authorization
  if authHeader = "" ∨ !hasBearer authHeader then
    MiddlewareResult.aborted
      (respondWithError 401 "Token de autenticação ausente ou inválido")
  else
    let tokenString := trimBearer authHeader
    match userService.ValidateToken st tokenString with
    | Except.error _ =>
      MiddlewareResult.aborted
        (respondWithError 401 "Token de autenticação inválido ou expirado")
    | Except.ok claims =>
      MiddlewareResult.next ((c.SetUserID claims.UserID).SetUsername claims.Username)

/-! ## Sample runs

Concrete heaps, calls and worlds, on which the theorems below are instantiated
and the code is evaluated. -/

/-- A valid item with the given code and stock, as a caller submits it. -/
def exItem (code : String) (stock : Int) : Item :=
  { ID := 0, Code := code, Title := "title", Description := "text", Price := 5, Stock := stock,
    Status := "PENDING", CreatedAt := 0, UpdatedAt := 0, CreatedBy := 0, UpdatedBy := 0 }

/-- The records the caller holds: code "A" at address 0, "B" at 1, "A" again at
2, and "C" everywhere else. -/
def exHeap : ItemHeap :=
  fun p => if p = 0 then exItem "A" 3 else if p = 1 then exItem "B" 0
    else if p = 2 then exItem "A" 7 else exItem "C" 4

/-- A context that carries user 9. -/
def exCtx : Context := { userID := some 9 }

/-- Two creates with different codes, then an update of the second item to the
code of the first. -/
def exCalls : List ItemCall :=
  [ItemCall.Create exCtx 0 10 11, ItemCall.Create exCtx 1 20 21, ItemCall.Update exCtx 2 2 30]

/-- The new store, before any call. -/
def exWorld0 : ItemWorld MockItemRepository :=
  { heap := exHeap, store := NewMockItemRepository }

/-- The world after the first create. -/
def exWorld1 : ItemWorld MockItemRepository :=
  runItemCalls exWorld0 (exCalls.take 1)

/-- The world after the two creates. -/
def exWorld2 : ItemWorld MockItemRepository :=
  runItemCalls exWorld0 (exCalls.take 2)

/-- The world after the rejected update. -/
def exWorld3 : ItemWorld MockItemRepository :=
  runItemCalls exWorld0 exCalls

/-- A hasher with the input limit of bcrypt, 72 bytes; the hash it returns is a
placeholder, the password behind a fixed prefix. -/
def exBcrypt : Bcrypt where
  GenerateFromPassword := fun _salt password _cost =>
    if password.utf8ByteSize > 72 then
      Except.error (Error.other "bcrypt: password length exceeds 72 bytes")
    else Except.ok ("$2a$10$" ++ password)
  CompareHashAndPassword := fun hashedPassword password =>
    if hashedPassword = "$2a$10$" ++ password then none
    else some (Error.other "crypto/bcrypt: hashedPassword is not the hash of the given password")

/-- A signer that always succeeds; the token it returns is a placeholder. -/
def exJwt : JwtSigner where
  SignedString := fun method claims key =>
    Except.ok (method ++ "." ++ claims.Username ++ "." ++ key)

/-- A new user with the given name and password. -/
def exUser (username password : String) : User :=
  { ID := 0, Username := username, Password := password, CreatedAt := 0, UpdatedAt := 0 }

/-- The users the caller holds: "ana" at address 0, "ana" again with a password
of 87 bytes at 1, "ana" with another password at 2, an empty name at 3, and
"bob" everywhere else. -/
def exUserHeap : UserHeap :=
  fun p => if p = 0 then exUser "ana" "secret"
    else if p = 1 then
      exUser "ana"
        "correct horse battery staple correct horse battery staple correct horse battery staple"
    else if p = 2 then exUser "ana" "hunter22"
    else if p = 3 then exUser "" "secret"
    else exUser "bob" "secret"

/-- The new user store, before any call. -/
def exUserWorld0 : UserWorld MockUserRepository :=
  { heap := exUserHeap, store := NewMockUserRepository }

/-- The user store after "ana" registered. -/
def exUserWorld1 : UserWorld MockUserRepository :=
  runRegisterCalls exBcrypt exUserWorld0
    [{ ctx := exCtx, user := 0, salt := 0, t1 := 10, t2 := 11 }]

/-- A service with a signing secret. -/
def exService : UserService := { jwtSecret := "k" }

/-- Fifteen records with fifteen codes, all in stock. -/
def exHeap15 : ItemHeap :=
  fun p => exItem (String.mk (List.replicate (p + 1) 'c')) 1

/-- Fifteen creates on a new store. -/
def exCalls15 : List ItemCall :=
  (List.range 15).map (fun p => ItemCall.Create exCtx p 10 11)

/-- A store of fifteen items, all "ACTIVE". -/
def exWorld15 : ItemWorld MockItemRepository :=
  runItemCalls { heap := exHeap15, store := NewMockItemRepository } exCalls15

/-- The keys of `exWorld15` in rising order, one of its iteration orders. -/
def exOrder15 : List Int :=
  (List.range 15).map (fun p => (p : Int) + 1)

/-- An SQL-backed store with one row: item 1, code "A", created and last updated
by user 5 at the instant 500; the database clock shows 1000. -/
def exSqlWorld : ItemWorld ItemDB :=
  { heap := exHeap,
    store :=
      { rows := (∅ : AList (fun _ : Int => Item)).insert 1
          { ID := 1, Code := "A", Title := "title", Description := "text", Price := 5,
            Stock := 3, Status := "ACTIVE", CreatedAt := 500, UpdatedAt := 500,
            CreatedBy := 5, UpdatedBy := 5 },
        nextID := 2, now := 1000, nextPtr := 10 } }

/-- The body of a valid `PUT`: new title, price and stock for the code "A". -/
def exUpdateRequest : UpdateRequest :=
  { Code := "A", Title := "new title", Description := "new text", Price := 7, Stock := 0 }

/-- The gin context of `PUT /items/1` with that body, after the auth middleware
has set the gin key "userID" to 9; the context of the request itself carries no
"userID". -/
def exGinContext : GinContext :=
  GinContext.SetUserID
    { paramID := Except.ok 1, userID := none, Request := { userID := none },
      updateBody := Except.ok exUpdateRequest } 9

/-- The user "ana" with the id 1, wherever the pointer. -/
def exUserHeap1 : UserHeap :=
  fun _ => { ID := 1, Username := "ana", Password := "$2a$10$secret", CreatedAt := 10,
             UpdatedAt := 11 }

/-- The claims of a token for "ana" issued half a second after the instant
1 s: issued at 1 s, expiring at 3601 s. -/
def exClaims : JWTClaims :=
  { UserID := 1, Username := "ana", ExpiresAt := some 3601000000000, NotBefore := none,
    IssuedAt := some 1000000000 }

/-- The key as HMAC uses it, for a key that is not longer than the block of the
hash: HMAC pads such a key with zero bytes to the length of the block, so zero
bytes at the end of the key make no difference. -/
def hmacKey (key : String) : String :=
  String.mk (key.data.reverse.dropWhile (fun c => c == Char.ofNat 0)).reverse

/-- A codec for the sample tokens.  A header is the name of the method behind a
fixed text, and the headers of three methods decode; the claims `exClaims` have
an encoding that decodes; a signature is the name of the method and the key as
HMAC uses it, and is its own encoding. -/
def exCodec : JwtCodec where
  EncodeHeader := fun alg => "header-" ++ alg
  EncodeClaims := fun c => if c = exClaims then "claims-ana" else "claims"
  EncodeSegment := fun b => b
  DecodeHeader := fun seg =>
    if seg = "header-HS256" then Except.ok (some "HS256")
    else if seg = "header-HS384" then Except.ok (some "HS384")
    else if seg = "header-none" then Except.ok (some "none")
    else Except.error (Error.other "illegal base64 data")
  DecodeClaims := fun seg =>
    if seg = "claims-ana" then Except.ok exClaims
    else Except.error (Error.other "illegal base64 data")
  DecodeSegment := fun seg => Except.ok seg
  Sign := fun alg _signingString key => Except.ok (alg ++ ":" ++ hmacKey key)
  Verify := fun alg _signingString sig key =>
    if sig = alg ++ ":" ++ hmacKey key then none
    else some (Error.other "signature is invalid")

/-- A service whose secret is that of `exService` with a zero byte after it. -/
def exPaddedService : UserService := { jwtSecret := "k\x00" }

/-- The instant half a second after 1 s. -/
def exIssueTime : Time := 1500000000

/-- The token `exService` issues for "ana" at `exIssueTime`. -/
def exToken : String :=
  (UserService.generateToken (jwtSigner exCodec) exService exUserHeap1 0 exIssueTime).1.1

/-- A token for "ana" with the same claims, signed with the secret of
`exService` under HS384. -/
def exToken384 : String :=
  match Jwt.SignedString exCodec "HS384" exClaims "k" with
  | Except.ok tokenString => tokenString
  | Except.error _ => ""

/-- A signer that answers with the issue date of the claims it is given: one
text when it is `exIssueTime` itself, another when it is `exIssueTime` cut to
the whole second. -/
def exProbeJwt : JwtSigner where
  SignedString := fun _method claims _key =>
    if claims.IssuedAt = some exIssueTime then Except.ok "issued at 1.5 s"
    else if claims.IssuedAt = some (NewNumericDate exIssueTime) then Except.ok "issued at 1 s"
    else Except.ok "issued at another instant"

/-- The gin context of `GET /items?page=1`, with no `limit` and no `status`,
for user 9. -/
def exListContext : GinContext :=
  { paramID := Except.error (Error.other "strconv.ParseInt: parsing \"\": invalid syntax"),
    userID := some 9, Request := { userID := none },
    updateBody := Except.error (Error.other "EOF"),
    queryStatus := "", queryLimit := Except.ok 10, queryPage := Except.ok 1 }

/-- A user service whose `Login` fails with a database error, and whose
`ValidateToken` accepts the one token "valid-token", with the claims
`exClaims`. -/
def exFailingUserService : UserServiceInterface Unit where
  Login := fun st _ctx _username _password => (("", some (Error.other "database error")), st)
  ValidateToken := fun _st tokenString =>
    if tokenString = "valid-token" then Except.ok exClaims
    else Except.error Error.ErrInvalidToken

/-- The gin context of `POST /login` with the username "testuser" and the
password "password123" in the body. -/
def exLoginContext : GinContext :=
  { paramID := Except.error (Error.other "strconv.ParseInt: parsing \"\": invalid syntax"),
    userID := none, Request := { userID := none },
    updateBody := Except.error (Error.other "EOF"),
    loginBody := Except.ok { Username := "testuser", Password := "password123" } }

/-- An SQL-backed store with no row; the callers hold the records of `exHeap`. -/
def exSqlWorld0 : ItemWorld ItemDB :=
  { heap := exHeap, store := { rows := ∅, nextID := 1, now := 1000, nextPtr := 10 } }

/-- The gin context of a request with the given `Authorization` header, before
the middleware. -/
def exAuthContext (authorization : String) : GinContext :=
  { paramID := Except.ok 1, userID := none, Request := { userID := none },
    updateBody := Except.error (Error.other "EOF"), authorization := authorization }

/-- The body of a valid `POST`: the item "A" with a stock of 3. -/
def exCreateRequest : CreateRequest :=
  { Code := "A", Title := "title", Description := "text", Price := 5, Stock := 3 }

/-- The gin context of `POST /items` for user 9, with that body. -/
def exCreateContext : GinContext :=
  { paramID := Except.error (Error.other "strconv.ParseInt: parsing \"\": invalid syntax"),
    userID := some 9, Request := { userID := none },
    updateBody := Except.error (Error.other "EOF"),
    createBody := Except.ok exCreateRequest }

/-- The world after the two creates, the caller holding at address 7 a record
with the code "Z" and the price 0, which is not valid. -/
def exWorldInvalid : ItemWorld MockItemRepository :=
  { exWorld2 with heap := exWorld2.heap.write 7 { exItem "Z" 4 with Price := 0 } }

/-- A hasher that returns the password itself as its hash and verifies by
comparing: it verifies what it hashed. -/
def exPlainBcrypt : Bcrypt where
  GenerateFromPassword := fun _salt password _cost => Except.ok password
  CompareHashAndPassword := fun hashedPassword password =>
    if hashedPassword = password then none
    else some (Error.other "crypto/bcrypt: hashedPassword is not the hash of the given password")

/-! ## Lemmas: heaps and map loops -/

theorem ItemHeap_write_same (h : ItemHeap) (p : Ptr) (v : Item) : h.write p v p = v := by
  simp [ItemHeap.write]

theorem ItemHeap_write_ne (h : ItemHeap) {p q : Ptr} (v : Item) (hne : q ≠ p) :
    h.write p v q = h q := by
  simp [ItemHeap.write, hne]

theorem any_entries_iff (s : AList (fun _ : Int => Ptr)) (f : (Σ _ : Int, Ptr) → Bool) :
    s.entries.any f = true ↔ ∃ k p, s.lookup k = some p ∧ f ⟨k, p⟩ = true := by
  rw [List.any_eq_true]
  constructor
  · rintro ⟨⟨k, p⟩, hm, hf⟩
    exact ⟨k, p, AList.mem_lookup_iff.2 hm, hf⟩
  · rintro ⟨k, p, hl, hf⟩
    exact ⟨⟨k, p⟩, AList.mem_lookup_iff.1 hl, hf⟩

theorem any_entries_false_iff (s : AList (fun _ : Int => Ptr)) (f : (Σ _ : Int, Ptr) → Bool) :
    s.entries.any f = false ↔ ∀ k p, s.lookup k = some p → f ⟨k, p⟩ = false := by
  rw [← Bool.not_eq_true, any_entries_iff]
  constructor
  · intro h k p hl
    by_contra hf
    exact h ⟨k, p, hl, by simpa using hf⟩
  · rintro h ⟨k, p, hl, hf⟩
    rw [h k p hl] at hf
    exact Bool.noConfusion hf

theorem ItemHeap_modify_same (h : ItemHeap) (p : Ptr) (f : Item → Item) :
    h.modify p f p = f (h p) := by
  simp [ItemHeap.modify]

theorem ItemHeap_modify_ne (h : ItemHeap) {p q : Ptr} (f : Item → Item) (hne : q ≠ p) :
    h.modify p f q = h q := by
  simp [ItemHeap.modify, hne]

theorem deriveStatus_same (h : ItemHeap) (p : Ptr) :
    deriveStatus h p p =
      { h p with Status := if (h p).Stock > 0 then "ACTIVE" else "INACTIVE" } := by
  unfold deriveStatus
  split <;> simp_all [ItemHeap_modify_same]

theorem deriveStatus_ne (h : ItemHeap) {p q : Ptr} (hne : q ≠ p) :
    deriveStatus h p q = h q := by
  unfold deriveStatus
  split <;> simp [ItemHeap_modify_ne _ _ hne]

theorem Save_mock_ok (w : ItemWorld MockItemRepository) (ctx : Context) (item : Ptr)
    (t1 t2 : Time)
    (hfree : ∀ k p, w.store.items.lookup k = some p → (w.heap p).Code ≠ (w.heap item).Code) :
    ∃ H : ItemHeap,
      MockItemRepository.Save w ctx item t1 t2 =
        (none, { heap := H,
                 store := { items := w.store.items.insert w.store.nextID item,
                            nextID := w.store.nextID + 1 } }) ∧
      (∀ q, q ≠ item → H q = w.heap q) ∧
      H item = { w.heap item with ID := w.store.nextID, CreatedAt := t1, UpdatedAt := t2 } := by
  unfold MockItemRepository.Save
  rw [if_neg]
  · simp only [ItemHeap_modify_same]
    refine ⟨_, rfl, ?_, ?_⟩
    · intro q hq
      simp [ItemHeap_modify_ne _ _ hq]
    · simp [ItemHeap_modify_same]
  · rw [Bool.not_eq_true, any_entries_false_iff]
    intro k p hl
    simp [hfree k p hl]

theorem stampCreator_same (h : ItemHeap) (ctx : Context) (item : Ptr) :
    stampCreator h ctx item item =
      { h item with
        CreatedBy := ctx.userID.getD (h item).CreatedBy
        UpdatedBy := ctx.userID.getD (h item).UpdatedBy } := by
  unfold stampCreator
  cases ctx.userID <;> simp [ItemHeap_modify_same]

theorem stampCreator_ne (h : ItemHeap) (ctx : Context) {item q : Ptr} (hne : q ≠ item) :
    stampCreator h ctx item q = h q := by
  unfold stampCreator
  cases ctx.userID <;> simp [ItemHeap_modify_ne _ _ hne]

theorem Create_mock_ok (w : ItemWorld MockItemRepository) (ctx : Context) (item : Ptr)
    (t1 t2 : Time)
    (hvalid : (Item.ValidateAt w.heap item).1 = none)
    (hfree : ∀ k p, w.store.items.lookup k = some p → (w.heap p).Code ≠ (w.heap item).Code) :
    ∃ H : ItemHeap,
      ItemService.Create mockItemRepository w ctx item t1 t2 =
        (none, { heap := H,
                 store := { items := w.store.items.insert w.store.nextID item,
                            nextID := w.store.nextID + 1 } }) ∧
      (∀ q, q ≠ item → H q = w.heap q) ∧
      H item =
        { w.heap item with
          ID := w.store.nextID
          Status := if (w.heap item).Stock > 0 then "ACTIVE" else "INACTIVE"
          CreatedAt := t1
          UpdatedAt := t2
          CreatedBy := ctx.userID.getD (w.heap item).CreatedBy
          UpdatedBy := ctx.userID.getD (w.heap item).UpdatedBy } := by
  have hnotstored : ∀ k p, w.store.items.lookup k = some p → p ≠ item := by
    intro k p hl hp
    exact hfree k p hl (by rw [hp])
  have hex : w.store.items.entries.any
      (fun e => (w.heap e.2).Code == (w.heap item).Code && e.1 != 0) = false := by
    rw [any_entries_false_iff]
    intro k p hl
    simp [hfree k p hl]
  have hprep_ne : ∀ q, q ≠ item →
      stampCreator (deriveStatus w.heap item) ctx item q = w.heap q := by
    intro q hq
    rw [stampCreator_ne _ _ hq, deriveStatus_ne _ hq]
  have hprep_same : stampCreator (deriveStatus w.heap item) ctx item item =
      { w.heap item with
        Status := if (w.heap item).Stock > 0 then "ACTIVE" else "INACTIVE"
        CreatedBy := ctx.userID.getD (w.heap item).CreatedBy
        UpdatedBy := ctx.userID.getD (w.heap item).UpdatedBy } := by
    rw [stampCreator_same, deriveStatus_same]
  obtain ⟨H, hS, hne, hsame⟩ := Save_mock_ok
    { w with heap := stampCreator (deriveStatus w.heap item) ctx item } ctx item t1 t2 (by
      intro k p hl
      have hp := hnotstored k p hl
      simp only [hprep_ne p hp, hprep_same]
      exact hfree k p hl)
  refine ⟨H, ?_, ?_, ?_⟩
  · unfold ItemService.Create
    rw [hvalid]
    simp only [mockItemRepository, MockItemRepository.ExistsByCode, hex]
    simp only [Bool.false_eq_true, if_false]
    exact hS
  · intro q hq
    rw [hne q hq]
    exact hprep_ne q hq
  · rw [hsame]
    simp only [hprep_same]

/-! ## Lemmas: the item service on the in-memory store -/

theorem FindByID_mock_some (w : ItemWorld MockItemRepository) (ctx : Context) {k : Int}
    {p : Ptr} (h : w.store.items.lookup k = some p) :
    ItemService.GetByID mockItemRepository w ctx k = (Except.ok p, w) := by
  simp [ItemService.GetByID, mockItemRepository, MockItemRepository.FindByID, h]

theorem FindByID_mock_none (w : ItemWorld MockItemRepository) (ctx : Context) {k : Int}
    (h : w.store.items.lookup k = none) :
    ItemService.GetByID mockItemRepository w ctx k = (Except.error Error.ErrItemNotFound, w) := by
  simp [ItemService.GetByID, mockItemRepository, MockItemRepository.FindByID, h]

theorem Create_mock_none_inv (w w1 : ItemWorld MockItemRepository) (ctx : Context)
    (item : Ptr) (t1 t2 : Time)
    (h : ItemService.Create mockItemRepository w ctx item t1 t2 = (none, w1)) :
    (w.heap item).Validate = none ∧
      ∀ k p, w.store.items.lookup k = some p → (w.heap p).Code ≠ (w.heap item).Code := by
  unfold ItemService.Create at h
  simp only [Item.ValidateAt] at h
  cases hv : (w.heap item).Validate with
  | some err => rw [hv] at h; simp at h
  | none =>
    refine ⟨rfl, ?_⟩
    rw [hv] at h
    simp only [mockItemRepository, MockItemRepository.ExistsByCode] at h
    split_ifs at h with hex
    · simp at h
    · simp only [MockItemRepository.Save] at h
      split_ifs at h with hdup
      · simp at h
      · rw [Bool.not_eq_true, any_entries_false_iff] at hdup
        intro k p hl hcode
        have hd := hdup k p hl
        by_cases hp : p = item
        · subst hp
          simp at hd
        · simp only [stampCreator_ne _ _ hp, deriveStatus_ne _ hp, stampCreator_same,
            deriveStatus_same] at hd
          simp [hcode] at hd

theorem copyFields_ne (h : ItemHeap) (existing item : Ptr) {q : Ptr} (hne : q ≠ existing) :
    copyFields h existing item q = h q := by
  simp [copyFields, ItemHeap_modify_ne _ _ hne]

theorem copyFields_same (h : ItemHeap) (existing item : Ptr) :
    copyFields h existing item existing =
      { h existing with
        Code := (h item).Code
        Title := (h item).Title
        Description := (h item).Description
        Price := (h item).Price
        Stock := (h item).Stock } := by
  by_cases hi : item = existing
  · subst hi
    simp [copyFields, ItemHeap_modify_same]
  · simp [copyFields, ItemHeap_modify_same, ItemHeap_modify_ne _ _ hi]

theorem stampUpdater_same (h : ItemHeap) (ctx : Context) (existing : Ptr) :
    stampUpdater h ctx existing existing =
      { h existing with UpdatedBy := ctx.userID.getD (h existing).UpdatedBy } := by
  unfold stampUpdater
  cases ctx.userID <;> simp [ItemHeap_modify_same]

theorem stampUpdater_ne (h : ItemHeap) (ctx : Context) {existing q : Ptr} (hne : q ≠ existing) :
    stampUpdater h ctx existing q = h q := by
  unfold stampUpdater
  cases ctx.userID <;> simp [ItemHeap_modify_ne _ _ hne]

/-- The heap in which `ItemService.Update` validates: at `existing`. -/
theorem updatePrep_same (h : ItemHeap) (ctx : Context) (existing item : Ptr) :
    stampUpdater (deriveStatus (copyFields h existing item) existing) ctx existing existing =
      { h existing with
        Code := (h item).Code
        Title := (h item).Title
        Description := (h item).Description
        Price := (h item).Price
        Stock := (h item).Stock
        Status := if (h item).Stock > 0 then "ACTIVE" else "INACTIVE"
        UpdatedBy := ctx.userID.getD (h existing).UpdatedBy } := by
  rw [stampUpdater_same, deriveStatus_same, copyFields_same]

theorem updatePrep_ne (h : ItemHeap) (ctx : Context) (existing item : Ptr) {q : Ptr}
    (hne : q ≠ existing) :
    stampUpdater (deriveStatus (copyFields h existing item) existing) ctx existing q = h q := by
  rw [stampUpdater_ne _ _ hne, deriveStatus_ne _ hne, copyFields_ne _ _ _ hne]

theorem Item_Validate_congr {i j : Item} (h1 : i.Code = j.Code) (h2 : i.Title = j.Title)
    (h3 : i.Description = j.Description) (h4 : i.Price = j.Price) (h5 : i.Stock = j.Stock) :
    i.Validate = j.Validate := by
  simp [Item.Validate, h1, h2, h3, h4, h5]


theorem ExistsByCode_mock_iff (w : ItemWorld MockItemRepository) (code : String) (ex : Int) :
    w.store.items.entries.any (fun e => (w.heap e.2).Code == code && e.1 != ex) = true ↔
      HeldByOther w ex code := by
  rw [any_entries_iff]
  constructor
  · rintro ⟨k, q, hl, hf⟩
    simp only [Bool.and_eq_true, beq_iff_eq, bne_iff_ne] at hf
    exact ⟨k, q, hl, hf.2, hf.1⟩
  · rintro ⟨k, q, hl, hk, hc⟩
    refine ⟨k, q, hl, ?_⟩
    simp only [Bool.and_eq_true, beq_iff_eq, bne_iff_ne]
    exact ⟨hc, hk⟩

theorem updatePrep_held_iff (w : ItemWorld MockItemRepository) (ctx : Context) (id : Int)
    (item p : Ptr) (hids : IdsMatch w) (hl : w.store.items.lookup id = some p) (code : String) :
    HeldByOther
        { w with heap :=
            stampUpdater (deriveStatus (copyFields w.heap p item) p) ctx p } id code ↔
      HeldByOther w id code := by
  have hq : ∀ k q, w.store.items.lookup k = some q → k ≠ id → q ≠ p := by
    intro k q hk hne hqp
    subst hqp
    exact hne ((hids k q hk).symm.trans (hids id q hl))
  constructor
  · rintro ⟨k, q, hk, hne, hc⟩
    refine ⟨k, q, hk, hne, ?_⟩
    simpa only [updatePrep_ne _ _ _ _ (hq k q hk hne)] using hc
  · rintro ⟨k, q, hk, hne, hc⟩
    refine ⟨k, q, hk, hne, ?_⟩
    simpa only [updatePrep_ne _ _ _ _ (hq k q hk hne)] using hc

theorem Update_mock_dup (w : ItemWorld MockItemRepository) (ctx : Context) (id : Int)
    (item p : Ptr) (t : Time) (hids : IdsMatch w) (hl : w.store.items.lookup id = some p)
    (hvalid : (w.heap item).Validate = none)
    (hheld : HeldByOther w id (w.heap item).Code) :
    ItemService.Update mockItemRepository w ctx id item t =
      (some Error.ErrDuplicateCode,
        { w with heap := stampUpdater (deriveStatus (copyFields w.heap p item) p) ctx p }) := by
  have hv : (stampUpdater (deriveStatus (copyFields w.heap p item) p) ctx p p).Validate
      = none := by
    rw [← hvalid, updatePrep_same]
    exact Item_Validate_congr rfl rfl rfl rfl rfl
  have hcode : (stampUpdater (deriveStatus (copyFields w.heap p item) p) ctx p p).Code =
      (w.heap item).Code := by
    rw [updatePrep_same]
  have hex := (ExistsByCode_mock_iff
    { w with heap := stampUpdater (deriveStatus (copyFields w.heap p item) p) ctx p }
    (w.heap item).Code id).2 ((updatePrep_held_iff w ctx id item p hids hl _).2 hheld)
  unfold ItemService.Update
  simp only [mockItemRepository, MockItemRepository.FindByID, hl, Item.ValidateAt, hv,
    MockItemRepository.ExistsByCode, hcode]
  simp only at hex
  rw [if_pos hex]

theorem MockItemRepository_Update_ok (w : ItemWorld MockItemRepository) (ctx : Context)
    (item : Ptr) (t : Time) (id : Int) (p : Ptr) (hid : (w.heap item).ID = id)
    (hl : w.store.items.lookup id = some p)
    (hno : ¬ (w.store.items.entries.any
      (fun e => (w.heap e.2).Code == (w.heap item).Code && e.1 != id) = true)) :
    MockItemRepository.Update w ctx item t =
      (none, { heap := w.heap.modify item (fun i => { i with UpdatedAt := t }),
               store := { w.store with items := w.store.items.insert id item } }) := by
  unfold MockItemRepository.Update
  rw [hid, hl]
  rw [if_neg (by simp), if_neg hno]
  simp only [ItemHeap_modify_same, hid]

theorem Update_mock_ok (w : ItemWorld MockItemRepository) (ctx : Context) (id : Int)
    (item p : Ptr) (t : Time) (hids : IdsMatch w) (hl : w.store.items.lookup id = some p)
    (hvalid : (w.heap item).Validate = none)
    (hfree : ¬ HeldByOther w id (w.heap item).Code) :
    ∃ H : ItemHeap,
      ItemService.Update mockItemRepository w ctx id item t =
        (none, { heap := H, store := { w.store with items := w.store.items.insert id p } }) ∧
      H p =
        { w.heap p with
          Code := (w.heap item).Code
          Title := (w.heap item).Title
          Description := (w.heap item).Description
          Price := (w.heap item).Price
          Stock := (w.heap item).Stock
          Status := if (w.heap item).Stock > 0 then "ACTIVE" else "INACTIVE"
          UpdatedAt := t
          UpdatedBy := ctx.userID.getD (w.heap p).UpdatedBy } ∧
      H item = H p ∧
      ∀ q, q ≠ p → q ≠ item → H q = w.heap q := by
  have hv : (stampUpdater (deriveStatus (copyFields w.heap p item) p) ctx p p).Validate
      = none := by
    rw [← hvalid, updatePrep_same]
    exact Item_Validate_congr rfl rfl rfl rfl rfl
  have hcode : (stampUpdater (deriveStatus (copyFields w.heap p item) p) ctx p p).Code =
      (w.heap item).Code := by
    rw [updatePrep_same]
  have hID : (stampUpdater (deriveStatus (copyFields w.heap p item) p) ctx p p).ID = id := by
    rw [updatePrep_same]
    exact hids id p hl
  have hex : ¬ (w.store.items.entries.any (fun e =>
      (stampUpdater (deriveStatus (copyFields w.heap p item) p) ctx p e.2).Code ==
        (w.heap item).Code && e.1 != id) = true) := by
    intro hex
    exact hfree ((updatePrep_held_iff w ctx id item p hids hl _).1
      ((ExistsByCode_mock_iff
        { w with heap := stampUpdater (deriveStatus (copyFields w.heap p item) p) ctx p }
        (w.heap item).Code id).1 hex))
  refine ⟨((stampUpdater (deriveStatus (copyFields w.heap p item) p) ctx p).modify p
      (fun i => { i with UpdatedAt := t })).write item
      (((stampUpdater (deriveStatus (copyFields w.heap p item) p) ctx p).modify p
      (fun i => { i with UpdatedAt := t })) p), ?_, ?_, ?_, ?_⟩
  · unfold ItemService.Update
    simp only [mockItemRepository, MockItemRepository.FindByID, hl, Item.ValidateAt, hv,
      MockItemRepository.ExistsByCode, hcode]
    rw [if_neg hex]
    simp only
    rw [MockItemRepository_Update_ok
      { heap := stampUpdater (deriveStatus (copyFields w.heap p item) p) ctx p, store := w.store }
      ctx p t id p hID hl (by simpa only [hcode] using hex)]
  · have : (((stampUpdater (deriveStatus (copyFields w.heap p item) p) ctx p).modify p
      (fun i => { i with UpdatedAt := t })).write item
      (((stampUpdater (deriveStatus (copyFields w.heap p item) p) ctx p).modify p
      (fun i => { i with UpdatedAt := t })) p)) p =
      ((stampUpdater (deriveStatus (copyFields w.heap p item) p) ctx p).modify p
      (fun i => { i with UpdatedAt := t })) p := by
      by_cases hpi : p = item
      · subst hpi
        rw [ItemHeap_write_same]
      · rw [ItemHeap_write_ne _ _ hpi]
    rw [this, ItemHeap_modify_same, updatePrep_same]
  · rw [ItemHeap_write_same]
    by_cases hpi : p = item
    · subst hpi
      rw [ItemHeap_write_same]
    · rw [ItemHeap_write_ne _ _ hpi]
  · intro q hqp hqi
    rw [ItemHeap_write_ne _ _ hqi, ItemHeap_modify_ne _ _ hqp, updatePrep_ne _ _ _ _ hqp]

theorem forall_lookup_iff_entries (s : AList (fun _ : Int => Ptr)) (P : Int → Ptr → Prop) :
    (∀ k p, s.lookup k = some p → P k p) ↔ ∀ e ∈ s.entries, P e.1 e.2 := by
  constructor
  · rintro h ⟨k, p⟩ he
    exact h k p (AList.mem_lookup_iff.2 he)
  · intro h k p hl
    exact h ⟨k, p⟩ (AList.mem_lookup_iff.1 hl)

theorem MockItemRepository_WF_iff_keys (s : MockItemRepository) :
    s.WF ↔ 0 < s.nextID ∧ ∀ k ∈ s.items.keys, 0 < k ∧ k < s.nextID :=
  Iff.rfl

theorem HeldByOther_iff_entries (w : ItemWorld MockItemRepository) (id : Int) (code : String) :
    HeldByOther w id code ↔
      ∃ e ∈ w.store.items.entries, e.1 ≠ id ∧ (w.heap e.2).Code = code := by
  constructor
  · rintro ⟨k, q, hl, hk, hc⟩
    exact ⟨⟨k, q⟩, AList.mem_lookup_iff.1 hl, hk, hc⟩
  · rintro ⟨⟨k, q⟩, he, hk, hc⟩
    exact ⟨k, q, AList.mem_lookup_iff.2 he, hk, hc⟩

theorem IdsMatch_iff_entries (w : ItemWorld MockItemRepository) :
    IdsMatch w ↔ ∀ e ∈ w.store.items.entries, (w.heap e.2).ID = e.1 := by
  constructor
  · rintro h ⟨k, p⟩ he
    exact h k p (AList.mem_lookup_iff.2 he)
  · intro h k p hl
    exact h ⟨k, p⟩ (AList.mem_lookup_iff.1 hl)

theorem UniqueCodes_iff_entries (w : ItemWorld MockItemRepository) :
    UniqueCodes w ↔ ∀ e1 ∈ w.store.items.entries, ∀ e2 ∈ w.store.items.entries,
      e1.1 ≠ e2.1 → (w.heap e1.2).Code ≠ (w.heap e2.2).Code := by
  constructor
  · rintro h ⟨k1, p1⟩ he1 ⟨k2, p2⟩ he2 hne
    exact h k1 p1 k2 p2 (AList.mem_lookup_iff.2 he1) (AList.mem_lookup_iff.2 he2) hne
  · intro h k1 p1 k2 p2 h1 h2 hne
    exact h ⟨k1, p1⟩ (AList.mem_lookup_iff.1 h1) ⟨k2, p2⟩ (AList.mem_lookup_iff.1 h2) hne

theorem updatePrep_ID (h : ItemHeap) (ctx : Context) (existing item q : Ptr) :
    (stampUpdater (deriveStatus (copyFields h existing item) existing) ctx existing q).ID =
      (h q).ID := by
  by_cases hq : q = existing
  · subst hq
    rw [updatePrep_same]
  · rw [updatePrep_ne _ _ _ _ hq]

theorem createPrep_ID (h : ItemHeap) (ctx : Context) (item q : Ptr) :
    (stampCreator (deriveStatus h item) ctx item q).ID = (h q).ID := by
  by_cases hq : q = item
  · subst hq
    rw [stampCreator_same, deriveStatus_same]
  · rw [stampCreator_ne _ _ hq, deriveStatus_ne _ hq]

/-- A failed `Create` leaves the map, the counter and every `ID` field as they were. -/
theorem Create_mock_err (w : ItemWorld MockItemRepository) (ctx : Context) (item : Ptr)
    (t1 t2 : Time) (e : Error)
    (h : (ItemService.Create mockItemRepository w ctx item t1 t2).1 = some e) :
    (ItemService.Create mockItemRepository w ctx item t1 t2).2.store = w.store ∧
      ∀ q, ((ItemService.Create mockItemRepository w ctx item t1 t2).2.heap q).ID =
        (w.heap q).ID := by
  revert h
  unfold ItemService.Create
  simp only [Item.ValidateAt, mockItemRepository, MockItemRepository.ExistsByCode]
  cases (w.heap item).Validate with
  | some err => intro _; exact ⟨rfl, fun _ => rfl⟩
  | none =>
    simp only
    split_ifs with hex
    · intro _; exact ⟨rfl, fun _ => rfl⟩
    · simp only [MockItemRepository.Save]
      split_ifs with hdup
      · intro _
        exact ⟨rfl, fun q => createPrep_ID _ _ _ _⟩
      · intro h
        exact h.elim

theorem Update_mock_notfound (w : ItemWorld MockItemRepository) (ctx : Context) (id : Int)
    (item : Ptr) (t : Time) (hl : w.store.items.lookup id = none) :
    ItemService.Update mockItemRepository w ctx id item t = (some Error.ErrItemNotFound, w) := by
  unfold ItemService.Update
  simp only [mockItemRepository, MockItemRepository.FindByID, hl]

theorem Update_mock_invalid (w : ItemWorld MockItemRepository) (ctx : Context) (id : Int)
    (item p : Ptr) (t : Time) (e : Error) (hl : w.store.items.lookup id = some p)
    (hinvalid : (w.heap item).Validate = some e) :
    ItemService.Update mockItemRepository w ctx id item t =
      (some e, { w with heap := stampUpdater (deriveStatus (copyFields w.heap p item) p) ctx p }) := by
  have hv : (stampUpdater (deriveStatus (copyFields w.heap p item) p) ctx p p).Validate
      = some e := by
    rw [← hinvalid, updatePrep_same]
    exact Item_Validate_congr rfl rfl rfl rfl rfl
  unfold ItemService.Update
  simp only [mockItemRepository, MockItemRepository.FindByID, hl, Item.ValidateAt, hv]

theorem ItemInv_Create (w : ItemWorld MockItemRepository) (ctx : Context) (item : Ptr)
    (t1 t2 : Time) (hinv : ItemInv w) :
    ItemInv (ItemService.Create mockItemRepository w ctx item t1 t2).2 := by
  cases hres : (ItemService.Create mockItemRepository w ctx item t1 t2).1 with
  | some e =>
    obtain ⟨hstore, hid⟩ := Create_mock_err w ctx item t1 t2 e hres
    refine ⟨by rw [hstore]; exact hinv.1, ?_⟩
    intro k p hl
    rw [hstore] at hl
    rw [hid]
    exact hinv.2 k p hl
  | none =>
    have heq : ItemService.Create mockItemRepository w ctx item t1 t2 =
        (none, (ItemService.Create mockItemRepository w ctx item t1 t2).2) := by
      rw [← hres]
    obtain ⟨hvalid, hfree⟩ := Create_mock_none_inv w _ ctx item t1 t2 heq
    obtain ⟨H, hC, hne, hsame⟩ := Create_mock_ok w ctx item t1 t2 hvalid hfree
    rw [hC]
    refine ⟨⟨?_, ?_⟩, ?_⟩
    · have := hinv.1.1
      show 0 < w.store.nextID + 1
      omega
    · intro k hk
      show 0 < k ∧ k < w.store.nextID + 1
      rcases (AList.mem_insert _).1 hk with hk | hk
      · have := hinv.1.1
        omega
      · have := hinv.1.2 k hk
        omega
    · intro k p hl
      show (H p).ID = k
      by_cases hk : k = w.store.nextID
      · subst hk
        have hp : p = item := by
          have := (AList.lookup_insert (b := item) w.store.items (a := w.store.nextID))
          exact (Option.some.inj (hl.symm.trans this))
        rw [hp, hsame]
      · have hl' : w.store.items.lookup k = some p := by
          rw [← AList.lookup_insert_ne hk]
          exact hl
        have hp : p ≠ item := fun hp => hfree k p hl' (by rw [hp])
        rw [hne p hp]
        exact hinv.2 k p hl'

theorem ItemInv_heap_ID (w : ItemWorld MockItemRepository) (h : ItemHeap)
    (hID : ∀ q, (h q).ID = (w.heap q).ID) (hinv : ItemInv w) :
    ItemInv { w with heap := h } := by
  refine ⟨hinv.1, ?_⟩
  intro k p hl
  rw [hID]
  exact hinv.2 k p hl

theorem ItemInv_Update (w : ItemWorld MockItemRepository) (ctx : Context) (id : Int)
    (item : Ptr) (t : Time) (hinv : ItemInv w) :
    ItemInv (ItemService.Update mockItemRepository w ctx id item t).2 := by
  cases hl : w.store.items.lookup id with
  | none =>
    rw [Update_mock_notfound w ctx id item t hl]
    exact hinv
  | some p =>
    cases hv : (w.heap item).Validate with
    | some e =>
      rw [Update_mock_invalid w ctx id item p t e hl hv]
      exact ItemInv_heap_ID w _ (updatePrep_ID _ _ _ _) hinv
    | none =>
      by_cases hheld : HeldByOther w id (w.heap item).Code
      · rw [Update_mock_dup w ctx id item p t hinv.2 hl hv hheld]
        exact ItemInv_heap_ID w _ (updatePrep_ID _ _ _ _) hinv
      · obtain ⟨H, hU, hp, hitem, hrest⟩ := Update_mock_ok w ctx id item p t hinv.2 hl hv hheld
        rw [hU]
        have hmem : id ∈ w.store.items := AList.lookup_isSome.1 (by rw [hl]; rfl)
        refine ⟨⟨hinv.1.1, ?_⟩, ?_⟩
        · intro k hk
          show 0 < k ∧ k < w.store.nextID
          rcases (AList.mem_insert _).1 hk with hk | hk
          · subst hk
            exact hinv.1.2 k hmem
          · exact hinv.1.2 k hk
        · intro k q hq
          show (H q).ID = k
          by_cases hk : k = id
          · subst hk
            have hqp : q = p := by
              have := (AList.lookup_insert (b := p) w.store.items (a := k))
              exact (Option.some.inj (hq.symm.trans this))
            rw [hqp, hp]
            exact hinv.2 k p hl
          · have hq' : w.store.items.lookup k = some q := by
              rw [← AList.lookup_insert_ne hk]
              exact hq
            have hqp : q ≠ p := by
              intro hqp
              subst hqp
              exact hk ((hinv.2 k q hq').symm.trans (hinv.2 id q hl))
            have hqi : q ≠ item := by
              intro hqi
              subst hqi
              exact hheld ⟨k, q, hq', hk, rfl⟩
            rw [hrest q hqp hqi]
            exact hinv.2 k q hq'

theorem ItemInv_Delete (w : ItemWorld MockItemRepository) (ctx : Context) (id : Int)
    (hinv : ItemInv w) :
    ItemInv (ItemService.Delete mockItemRepository w ctx id).2 := by
  unfold ItemService.Delete
  simp only [mockItemRepository, MockItemRepository.Delete]
  split_ifs with hn
  · exact hinv
  · refine ⟨⟨hinv.1.1, ?_⟩, ?_⟩
    · intro k hk
      exact hinv.1.2 k ((AList.mem_erase.1 hk).2)
    · intro k p hl
      have hk : k ≠ id := by
        intro hk
        subst hk
        have := AList.lookup_erase k w.store.items
        simp only at hl
        rw [this] at hl
        exact Option.noConfusion hl
      simp only at hl
      rw [AList.lookup_erase_ne hk] at hl
      exact hinv.2 k p hl

theorem ItemInv_run (w : ItemWorld MockItemRepository) (c : ItemCall) (hinv : ItemInv w) :
    ItemInv (c.run w) := by
  cases c with
  | Create ctx item t1 t2 => exact ItemInv_Create w ctx item t1 t2 hinv
  | Update ctx id item t => exact ItemInv_Update w ctx id item t hinv
  | Delete ctx id => exact ItemInv_Delete w ctx id hinv

theorem ItemInv_runItemCalls (calls : List ItemCall) (w : ItemWorld MockItemRepository)
    (hinv : ItemInv w) : ItemInv (runItemCalls w calls) := by
  induction calls generalizing w with
  | nil => exact hinv
  | cons c cs ih => exact ih (c.run w) (ItemInv_run w c hinv)

/-- Every world reachable from a new store satisfies both representation invariants. -/
theorem ItemReachable_inv {w : ItemWorld MockItemRepository} (h : ItemReachable w) :
    w.store.WF ∧ IdsMatch w := by
  obtain ⟨h0, calls, rfl⟩ := h
  apply ItemInv_runItemCalls
  refine ⟨⟨?_, ?_⟩, ?_⟩
  · show (0 : Int) < 1
    decide
  · intro k hk
    exact absurd hk (AList.not_mem_empty k)
  · intro k p hl
    simp [NewMockItemRepository] at hl

/-! ## Lemmas: the user service on the in-memory store -/

theorem UserHeap_modify_same (h : UserHeap) (p : Ptr) (f : User → User) :
    h.modify p f p = f (h p) := by
  simp [UserHeap.modify]

theorem UserHeap_modify_ne (h : UserHeap) {p q : Ptr} (f : User → User) (hne : q ≠ p) :
    h.modify p f q = h q := by
  simp [UserHeap.modify, hne]

theorem hashedHeap_Username (h : UserHeap) (user : Ptr) (hashed : String) (q : Ptr) :
    (hashedHeap h user hashed q).Username = (h q).Username := by
  unfold hashedHeap
  by_cases hq : q = user
  · subst hq
    rw [UserHeap_modify_same]
  · rw [UserHeap_modify_ne _ _ hq]

theorem hashedHeap_ID (h : UserHeap) (user : Ptr) (hashed : String) (q : Ptr) :
    (hashedHeap h user hashed q).ID = (h q).ID := by
  unfold hashedHeap
  by_cases hq : q = user
  · subst hq
    rw [UserHeap_modify_same]
  · rw [UserHeap_modify_ne _ _ hq]

theorem hashedHeap_ne (h : UserHeap) (user : Ptr) (hashed : String) {q : Ptr} (hq : q ≠ user) :
    hashedHeap h user hashed q = h q :=
  UserHeap_modify_ne _ _ hq

theorem Register_invalid {σ : Type} (b : Bcrypt) (repo : UserRepository σ) (w : UserWorld σ)
    (ctx : Context) (user : Ptr) (salt : Nat) (t1 t2 : Time) (err : Error)
    (h : (w.heap user).Validate = some err) :
    UserService.Register b repo w ctx user salt t1 t2 = (some err, w) := by
  unfold UserService.Register
  rw [h]

theorem Register_hashfail {σ : Type} (b : Bcrypt) (repo : UserRepository σ) (w : UserWorld σ)
    (ctx : Context) (user : Ptr) (salt : Nat) (t1 t2 : Time) (err : Error)
    (hvalid : (w.heap user).Validate = none)
    (hhash : b.GenerateFromPassword salt (w.heap user).Password Bcrypt.DefaultCost =
      Except.error err) :
    UserService.Register b repo w ctx user salt t1 t2 = (some err, w) := by
  unfold UserService.Register
  rw [hvalid]
  simp only [User.HashPassword, hhash]

theorem Register_mock_dup (b : Bcrypt) (w : UserWorld MockUserRepository)
    (ctx : Context) (user : Ptr) (salt : Nat) (t1 t2 : Time) (hashed : String)
    (hvalid : (w.heap user).Validate = none)
    (hhash : b.GenerateFromPassword salt (w.heap user).Password Bcrypt.DefaultCost =
      Except.ok hashed)
    (hheld : ∃ k q, w.store.users.lookup k = some q ∧
      (w.heap q).Username = (w.heap user).Username) :
    UserService.Register b mockUserRepository w ctx user salt t1 t2 =
      (some Error.ErrDuplicateUsername, { w with heap := hashedHeap w.heap user hashed }) := by
  have hany : w.store.users.entries.any (fun e =>
      (hashedHeap w.heap user hashed e.2).Username ==
        (hashedHeap w.heap user hashed user).Username) = true := by
    rw [any_entries_iff]
    obtain ⟨k, q, hl, hn⟩ := hheld
    refine ⟨k, q, hl, ?_⟩
    simp [hashedHeap_Username, hn]
  unfold UserService.Register
  rw [hvalid]
  simp only [User.HashPassword, hhash, mockUserRepository, MockUserRepository.Create]
  unfold hashedHeap at hany
  rw [if_pos hany]
  rfl

theorem Register_mock_ok (b : Bcrypt) (w : UserWorld MockUserRepository)
    (ctx : Context) (user : Ptr) (salt : Nat) (t1 t2 : Time) (hashed : String)
    (hvalid : (w.heap user).Validate = none)
    (hhash : b.GenerateFromPassword salt (w.heap user).Password Bcrypt.DefaultCost =
      Except.ok hashed)
    (hfree : ∀ k q, w.store.users.lookup k = some q →
      (w.heap q).Username ≠ (w.heap user).Username) :
    ∃ H : UserHeap,
      UserService.Register b mockUserRepository w ctx user salt t1 t2 =
        (none, { heap := H,
                 store := { users := w.store.users.insert w.store.nextID user,
                            nextID := w.store.nextID + 1 } }) ∧
      (∀ q, q ≠ user → H q = w.heap q) ∧
      H user = { w.heap user with
        ID := w.store.nextID, Password := hashed, CreatedAt := t1, UpdatedAt := t2 } := by
  have hany : ¬ (w.store.users.entries.any (fun e =>
      (hashedHeap w.heap user hashed e.2).Username ==
        (hashedHeap w.heap user hashed user).Username) = true) := by
    rw [Bool.not_eq_true, any_entries_false_iff]
    intro k q hl
    simp [hashedHeap_Username, hfree k q hl]
  unfold UserService.Register
  rw [hvalid]
  simp only [User.HashPassword, hhash, mockUserRepository, MockUserRepository.Create]
  unfold hashedHeap at hany
  rw [if_neg hany]
  simp only [UserHeap_modify_same]
  refine ⟨_, rfl, ?_, ?_⟩
  · intro q hq
    simp [UserHeap_modify_ne _ _ hq]
  · simp [UserHeap_modify_same]

theorem UserInv_heap (w : UserWorld MockUserRepository) (h : UserHeap)
    (hID : ∀ q, (h q).ID = (w.heap q).ID)
    (hname : ∀ q, (h q).Username = (w.heap q).Username) (hinv : UserInv w) :
    UserInv { w with heap := h } := by
  refine ⟨hinv.1, ?_, ?_⟩
  · intro k p hl
    rw [hID]
    exact hinv.2.1 k p hl
  · intro k1 p1 k2 p2 h1 h2 hne
    rw [hname, hname]
    exact hinv.2.2 k1 p1 k2 p2 h1 h2 hne

theorem UserInv_Register (b : Bcrypt) (w : UserWorld MockUserRepository) (ctx : Context)
    (user : Ptr) (salt : Nat) (t1 t2 : Time) (hinv : UserInv w) :
    UserInv (UserService.Register b mockUserRepository w ctx user salt t1 t2).2 := by
  cases hv : (w.heap user).Validate with
  | some err =>
    rw [Register_invalid b _ w ctx user salt t1 t2 err hv]
    exact hinv
  | none =>
    cases hh : b.GenerateFromPassword salt (w.heap user).Password Bcrypt.DefaultCost with
    | error err =>
      rw [Register_hashfail b _ w ctx user salt t1 t2 err hv hh]
      exact hinv
    | ok hashed =>
      by_cases hheld : ∃ k q, w.store.users.lookup k = some q ∧
          (w.heap q).Username = (w.heap user).Username
      · rw [Register_mock_dup b w ctx user salt t1 t2 hashed hv hh hheld]
        exact UserInv_heap w _ (hashedHeap_ID _ _ _) (hashedHeap_Username _ _ _) hinv
      · have hfree : ∀ k q, w.store.users.lookup k = some q →
            (w.heap q).Username ≠ (w.heap user).Username := by
          intro k q hl hn
          exact hheld ⟨k, q, hl, hn⟩
        have hnot : ∀ k q, w.store.users.lookup k = some q → q ≠ user := by
          intro k q hl hq
          exact hfree k q hl (by rw [hq])
        obtain ⟨H, hR, hne, hsame⟩ := Register_mock_ok b w ctx user salt t1 t2 hashed hv hh hfree
        rw [hR]
        have hold : ∀ k q, k ≠ w.store.nextID →
            (w.store.users.insert w.store.nextID user).lookup k = some q →
              w.store.users.lookup k = some q := by
          intro k q hk hl
          rw [← AList.lookup_insert_ne hk]
          exact hl
        have hnew : ∀ q, (w.store.users.insert w.store.nextID user).lookup w.store.nextID =
            some q → q = user := by
          intro q hl
          exact Option.some.inj (hl.symm.trans (AList.lookup_insert _))
        refine ⟨⟨?_, ?_⟩, ?_, ?_⟩
        · have := hinv.1.1
          show 0 < w.store.nextID + 1
          omega
        · intro k hk
          show 0 < k ∧ k < w.store.nextID + 1
          rcases (AList.mem_insert _).1 hk with hk | hk
          · have := hinv.1.1
            omega
          · have := hinv.1.2 k hk
            omega
        · intro k p hl
          show (H p).ID = k
          by_cases hk : k = w.store.nextID
          · subst hk
            rw [hnew p hl, hsame]
          · have hl' := hold k p hk hl
            rw [hne p (hnot k p hl')]
            exact hinv.2.1 k p hl'
        · intro k1 p1 k2 p2 h1 h2 hk
          show (H p1).Username ≠ (H p2).Username
          have hHu : (H user).Username = (w.heap user).Username := by rw [hsame]
          by_cases hk1 : k1 = w.store.nextID
          · have hk2 : k2 ≠ w.store.nextID := fun h => hk (hk1.trans h.symm)
            subst hk1
            have hl2 := hold k2 p2 hk2 h2
            rw [hnew p1 h1, hne p2 (hnot k2 p2 hl2), hHu]
            exact (hfree k2 p2 hl2).symm
          · have hl1 := hold k1 p1 hk1 h1
            by_cases hk2 : k2 = w.store.nextID
            · subst hk2
              rw [hnew p2 h2, hne p1 (hnot k1 p1 hl1), hHu]
              exact hfree k1 p1 hl1
            · have hl2 := hold k2 p2 hk2 h2
              rw [hne p1 (hnot k1 p1 hl1), hne p2 (hnot k2 p2 hl2)]
              exact hinv.2.2 k1 p1 k2 p2 hl1 hl2 hk

theorem UserInv_runRegisterCalls (b : Bcrypt) (calls : List RegisterCall)
    (w : UserWorld MockUserRepository) (hinv : UserInv w) :
    UserInv (runRegisterCalls b w calls) := by
  induction calls generalizing w with
  | nil => exact hinv
  | cons c cs ih => exact ih _ (UserInv_Register b w c.ctx c.user c.salt c.t1 c.t2 hinv)

/-- Every world reachable from a new user store satisfies the three invariants. -/
theorem UserReachable_inv {b : Bcrypt} {w : UserWorld MockUserRepository}
    (h : UserReachable b w) : UserInv w := by
  obtain ⟨h0, calls, rfl⟩ := h
  apply UserInv_runRegisterCalls
  refine ⟨⟨?_, ?_⟩, ?_, ?_⟩
  · show (0 : Int) < 1
    decide
  · intro k hk
    exact absurd hk (AList.not_mem_empty k)
  · intro k p hl
    simp [NewMockUserRepository] at hl
  · intro k1 p1 k2 p2 hl
    simp [NewMockUserRepository] at hl

theorem MockUserRepository_WF_iff_keys (s : MockUserRepository) :
    s.WF ↔ 0 < s.nextID ∧ ∀ k ∈ s.users.keys, 0 < k ∧ k < s.nextID :=
  Iff.rfl

theorem UserIdsMatch_iff_entries (w : UserWorld MockUserRepository) :
    UserIdsMatch w ↔ ∀ e ∈ w.store.users.entries, (w.heap e.2).ID = e.1 :=
  forall_lookup_iff_entries w.store.users (fun k p => (w.heap p).ID = k)

/-! ## Lemmas: paging on the in-memory store -/

theorem wrapInt_of_IsInt {x : Int} (h : IsInt x) : wrapInt x = x := by
  unfold IsInt at h
  unfold wrapInt
  omega

theorem take_min_length {α : Type} (l : List α) (n m : Nat) (h : m = min n l.length) :
    l.take m = l.take n := by
  subst h
  rcases Nat.le_total n l.length with h | h
  · rw [Nat.min_eq_left h]
  · rw [Nat.min_eq_right h, List.take_of_length_le (le_refl _), List.take_of_length_le h]

/-- `FindAll` on the in-memory store, when the slice bounds cannot overflow. -/
theorem FindAll_mock_eval (w : ItemWorld MockItemRepository) (ctx : Context) (status : String)
    (limit offset : Int) (order : List Int)
    (h0 : 0 ≤ offset) (hl : 0 ≤ limit)
    (hsum : offset ≥ (filteredItems w status order).length ∨ offset + limit < 2 ^ 63) :
    MockItemRepository.FindAll w ctx status limit offset order =
      (some (((filteredItems w status order).drop offset.toNat).take limit.toNat,
        ((filteredItems w status order).length : Int), none), w) := by
  unfold MockItemRepository.FindAll
  simp only
  change (if offset ≥ ((filteredItems w status order).length : Int) then _ else _) = _
  by_cases hge : offset ≥ ((filteredItems w status order).length : Int)
  · rw [if_pos hge]
    have : (filteredItems w status order).drop offset.toNat = [] := by
      apply List.drop_of_length_le
      omega
    rw [this, List.take_nil]
    rfl
  · rw [if_neg hge]
    have hsum' : offset + limit < 2 ^ 63 := by
      rcases hsum with h | h
      · exact absurd h hge
      · exact h
    have hw : wrapInt (offset + limit) = offset + limit :=
      wrapInt_of_IsInt ⟨by omega, hsum'⟩
    change (if 0 ≤ offset ∧ offset ≤
        (if wrapInt (offset + limit) > ((filteredItems w status order).length : Int)
          then ((filteredItems w status order).length : Int) else wrapInt (offset + limit))
      then _ else _) = _
    rw [hw]
    have hbound : 0 ≤ offset ∧ offset ≤
        (if offset + limit > ((filteredItems w status order).length : Int)
          then ((filteredItems w status order).length : Int) else offset + limit) := by
      split_ifs <;> omega
    rw [if_pos hbound]
    congr 3
    apply take_min_length
    rw [List.length_drop]
    split_ifs <;> omega

theorem filterMap_lookup_of_mem (s : AList (fun _ : Int => Ptr)) (l : List (Σ _ : Int, Ptr))
    (h : ∀ e ∈ l, e ∈ s.entries) :
    (l.map (fun e => e.1)).filterMap (fun k => s.lookup k) = l.map (fun e => e.2) := by
  induction l with
  | nil => rfl
  | cons e l ih =>
    have he : s.lookup e.1 = some e.2 := by
      obtain ⟨k, p⟩ := e
      exact AList.mem_lookup_iff.2 (h _ (List.mem_cons_self _ _))
    simp only [List.map_cons, List.filterMap_cons, he]
    rw [ih (fun e' he' => h e' (List.mem_cons_of_mem _ he'))]

theorem filterMap_lookup_keys (s : AList (fun _ : Int => Ptr)) :
    s.keys.filterMap (fun k => s.lookup k) = s.entries.map (fun e => e.2) :=
  filterMap_lookup_of_mem s s.entries (fun _ h => h)

/-- Whatever the iteration order, the items visited and kept are the matching
items up to order. -/
theorem visited_perm (w : ItemWorld MockItemRepository) (status : String) (order : List Int)
    (ho : IsIterationOrder w.store order) :
    ((order.filterMap (fun id => w.store.items.lookup id)).filter
      (fun item => status == "" || (w.heap item).Status == status)).Perm
      (matchingItems w status) := by
  unfold matchingItems
  rw [← filterMap_lookup_keys]
  exact (List.Perm.filterMap _ ho).filter _

theorem filteredItems_perm (w : ItemWorld MockItemRepository) (status : String)
    (order : List Int) (ho : IsIterationOrder w.store order) :
    (filteredItems w status order).Perm (matchingItems w status) :=
  visited_perm w status order ho

theorem filteredItems_length (w : ItemWorld MockItemRepository) (status : String)
    (order : List Int) (ho : IsIterationOrder w.store order) :
    (filteredItems w status order).length = (matchingItems w status).length :=
  (filteredItems_perm w status order ho).length_eq

theorem mem_matchingItems (w : ItemWorld MockItemRepository) (status : String) (p : Ptr)
    (hp : p ∈ matchingItems w status) :
    (∃ k, w.store.items.lookup k = some p) ∧ (status ≠ "" → (w.heap p).Status = status) := by
  unfold matchingItems at hp
  rw [List.mem_filter, List.mem_map] at hp
  obtain ⟨⟨⟨k, q⟩, he, rfl⟩, hm⟩ := hp
  refine ⟨⟨k, AList.mem_lookup_iff.2 he⟩, ?_⟩
  intro hs
  simpa [hs] using hm

theorem stored_nodup (w : ItemWorld MockItemRepository) (hids : IdsMatch w) :
    (w.store.items.entries.map (fun e => e.2)).Nodup := by
  have hent : w.store.items.entries.Nodup := List.Nodup.of_map _ w.store.items.nodupKeys
  refine List.Nodup.map_on ?_ hent
  rintro ⟨k1, p1⟩ h1 ⟨k2, p2⟩ h2 hp
  simp only at hp
  subst hp
  have e1 := hids k1 p1 (AList.mem_lookup_iff.2 h1)
  have e2 := hids k2 p1 (AList.mem_lookup_iff.2 h2)
  have hk : k1 = k2 := e1.symm.trans e2
  subst hk
  rfl

theorem filteredItems_nodup (w : ItemWorld MockItemRepository) (status : String)
    (order : List Int) (ho : IsIterationOrder w.store order) (hids : IdsMatch w) :
    (filteredItems w status order).Nodup := by
  rw [(filteredItems_perm w status order ho).nodup_iff]
  exact (stored_nodup w hids).filter _

/-! ## What a successful `ItemService.Update` leaves behind -/

/-- What a successful `ItemService.Update` did, over any store: the store found
`existing`, the store's `Update` got `existing` and succeeded, and the record it
left at `existing` was copied to `item`. -/
theorem Update_none_inv {σ : Type} (repo : ItemRepository σ) (w w' : ItemWorld σ)
    (ctx : Context) (id : Int) (item : Ptr) (t : Time)
    (h : ItemService.Update repo w ctx id item t = (none, w')) :
    ∃ existing w2 w3, (repo.FindByID w ctx id).1 = Except.ok existing ∧
      repo.Update w2 ctx existing t = (none, w3) ∧
      w' = { w3 with heap := w3.heap.write item (w3.heap existing) } := by
  unfold ItemService.Update at h
  split at h
  · simp at h
  · rename_i existing w1 hfind
    simp only at h
    split at h
    · simp at h
    · split at h
      · simp at h
      · simp at h
      · rename_i w2 hex
        split at h
        · simp at h
        · rename_i w3 hup
          refine ⟨existing, w2, w3, by rw [hfind], hup, ?_⟩
          exact (Prod.mk.inj h).2.symm

/-- Over the in-memory store, after a successful `ItemService.Update` the
record `GetByID id` returns is the stored one, and the caller's record equals it. -/
theorem Update_mock_none (w w' : ItemWorld MockItemRepository) (ctx : Context) (id : Int)
    (item : Ptr) (t : Time) (hids : IdsMatch w)
    (h : ItemService.Update mockItemRepository w ctx id item t = (none, w')) :
    ∃ p, ItemService.GetByID mockItemRepository w' ctx id = (Except.ok p, w') ∧
      w'.heap item = w'.heap p := by
  cases hl : w.store.items.lookup id with
  | none =>
    rw [Update_mock_notfound w ctx id item t hl] at h
    simp at h
  | some p =>
    cases hv : (w.heap item).Validate with
    | some e =>
      rw [Update_mock_invalid w ctx id item p t e hl hv] at h
      simp at h
    | none =>
      by_cases hheld : HeldByOther w id (w.heap item).Code
      · rw [Update_mock_dup w ctx id item p t hids hl hv hheld] at h
        simp at h
      · obtain ⟨H, hU, _, hip, _⟩ := Update_mock_ok w ctx id item p t hids hl hv hheld
        rw [hU] at h
        have hw' := (Prod.mk.inj h).2
        subst hw'
        exact ⟨p, FindByID_mock_some _ ctx (AList.lookup_insert _), hip⟩

/-- The `UPDATE` of a row that exists, when no other row has the code. -/
theorem itemRepository_Update_ok (w : ItemWorld ItemDB) (ctx : Context) (item : Ptr)
    (t : Time) (id : Int) (row : Item) (hid : (w.heap item).ID = id)
    (hl : w.store.rows.lookup id = some row)
    (hany : w.store.rows.entries.any
      (fun e => e.2.Code == (w.heap item).Code && e.1 != id) = false) :
    itemRepository.Update w ctx item t =
      (none, { heap := w.heap.modify item (fun i => { i with UpdatedAt := t }),
               store :=
                 { w.store with
                   rows :=
                     w.store.rows.insert id
                       { row with
                         Code := (w.heap item).Code, Title := (w.heap item).Title,
                         Description := (w.heap item).Description,
                         Price := (w.heap item).Price, Stock := (w.heap item).Stock,
                         Status := (w.heap item).Status, UpdatedAt := w.store.now,
                         UpdatedBy := (w.heap item).UpdatedBy } } }) := by
  unfold itemRepository.Update
  simp only
  rw [hid, hl]
  simp only [hany]
  simp

/-- The `SELECT` of a row that exists scans it into a new record. -/
theorem itemRepository_FindByID_some (w : ItemWorld ItemDB) (ctx : Context) (id : Int)
    (row : Item) (hl : w.store.rows.lookup id = some row) :
    ItemService.GetByID sqlItemRepository w ctx id =
      (Except.ok w.store.nextPtr,
        { heap := w.heap.write w.store.nextPtr row,
          store := { w.store with nextPtr := w.store.nextPtr + 1 } }) := by
  simp only [ItemService.GetByID, sqlItemRepository, itemRepository.FindByID, hl]

/-- Over the SQL store, after a successful `ItemService.Update` the caller's
record carries the reading `t` of the process clock in `UpdatedAt`, the record
`GetByID id` then returns carries the reading of the server's clock, and the two
agree in every other field. -/
theorem Update_sql_none (w w' : ItemWorld ItemDB) (ctx : Context) (id : Int) (item : Ptr)
    (t : Time) (hrows : RowsMatch w.store) (hitem : item < w.store.nextPtr)
    (h : ItemService.Update sqlItemRepository w ctx id item t = (none, w')) :
    ∃ w'', ItemService.GetByID sqlItemRepository w' ctx id =
        (Except.ok w'.store.nextPtr, w'') ∧
      (w''.heap w'.store.nextPtr).AgreesButUpdatedAt (w'.heap item) ∧
      (w''.heap w'.store.nextPtr).UpdatedAt = w.store.now ∧
      (w'.heap item).UpdatedAt = t := by
  have hne : item ≠ w.store.nextPtr := Nat.ne_of_lt hitem
  unfold ItemService.Update at h
  simp only [sqlItemRepository, itemRepository.FindByID] at h
  cases hl : w.store.rows.lookup id with
  | none => rw [hl] at h; simp at h
  | some r0 =>
    rw [hl] at h
    simp only [Item.ValidateAt] at h
    have hid : r0.ID = id := hrows id r0 hl
    have hprep := updatePrep_same (w.heap.write w.store.nextPtr r0) ctx w.store.nextPtr item
    rw [ItemHeap_write_same, ItemHeap_write_ne _ _ hne] at hprep
    generalize hH : stampUpdater (deriveStatus (copyFields (w.heap.write w.store.nextPtr r0)
      w.store.nextPtr item) w.store.nextPtr) ctx w.store.nextPtr = H at h hprep
    split at h
    · simp at h
    · simp only [itemRepository.ExistsByCode] at h
      split at h
      · simp at h
      · simp at h
      · rename_i w2 hex
        have hw2 := (Prod.mk.inj hex).2
        have hb := (Prod.mk.inj hex).1
        subst hw2
        have hany : (w.store.rows.entries.any fun e =>
            e.snd.Code == (H w.store.nextPtr).Code && e.fst != id) = false :=
          Except.ok.inj hb
        have hHid : (H w.store.nextPtr).ID = id := by rw [hprep]; exact hid
        rw [itemRepository_Update_ok
          ⟨H, { w.store with nextPtr := w.store.nextPtr + 1 }⟩ ctx w.store.nextPtr t id r0
          hHid hl hany] at h
        have hw' := (Prod.mk.inj h).2
        subst hw'
        refine ⟨_, itemRepository_FindByID_some _ ctx id _ (AList.lookup_insert _), ?_, ?_, ?_⟩
        · simp only [ItemHeap_write_same, ItemHeap_modify_same, Item.AgreesButUpdatedAt]
          rw [hprep]
          simp [hid]
        · simp only [ItemHeap_write_same]
        · simp only [ItemHeap_write_same, ItemHeap_modify_same]

theorem RowsMatch_iff_entries (s : ItemDB) :
    RowsMatch s ↔ ∀ e ∈ s.rows.entries, e.2.ID = e.1 := by
  constructor
  · rintro h ⟨k, r⟩ he
    exact h k r (AList.mem_lookup_iff.2 he)
  · intro h k r hl
    exact h ⟨k, r⟩ (AList.mem_lookup_iff.1 hl)

/-! ## Tokens: splitting, dates, and what the parser does with an issued token -/

theorem split_three (a b c : String) (ha : '.' ∉ a.data) (hb : '.' ∉ b.data)
    (hc : '.' ∉ c.data) :
    (a ++ "." ++ b ++ "." ++ c).split (fun x => x == '.') = [a, b, c] := by
  have key : ∀ (l : List Char), '.' ∉ l → ∀ x ∈ l, ¬ ((fun x => x == '.') x = true) := by
    intro l hl x hx h
    have hxe : x = '.' := beq_iff_eq.mp h
    subst hxe
    exact hl hx
  rw [String.split_of_valid]
  have hd : (a ++ "." ++ b ++ "." ++ c).data = a.data ++ '.' :: (b.data ++ '.' :: c.data) := by
    simp [String.data_append]
  rw [hd]
  rw [List.splitOnP_first _ _ (key _ ha) '.' (by simp)]
  rw [List.splitOnP_first _ _ (key _ hb) '.' (by simp)]
  rw [List.splitOnP_eq_single _ _ (key _ hc)]
  rfl

theorem NewNumericDate_add_Hour (t : Time) :
    NewNumericDate (t + 1 * Hour) = NewNumericDate t + Hour := by
  have h : ∀ x : Int, x + 1 * (3600 * 1000000000) - (x + 1 * (3600 * 1000000000)) % 1000000000
      = x - x % 1000000000 + 3600 * 1000000000 := by
    intro x
    omega
  exact h t

theorem NewNumericDate_le (t : Time) : NewNumericDate t ≤ t := by
  have h : ∀ x : Int, x - x % 1000000000 ≤ x := by
    intro x
    omega
  exact h t

theorem utf8ByteSize_append_le (a b : String) : a.utf8ByteSize ≤ (a ++ b).utf8ByteSize := by
  cases a with
  | mk as =>
    cases b with
    | mk bs =>
      show String.utf8ByteSize ⟨as⟩ ≤ String.utf8ByteSize ⟨as ++ bs⟩
      simp only [String.utf8ByteSize_mk, String.utf8Len_append]
      omega

theorem utf8ByteSize_three (a b c : String) (h : 10 ≤ a.utf8ByteSize) :
    10 ≤ (a ++ "." ++ b ++ "." ++ c).utf8ByteSize := by
  have h1 := utf8ByteSize_append_le a ("." ++ b ++ "." ++ c)
  simp only [← String.append_assoc] at h1
  omega

/-- The parser on a token whose segments decode: what is left is the key
function, the signature and the dates. -/
theorem ParseWithClaims_issued (codec : JwtCodec) (alg : String) (method : SigningMethodType)
    (claims : JWTClaims) (sig : String) (keyFunc : Keyfunc) (now : Time)
    (hh : '.' ∉ (codec.EncodeHeader alg).data)
    (hc : '.' ∉ (codec.EncodeClaims claims).data)
    (hs : '.' ∉ (codec.EncodeSegment sig).data)
    (hdh : codec.DecodeHeader (codec.EncodeHeader alg) = Except.ok (some alg))
    (hdc : codec.DecodeClaims (codec.EncodeClaims claims) = Except.ok claims)
    (hds : codec.DecodeSegment (codec.EncodeSegment sig) = Except.ok sig)
    (hm : GetSigningMethod alg = some method) :
    Jwt.ParseWithClaims codec
        (codec.EncodeHeader alg ++ "." ++ codec.EncodeClaims claims ++ "." ++
          codec.EncodeSegment sig) keyFunc now =
      match keyFunc (parsedToken codec alg method claims sig) with
      | Except.error _ => Except.error (Error.other "token is unverifiable")
      | Except.ok key =>
        match codec.Verify alg (codec.EncodeHeader alg ++ "." ++ codec.EncodeClaims claims)
            sig key with
        | some _ => Except.error (Error.other "token signature is invalid")
        | none =>
          match Validator.Validate claims now with
          | some _ => Except.error (Error.other "token has invalid claims")
          | none => Except.ok { parsedToken codec alg method claims sig with Valid := true } := by
  unfold Jwt.ParseWithClaims
  rw [split_three _ _ _ hh hc hs]
  simp only [hdh, hdc, hds, hm]
  rfl

theorem Validator_Validate_issued (u : User) (t now : Time) :
    Validator.Validate (issuedClaims u t) now = none ↔ now < NewNumericDate t + Hour := by
  simp [Validator.Validate, issuedClaims]

theorem sliceTo_some (s : String) (h : ¬ s.utf8ByteSize < 10) :
    sliceTo s 10 = some (s.toUTF8.extract 0 10) := by
  unfold sliceTo
  rw [if_pos (by omega)]

/-- `UserService.ValidateToken` once the length check has passed. -/
theorem ValidateToken_long (lib : JwtLib) (s : UserService) (tokenString : String)
    (now : Time) (h : 10 ≤ tokenString.utf8ByteSize) :
    UserService.ValidateToken lib s tokenString now =
      match lib.ParseWithClaims tokenString (UserService.ValidateToken.keyFunc s) now with
      | Except.error _ => some (Except.error Error.ErrInvalidToken)
      | Except.ok token =>
        if !token.Valid then some (Except.error Error.ErrInvalidToken)
        else some (Except.ok token.Claims) := by
  have hlen : ¬ tokenString.utf8ByteSize < 10 := by omega
  simp only [UserService.ValidateToken, if_neg hlen, sliceTo_some _ hlen]

theorem GetSigningMethod_HMAC_iff (alg : String) :
    GetSigningMethod alg = some SigningMethodType.SigningMethodHMAC ↔
      alg = "HS256" ∨ alg = "HS384" ∨ alg = "HS512" := by
  unfold GetSigningMethod
  constructor
  · intro h
    by_contra hn
    rw [if_neg hn] at h
    repeat' split at h
    all_goals simp at h
  · intro h
    rw [if_pos h]

/-- `UserService.ValidateToken` on a token signed under a method of the HMAC
type: the claims when the signature verifies under the secret of the service
and the dates hold, `ErrInvalidToken` otherwise. -/
theorem ValidateToken_issued (codec : JwtCodec) (alg : String) (claims : JWTClaims)
    (key : String) (hm : GetSigningMethod alg = some SigningMethodType.SigningMethodHMAC)
    (hrt : codec.RoundTrips alg claims key) :
    ∃ tok sig, Jwt.SignedString codec alg claims key = Except.ok tok ∧
      codec.Sign alg (Jwt.SigningString codec alg claims) key = Except.ok sig ∧
      codec.Verify alg (Jwt.SigningString codec alg claims) sig key = none ∧
      ∀ (s : UserService) (now : Time),
        UserService.ValidateToken (jwtLib codec) s tok now =
          some (if codec.Verify alg (Jwt.SigningString codec alg claims) sig s.jwtSecret = none ∧
              Validator.Validate claims now = none then
            Except.ok claims else Except.error Error.ErrInvalidToken) := by
  obtain ⟨hh, hsize, hc, hdh, hdc, sig, hsign, hs, hds, hver⟩ := hrt
  refine ⟨codec.EncodeHeader alg ++ "." ++ codec.EncodeClaims claims ++ "." ++
    codec.EncodeSegment sig, sig, ?_, hsign, hver, ?_⟩
  · simp only [Jwt.SigningString] at hsign
    simp only [Jwt.SignedString, Jwt.SigningString, hsign]
  · intro s now
    rw [ValidateToken_long _ _ _ _ (utf8ByteSize_three _ _ _ hsize)]
    simp only [jwtLib]
    rw [ParseWithClaims_issued codec alg _ claims sig _ now hh hc hs hdh hdc hds hm]
    simp only [UserService.ValidateToken.keyFunc, parsedToken, if_true, Jwt.SigningString]
    by_cases hv : codec.Verify alg (codec.EncodeHeader alg ++ "." ++ codec.EncodeClaims claims)
        sig s.jwtSecret = none
    · by_cases hval : Validator.Validate claims now = none
      · rw [if_pos ⟨hv, hval⟩]
        simp only [hv, hval]
        rfl
      · rw [if_neg (fun hc => hval hc.2)]
        obtain ⟨e, he⟩ := Option.ne_none_iff_exists'.1 hval
        simp only [hv, he]
    · rw [if_neg (fun hc => hv hc.1)]
      obtain ⟨e, he⟩ := Option.ne_none_iff_exists'.1 hv
      simp only [he]

/-- What an accepted token went through. -/
theorem ValidateToken_ok_inv (codec : JwtCodec) (s : UserService) (tokenString : String)
    (now : Time) (c : JWTClaims)
    (h : UserService.ValidateToken (jwtLib codec) s tokenString now = some (Except.ok c)) :
    ∃ p0 p1 p2 alg sig, tokenString.split (fun x => x == '.') = [p0, p1, p2] ∧
      codec.DecodeHeader p0 = Except.ok (some alg) ∧
      GetSigningMethod alg = some SigningMethodType.SigningMethodHMAC ∧
      codec.DecodeClaims p1 = Except.ok c ∧
      codec.DecodeSegment p2 = Except.ok sig ∧
      codec.Verify alg (p0 ++ "." ++ p1) sig s.jwtSecret = none ∧
      Validator.Validate c now = none := by
  by_cases hlen : tokenString.utf8ByteSize < 10
  · simp [UserService.ValidateToken, hlen] at h
  · rw [ValidateToken_long _ _ _ _ (by omega)] at h
    simp only [jwtLib] at h
    generalize hP : Jwt.ParseWithClaims codec tokenString
      (UserService.ValidateToken.keyFunc s) now = r at h
    cases r with
    | error e => simp at h
    | ok token =>
      simp only at h
      unfold Jwt.ParseWithClaims at hP
      split at hP
      · rename_i p0 p1 p2 hsplit
        refine ⟨p0, p1, p2, ?_⟩
        cases hdh : codec.DecodeHeader p0 with
        | error e => simp [hdh] at hP
        | ok header =>
          cases hdc : codec.DecodeClaims p1 with
          | error e => simp [hdh, hdc] at hP
          | ok claims =>
            cases header with
            | none => simp [hdh, hdc] at hP
            | some alg =>
              cases hm : GetSigningMethod alg with
              | none => simp [hdh, hdc, hm] at hP
              | some method =>
                cases hds : codec.DecodeSegment p2 with
                | error e => simp [hdh, hdc, hm, hds] at hP
                | ok sig =>
                  simp only [hdh, hdc, hm, hds, UserService.ValidateToken.keyFunc] at hP
                  by_cases hmm : method = SigningMethodType.SigningMethodHMAC
                  · subst hmm
                    simp only [if_true] at hP
                    cases hv : codec.Verify alg (p0 ++ "." ++ p1) sig s.jwtSecret with
                    | some e => simp [hv] at hP
                    | none =>
                      cases hval : Validator.Validate claims now with
                      | some e => simp [hv, hval] at hP
                      | none =>
                        simp only [hv, hval, Except.ok.injEq] at hP
                        subst hP
                        simp at h
                        subst h
                        exact ⟨alg, sig, hsplit, rfl, hm, rfl, rfl, hv, hval⟩
                  · simp [hmm] at hP
      · simp at hP

/-- `UserService.generateToken` for a user with a positive id: it signs the
claims `issuedClaims` under HS256 with the signing secret, and leaves that
secret in the service. -/
theorem generateToken_issued (jwt : JwtSigner) (s : UserService) (h : UserHeap) (user : Ptr)
    (now : Time) (hid : 0 < (h user).ID) :
    UserService.generateToken jwt s h user now =
      match jwt.SignedString "HS256" (issuedClaims (h user) now) (signingSecret s) with
      | Except.error err => (("", some err), { jwtSecret := signingSecret s })
      | Except.ok tokenString => ((tokenString, none), { jwtSecret := signingSecret s }) := by
  unfold UserService.generateToken
  simp only
  rw [if_neg (by omega), NewNumericDate_add_Hour]
  have hs : (if s.jwtSecret = "" then { s with jwtSecret := "your-super-secret-jwt-key" }
      else s : UserService) = { jwtSecret := signingSecret s } := by
    unfold signingSecret
    split <;> rfl
  rw [hs]
  rfl

theorem generateToken_invalid (jwt : JwtSigner) (s : UserService) (h : UserHeap) (user : Ptr)
    (now : Time) (hid : (h user).ID ≤ 0) :
    UserService.generateToken jwt s h user now =
      (("", some (Error.other "ID de usuário inválido")), s) := by
  unfold UserService.generateToken
  simp only
  rw [if_pos hid]

theorem exCodec_RoundTrips_HS256 : exCodec.RoundTrips "HS256" exClaims "k" :=
  ⟨by decide, by decide, by decide, rfl, rfl, "HS256:k", rfl, by decide, rfl, by decide⟩

theorem exCodec_RoundTrips_HS384 : exCodec.RoundTrips "HS384" exClaims "k" :=
  ⟨by decide, by decide, by decide, rfl, rfl, "HS384:k", rfl, by decide, rfl, by decide⟩

theorem exClaims_eq : issuedClaims (exUserHeap1 0) exIssueTime = exClaims := by decide

theorem exToken_eq : exToken = "header-HS256.claims-ana.HS256:k" := by decide
theorem exToken384_eq : exToken384 = "header-HS384.claims-ana.HS384:k" := by decide

theorem exService_signingSecret : signingSecret exService = "k" := by decide

theorem exToken_signed :
    Jwt.SignedString exCodec "HS256" exClaims "k" = Except.ok exToken := rfl

theorem exToken384_signed :
    Jwt.SignedString exCodec "HS384" exClaims "k" = Except.ok exToken384 := rfl

/-- `UserService.ValidateToken` returns, and its error is always the one. -/
theorem ValidateToken_cases (lib : JwtLib) (s : UserService) (tokenString : String)
    (now : Time) :
    UserService.ValidateToken lib s tokenString now = some (Except.error Error.ErrInvalidToken) ∨
      ∃ c, UserService.ValidateToken lib s tokenString now = some (Except.ok c) := by
  by_cases hlen : tokenString.utf8ByteSize < 10
  · left
    simp only [UserService.ValidateToken, if_pos hlen]
  · rw [ValidateToken_long _ _ _ _ (by omega)]
    cases lib.ParseWithClaims tokenString (UserService.ValidateToken.keyFunc s) now with
    | error e => exact Or.inl rfl
    | ok token =>
      cases hv : token.Valid with
      | false => left; simp [hv]
      | true => right; exact ⟨token.Claims, by simp [hv]⟩

/-! ## The handlers -/

/-- The handler `ItemHandler.List` on a request it accepts: one call of the
service's `List`, with `limit` in the place of `page` and the offset in the
place of `perPage`. -/
theorem ItemHandler_List_calls {σ : Type} (itemService : ItemServiceInterface σ)
    (w : ItemWorld σ) (c : GinContext) (order : List Int) (limit page : Int)
    (hs : c.queryStatus = "" ∨ c.queryStatus = "ACTIVE" ∨ c.queryStatus = "INACTIVE")
    (hl : c.queryLimit = Except.ok limit) (hlr : 1 ≤ limit ∧ limit ≤ 100)
    (hp : c.queryPage = Except.ok page) (hpr : 1 ≤ page) :
    ItemHandler.List itemService w c order =
      match itemService.List w c.Request c.queryStatus limit
          (wrapInt (wrapInt (page - 1) * limit)) order with
      | (none, w1) => (none, w1)
      | (some (_, _, some _), w1) =>
        (some (RespondWithError 500 "Falha ao recuperar a lista de itens"), w1)
      | (some (items, total, none), w1) =>
        (some { status := 200, item := none, message := none,
                list := some { TotalPages := ItemHandler.totalPages total limit,
                               Data := items.map (fun p => toItemResponse (w1.heap p)) } },
          w1) := by
  unfold ItemHandler.List
  have hs' : ¬ (c.queryStatus ≠ "" ∧ c.queryStatus ≠ "ACTIVE" ∧ c.queryStatus ≠ "INACTIVE") := by
    rintro ⟨h1, h2, h3⟩
    rcases hs with h | h | h
    · exact h1 h
    · exact h2 h
    · exact h3 h
  simp only [hl, hp]
  rw [if_neg hs', if_neg (by omega), if_neg (by omega)]

theorem trimBearer_spec (s : String) (h : hasBearer s = true) :
    s = "Bearer " ++ trimBearer s := by
  unfold trimBearer
  rw [if_pos h]
  unfold hasBearer at h
  rw [List.isPrefixOf_iff_prefix] at h
  obtain ⟨t, ht⟩ := h
  apply String.ext
  rw [String.data_append, ← ht]
  simp

theorem AuthMiddleware_cases {S : Type} (userService : UserServiceInterface S) (st : S)
    (c : GinContext) :
    (c.authorization = "" ∨ hasBearer c.authorization = false →
      AuthMiddleware userService st c = MiddlewareResult.aborted
        (respondWithError 401 "Token de autenticação ausente ou inválido")) ∧
    (∀ err, c.authorization ≠ "" → hasBearer c.authorization = true →
      userService.ValidateToken st (trimBearer c.authorization) = Except.error err →
      AuthMiddleware userService st c = MiddlewareResult.aborted
        (respondWithError 401 "Token de autenticação inválido ou expirado")) ∧
    (∀ claims, c.authorization ≠ "" → hasBearer c.authorization = true →
      userService.ValidateToken st (trimBearer c.authorization) = Except.ok claims →
      AuthMiddleware userService st c = MiddlewareResult.next
        ((c.SetUserID claims.UserID).SetUsername claims.Username)) := by
  refine ⟨?_, ?_, ?_⟩
  · intro h
    unfold AuthMiddleware
    simp only
    rw [if_pos]
    rcases h with h | h
    · exact Or.inl h
    · exact Or.inr (by simp [h])
  · intro err h1 h2 hv
    unfold AuthMiddleware
    simp only
    rw [if_neg (by simp [h1, h2]), hv]
  · intro claims h1 h2 hv
    unfold AuthMiddleware
    simp only
    rw [if_neg (by simp [h1, h2]), hv]

theorem totalPages_eq (total limit : Int) (ht : 0 < total) (hl : 1 ≤ limit)
    (hno : total + limit - 1 < 2 ^ 63) :
    ItemHandler.totalPages total limit = (total + limit - 1) / limit := by
  unfold ItemHandler.totalPages
  rw [if_pos ht]
  have h1 : wrapInt (total + limit) = total + limit ∨ wrapInt (total + limit) = total + limit - 2 ^ 64 := by
    unfold wrapInt
    omega
  have h2 : wrapInt (wrapInt (total + limit) - 1) = total + limit - 1 := by
    rcases h1 with h | h
    · rw [h]
      exact wrapInt_of_IsInt ⟨by omega, hno⟩
    · rw [h]
      unfold wrapInt
      omega
  rw [h2]
  exact Int.tdiv_eq_ediv (by omega) (by omega)

theorem totalPages_ceil (total limit : Int) (ht : 0 < total) (hl : 1 ≤ limit)
    (hno : total + limit - 1 < 2 ^ 63) :
    total ≤ ItemHandler.totalPages total limit * limit ∧
    ∀ k : Int, total ≤ k * limit → ItemHandler.totalPages total limit ≤ k := by
  rw [totalPages_eq total limit ht hl hno]
  have hlpos : 0 < limit := by omega
  constructor
  · have := Int.lt_ediv_add_one_mul_self (total + limit - 1) hlpos
    nlinarith
  · intro k hk
    have : (total + limit - 1) / limit < k + 1 := by
      apply Int.ediv_lt_of_lt_mul hlpos
      nlinarith
    omega

/-! ## Login after registration -/

theorem FindByUsername_inserted (H : UserHeap) (users : AList (fun _ : Int => Ptr))
    (nextID : Int) (k : Int) (user : Ptr) (ctx : Context) (username : String)
    (hname : (H user).Username = username) :
    MockUserRepository.FindByUsername
        { heap := H, store := { users := users.insert k user, nextID := nextID } } ctx username =
      (Except.ok user,
        { heap := H, store := { users := users.insert k user, nextID := nextID } }) := by
  unfold MockUserRepository.FindByUsername
  simp only [AList.insert_entries, List.find?_cons, hname, beq_self_eq_true]

/-- `UserService.Login` once the store has found the user. -/
theorem Login_found {σ : Type} (b : Bcrypt) (jwt : JwtSigner) (repo : UserRepository σ)
    (s : UserService) (w w1 : UserWorld σ) (ctx : Context) (username password : String)
    (now : Time) (user : Ptr) (hu : username ≠ "")
    (hfind : repo.FindByUsername w ctx username = (Except.ok user, w1))
    (hid : 0 < (w1.heap user).ID) :
    UserService.Login b jwt repo s w ctx username password now =
      if password = "" ∨ User.ComparePassword b w1.heap user password = false then
        (("", some Error.ErrInvalidCredentials), s, if password = "" then w else w1)
      else
        match jwt.SignedString "HS256" (issuedClaims (w1.heap user) now) (signingSecret s) with
        | Except.error err => (("", some err), { jwtSecret := signingSecret s }, w1)
        | Except.ok tokenString =>
          ((tokenString, none), { jwtSecret := signingSecret s }, w1) := by
  unfold UserService.Login
  rw [if_neg hu]
  by_cases hp : password = ""
  · simp [hp]
  · rw [if_neg hp, hfind]
    simp only
    cases hc : User.ComparePassword b w1.heap user password with
    | false => simp [hp]
    | true =>
      simp only [hp, false_or, Bool.not_true, Bool.false_eq_true, if_false]
      rw [if_neg (by omega), generateToken_issued jwt s w1.heap user now hid]
      cases jwt.SignedString "HS256" (issuedClaims (w1.heap user) now) (signingSecret s) <;> rfl

theorem FindByUsername_mock_ok (w w1 : UserWorld MockUserRepository) (ctx : Context)
    (username : String) (user : Ptr)
    (h : MockUserRepository.FindByUsername w ctx username = (Except.ok user, w1)) :
    w1 = w ∧ ∃ k, w.store.users.lookup k = some user := by
  unfold MockUserRepository.FindByUsername at h
  split at h
  · rename_i e he
    have h1 := (Prod.mk.inj h).1
    have h2 := (Prod.mk.inj h).2
    have hu : e.2 = user := Except.ok.inj h1
    refine ⟨h2.symm, e.1, ?_⟩
    rw [← hu]
    apply AList.mem_lookup_iff.2
    exact List.mem_of_find?_eq_some he
  · simp at h

theorem Register_mock_none_inv (b : Bcrypt) (w w1 : UserWorld MockUserRepository)
    (ctx : Context) (user : Ptr) (salt : Nat) (t1 t2 : Time)
    (h : UserService.Register b mockUserRepository w ctx user salt t1 t2 = (none, w1)) :
    w1.store.nextID = w.store.nextID + 1 ∧
    w1.store.users.lookup w.store.nextID = some user ∧
    (w1.heap user).ID = w.store.nextID := by
  cases hv : (w.heap user).Validate with
  | some err =>
    rw [Register_invalid b _ w ctx user salt t1 t2 err hv] at h
    simp at h
  | none =>
    cases hh : b.GenerateFromPassword salt (w.heap user).Password Bcrypt.DefaultCost with
    | error err =>
      rw [Register_hashfail b _ w ctx user salt t1 t2 err hv hh] at h
      simp at h
    | ok hashed =>
      by_cases hheld : ∃ k q, w.store.users.lookup k = some q ∧
          (w.heap q).Username = (w.heap user).Username
      · rw [Register_mock_dup b w ctx user salt t1 t2 hashed hv hh hheld] at h
        simp at h
      · obtain ⟨H, hreg, _, hH⟩ := Register_mock_ok b w ctx user salt t1 t2 hashed hv hh
          (fun k q hl hn => hheld ⟨k, q, hl, hn⟩)
        rw [hreg] at h
        have hw := (Prod.mk.inj h).2
        subst hw
        refine ⟨rfl, AList.lookup_insert _, ?_⟩
        show (H user).ID = _
        rw [hH]

/-! ## The claims -/

/-- Claim C1.  On a well-formed in-memory store, for an item that passes
`Validate` and whose code no stored item has, `ItemService.Create` succeeds,
whatever `Status` (and whatever else) the record held; `GetByID` on the id that
`Create` wrote into the item returns that item with code, title, description,
price and stock as submitted and `Status` equal to "ACTIVE" when the stock is
positive and "INACTIVE" otherwise; and every id stored before still resolves to
the same, unchanged record. -/
theorem ItemService_Create_then_GetByID (w : ItemWorld MockItemRepository) (ctx : Context)
    (item : Ptr) (t1 t2 : Time)
    (hwf : w.store.WF)
    (hvalid : (w.heap item).Validate = none)
    (hfree : ∀ k p, w.store.items.lookup k = some p → (w.heap p).Code ≠ (w.heap item).Code) :
    ∃ w', ItemService.Create mockItemRepository w ctx item t1 t2 = (none, w') ∧
      (∃ got, ItemService.GetByID mockItemRepository w' ctx (w'.heap item).ID =
          (Except.ok got, w') ∧
        (w'.heap got).Code = (w.heap item).Code ∧
        (w'.heap got).Title = (w.heap item).Title ∧
        (w'.heap got).Description = (w.heap item).Description ∧
        (w'.heap got).Price = (w.heap item).Price ∧
        (w'.heap got).Stock = (w.heap item).Stock ∧
        (w'.heap got).Status = if (w.heap item).Stock > 0 then "ACTIVE" else "INACTIVE") ∧
      ∀ k p, w.store.items.lookup k = some p →
        ItemService.GetByID mockItemRepository w' ctx k = (Except.ok p, w') ∧
          w'.heap p = w.heap p := by
  obtain ⟨H, hC, hne, hsame⟩ := Create_mock_ok w ctx item t1 t2 hvalid hfree
  refine ⟨_, hC, ⟨item, ?_, ?_⟩, ?_⟩
  · apply FindByID_mock_some
    show (w.store.items.insert w.store.nextID item).lookup (H item).ID = some item
    rw [hsame]
    exact AList.lookup_insert _
  · show (H item).Code = _ ∧ (H item).Title = _ ∧ (H item).Description = _ ∧
      (H item).Price = _ ∧ (H item).Stock = _ ∧ (H item).Status = _
    rw [hsame]
    exact ⟨rfl, rfl, rfl, rfl, rfl, rfl⟩
  · intro k p hl
    have hk : k ≠ w.store.nextID := by
      intro hk
      have hm : k ∈ w.store.items := AList.lookup_isSome.1 (by rw [hl]; rfl)
      have := (hwf.2 k hm).2
      omega
    have hp : p ≠ item := fun hp => hfree k p hl (by rw [hp])
    refine ⟨?_, hne p hp⟩
    apply FindByID_mock_some
    simp only
    rw [AList.lookup_insert_ne hk]
    exact hl

/-- Claim C1 at a concrete input: creating the item "B" in the store that holds "A". -/
theorem ItemService_Create_then_GetByID_witness :
    exWorld1.store.WF ∧ (exWorld1.heap 1).Validate = none ∧
    (∀ k p, exWorld1.store.items.lookup k = some p →
      (exWorld1.heap p).Code ≠ (exWorld1.heap 1).Code) ∧
    ∃ w', ItemService.Create mockItemRepository exWorld1 exCtx 1 20 21 = (none, w') ∧
      (∃ got, ItemService.GetByID mockItemRepository w' exCtx (w'.heap 1).ID =
          (Except.ok got, w') ∧
        (w'.heap got).Code = (exWorld1.heap 1).Code ∧
        (w'.heap got).Title = (exWorld1.heap 1).Title ∧
        (w'.heap got).Description = (exWorld1.heap 1).Description ∧
        (w'.heap got).Price = (exWorld1.heap 1).Price ∧
        (w'.heap got).Stock = (exWorld1.heap 1).Stock ∧
        (w'.heap got).Status = if (exWorld1.heap 1).Stock > 0 then "ACTIVE" else "INACTIVE") ∧
      ∀ k p, exWorld1.store.items.lookup k = some p →
        ItemService.GetByID mockItemRepository w' exCtx k = (Except.ok p, w') ∧
          w'.heap p = exWorld1.heap p :=
  have hwf : exWorld1.store.WF := by
    rw [MockItemRepository_WF_iff_keys]
    decide
  have hvalid : (exWorld1.heap 1).Validate = none := by decide
  have hfree : ∀ k p, exWorld1.store.items.lookup k = some p →
      (exWorld1.heap p).Code ≠ (exWorld1.heap 1).Code := by
    rw [forall_lookup_iff_entries exWorld1.store.items
      (fun _ p => (exWorld1.heap p).Code ≠ (exWorld1.heap 1).Code)]
    decide
  ⟨hwf, hvalid, hfree, ItemService_Create_then_GetByID exWorld1 exCtx 1 20 21 hwf hvalid hfree⟩

/-- Claim C2.  On a well-formed in-memory store, for two valid items `a` and `b`
with the same code: when `Create` of `a` succeeds and leaves the world `w1`,
`Create` of `b` returns exactly `ErrDuplicateCode` and leaves `w1` as it is, the
heap included (so `b` gets no id) and the map of stored items included. -/
theorem ItemService_Create_duplicate (w w1 : ItemWorld MockItemRepository)
    (ctx1 ctx2 : Context) (a b : Ptr) (t1 t2 t3 t4 : Time)
    (hwf : w.store.WF)
    (ha : (w.heap a).Validate = none)
    (hb : (w.heap b).Validate = none)
    (hcode : (w.heap b).Code = (w.heap a).Code)
    (hfirst : ItemService.Create mockItemRepository w ctx1 a t1 t2 = (none, w1)) :
    ItemService.Create mockItemRepository w1 ctx2 b t3 t4 =
      (some Error.ErrDuplicateCode, w1) := by
  obtain ⟨_, hfree⟩ := Create_mock_none_inv w w1 ctx1 a t1 t2 hfirst
  obtain ⟨H, hC, hne, hsame⟩ := Create_mock_ok w ctx1 a t1 t2 ha hfree
  rw [hC] at hfirst
  have hw1 := (Prod.mk.inj hfirst).2
  subst hw1
  have hHb : (H b).Validate = none ∧ (H b).Code = (w.heap a).Code := by
    by_cases hba : b = a
    · subst hba
      rw [hsame]
      exact ⟨by simpa [Item.Validate] using hb, rfl⟩
    · rw [hne b hba]
      exact ⟨hb, hcode⟩
  have hHa : (H a).Code = (w.heap a).Code := by rw [hsame]
  have hex : (w.store.items.insert w.store.nextID a).entries.any
      (fun e => (H e.2).Code == (H b).Code && e.1 != 0) = true := by
    rw [any_entries_iff]
    refine ⟨w.store.nextID, a, AList.lookup_insert _, ?_⟩
    have h0 : w.store.nextID ≠ 0 := by have := hwf.1; omega
    simp [hHa, hHb.2, h0]
  unfold ItemService.Create
  simp only [Item.ValidateAt, hHb.1, mockItemRepository, MockItemRepository.ExistsByCode, hex]
  simp

/-- Claim C2 at a concrete input: two items with the code "A" on a new store. -/
theorem ItemService_Create_duplicate_witness :
    exWorld0.store.WF ∧ (exWorld0.heap 0).Validate = none ∧ (exWorld0.heap 2).Validate = none ∧
    (exWorld0.heap 2).Code = (exWorld0.heap 0).Code ∧
    ItemService.Create mockItemRepository exWorld0 exCtx 0 10 11 = (none, exWorld1) ∧
    ItemService.Create mockItemRepository exWorld1 exCtx 2 20 21 =
      (some Error.ErrDuplicateCode, exWorld1) :=
  have hwf : exWorld0.store.WF := by
    rw [MockItemRepository_WF_iff_keys]
    decide
  ⟨hwf, by decide, by decide, by decide, rfl,
    ItemService_Create_duplicate exWorld0 exWorld1 exCtx exCtx 0 2 10 11 20 21 hwf
      (by decide) (by decide) (by decide) rfl⟩

/-- Claim C3, the code evaluated at the failing input.  After two creates with
the codes "A" and "B" no two stored items share a code; the update of item 2 to
the code "A" is rejected with `ErrDuplicateCode`, yet the world it leaves,
reachable from the new store by these three calls, holds item 1 and item 2 both
with the code "A": code uniqueness is not an invariant. -/
theorem ItemService_Update_breaks_UniqueCodes :
    UniqueCodes exWorld2 ∧
    ItemService.Update mockItemRepository exWorld2 exCtx 2 2 30 =
      (some Error.ErrDuplicateCode, exWorld3) ∧
    ItemReachable exWorld3 ∧
    exWorld3.store.items.lookup 1 = some 0 ∧ exWorld3.store.items.lookup 2 = some 1 ∧
    (exWorld3.heap 0).Code = "A" ∧ (exWorld3.heap 1).Code = "A" ∧
    ¬ UniqueCodes exWorld3 := by
  refine ⟨?_, ?_, ⟨exHeap, exCalls, rfl⟩, by decide, by decide, by decide, by decide, ?_⟩
  · rw [UniqueCodes_iff_entries]
    decide
  · rfl
  · intro h
    exact h 1 0 2 1 (by decide) (by decide) (by decide) (by decide)

/-- Claim C4.  On a store in which every item is stored under its own id, for
an item stored under `id`, a context that carries the user `u`, and new values
that are valid and whose code no other stored item has: `ItemService.Update`
succeeds, and `GetByID id` then returns an item whose `ID` is still `id`, whose
`CreatedBy` is what it was, whose `UpdatedBy` is `u`, whose code, title,
description, price and stock are the new values, and whose `Status` is "ACTIVE"
when the new stock is positive and "INACTIVE" otherwise, whatever `Status` the
new values carried. -/
theorem ItemService_Update_frame (w : ItemWorld MockItemRepository) (ctx : Context) (id : Int)
    (item p : Ptr) (t : Time) (u : Int)
    (hids : IdsMatch w)
    (hl : w.store.items.lookup id = some p)
    (hu : ctx.userID = some u)
    (hvalid : (w.heap item).Validate = none)
    (hfree : ∀ k q, w.store.items.lookup k = some q → k ≠ id →
      (w.heap q).Code ≠ (w.heap item).Code) :
    ∃ w', ItemService.Update mockItemRepository w ctx id item t = (none, w') ∧
      ∃ got, ItemService.GetByID mockItemRepository w' ctx id = (Except.ok got, w') ∧
        (w'.heap got).ID = id ∧
        (w'.heap got).CreatedBy = (w.heap p).CreatedBy ∧
        (w'.heap got).UpdatedBy = u ∧
        (w'.heap got).Code = (w.heap item).Code ∧
        (w'.heap got).Title = (w.heap item).Title ∧
        (w'.heap got).Description = (w.heap item).Description ∧
        (w'.heap got).Price = (w.heap item).Price ∧
        (w'.heap got).Stock = (w.heap item).Stock ∧
        (w'.heap got).Status = if (w.heap item).Stock > 0 then "ACTIVE" else "INACTIVE" := by
  have hno : ¬ HeldByOther w id (w.heap item).Code := by
    rintro ⟨k, q, hk, hne, hc⟩
    exact hfree k q hk hne hc
  obtain ⟨H, hU, hp, _, _⟩ := Update_mock_ok w ctx id item p t hids hl hvalid hno
  refine ⟨_, hU, p, ?_, ?_⟩
  · apply FindByID_mock_some
    exact AList.lookup_insert _
  · show (H p).ID = _ ∧ (H p).CreatedBy = _ ∧ (H p).UpdatedBy = _ ∧ (H p).Code = _ ∧
      (H p).Title = _ ∧ (H p).Description = _ ∧ (H p).Price = _ ∧ (H p).Stock = _ ∧
      (H p).Status = _
    rw [hp]
    refine ⟨hids id p hl, rfl, ?_, rfl, rfl, rfl, rfl, rfl, rfl⟩
    simp [hu]

/-- Claim C4 at a concrete input: item 2 gets the code "C". -/
theorem ItemService_Update_frame_witness :
    IdsMatch exWorld2 ∧ exWorld2.store.items.lookup 2 = some 1 ∧ exCtx.userID = some 9 ∧
    (exWorld2.heap 3).Validate = none ∧
    (∀ k q, exWorld2.store.items.lookup k = some q → k ≠ 2 →
      (exWorld2.heap q).Code ≠ (exWorld2.heap 3).Code) ∧
    ∃ w', ItemService.Update mockItemRepository exWorld2 exCtx 2 3 30 = (none, w') ∧
      ∃ got, ItemService.GetByID mockItemRepository w' exCtx 2 = (Except.ok got, w') ∧
        (w'.heap got).ID = 2 ∧
        (w'.heap got).CreatedBy = (exWorld2.heap 1).CreatedBy ∧
        (w'.heap got).UpdatedBy = 9 ∧
        (w'.heap got).Code = (exWorld2.heap 3).Code ∧
        (w'.heap got).Title = (exWorld2.heap 3).Title ∧
        (w'.heap got).Description = (exWorld2.heap 3).Description ∧
        (w'.heap got).Price = (exWorld2.heap 3).Price ∧
        (w'.heap got).Stock = (exWorld2.heap 3).Stock ∧
        (w'.heap got).Status = if (exWorld2.heap 3).Stock > 0 then "ACTIVE" else "INACTIVE" :=
  have hids : IdsMatch exWorld2 := by
    rw [IdsMatch_iff_entries]
    decide
  have hfree : ∀ k q, exWorld2.store.items.lookup k = some q → k ≠ 2 →
      (exWorld2.heap q).Code ≠ (exWorld2.heap 3).Code := by
    rw [forall_lookup_iff_entries exWorld2.store.items
      (fun k q => k ≠ 2 → (exWorld2.heap q).Code ≠ (exWorld2.heap 3).Code)]
    decide
  ⟨hids, by decide, rfl, by decide, hfree,
    ItemService_Update_frame exWorld2 exCtx 2 3 1 30 9 hids (by decide) rfl (by decide) hfree⟩

/-- Claim C5, as amended.  On a store in which every item is stored under its
own id, for a stored `id` and valid new values: `ItemService.Update` returns
`ErrDuplicateCode` exactly when some item stored under another id has the new
code, and returns `nil` exactly when none has; in particular an update that
keeps the item's own code succeeds when no other stored item has that code.
`MockItemRepository.ExistsByCode code excludeID` answers `true` exactly when
some item stored under an id other than `excludeID` has the code, and `false`
otherwise. -/
theorem ItemService_Update_duplicate_iff (w : ItemWorld MockItemRepository) (ctx : Context)
    (id : Int) (item p : Ptr) (t : Time)
    (hids : IdsMatch w)
    (hl : w.store.items.lookup id = some p)
    (hvalid : (w.heap item).Validate = none) :
    ((ItemService.Update mockItemRepository w ctx id item t).1 = some Error.ErrDuplicateCode ↔
        HeldByOther w id (w.heap item).Code) ∧
    ((ItemService.Update mockItemRepository w ctx id item t).1 = none ↔
        ¬ HeldByOther w id (w.heap item).Code) ∧
    ((w.heap item).Code = (w.heap p).Code → ¬ HeldByOther w id (w.heap p).Code →
        (ItemService.Update mockItemRepository w ctx id item t).1 = none) ∧
    ∀ code excludeID,
      (MockItemRepository.ExistsByCode w ctx code excludeID = (Except.ok true, w) ↔
          HeldByOther w excludeID code) ∧
      (MockItemRepository.ExistsByCode w ctx code excludeID = (Except.ok false, w) ↔
          ¬ HeldByOther w excludeID code) := by
  have hiff1 : (ItemService.Update mockItemRepository w ctx id item t).1 =
      some Error.ErrDuplicateCode ↔ HeldByOther w id (w.heap item).Code := by
    constructor
    · intro h
      by_contra hno
      obtain ⟨H, hU, _⟩ := Update_mock_ok w ctx id item p t hids hl hvalid hno
      rw [hU] at h
      exact Option.noConfusion h
    · intro hh
      rw [Update_mock_dup w ctx id item p t hids hl hvalid hh]
  have hiff2 : (ItemService.Update mockItemRepository w ctx id item t).1 = none ↔
      ¬ HeldByOther w id (w.heap item).Code := by
    constructor
    · intro h hh
      rw [hiff1.2 hh] at h
      exact Option.noConfusion h
    · intro hno
      obtain ⟨H, hU, _⟩ := Update_mock_ok w ctx id item p t hids hl hvalid hno
      rw [hU]
  refine ⟨hiff1, hiff2, ?_, ?_⟩
  · intro hc hno
    rw [← hc] at hno
    exact hiff2.2 hno
  · intro code ex
    have key := ExistsByCode_mock_iff w code ex
    unfold MockItemRepository.ExistsByCode
    constructor
    · rw [← key]
      constructor
      · intro h
        split_ifs at h with hany
        · exact hany
        · simp at h
      · intro hany
        rw [if_pos hany]
    · rw [← key]
      constructor
      · intro h
        split_ifs at h with hany
        · simp at h
        · exact hany
      · intro hany
        rw [if_neg hany]

/-- Claim C5 at concrete inputs: item 2 may not take the code "A" of item 1, and
an update of item 2 through its own stored record, which keeps the code "B",
succeeds. -/
theorem ItemService_Update_duplicate_iff_witness :
    IdsMatch exWorld2 ∧ exWorld2.store.items.lookup 2 = some 1 ∧
    (exWorld2.heap 2).Validate = none ∧ (exWorld2.heap 1).Validate = none ∧
    HeldByOther exWorld2 2 (exWorld2.heap 2).Code ∧
    ¬ HeldByOther exWorld2 2 (exWorld2.heap 1).Code ∧
    (ItemService.Update mockItemRepository exWorld2 exCtx 2 2 30).1 =
      some Error.ErrDuplicateCode ∧
    (ItemService.Update mockItemRepository exWorld2 exCtx 2 1 30).1 = none :=
  have hids : IdsMatch exWorld2 := by
    rw [IdsMatch_iff_entries]
    decide
  have hheld : HeldByOther exWorld2 2 (exWorld2.heap 2).Code :=
    ⟨1, 0, by decide, by decide, by decide⟩
  have hown : ¬ HeldByOther exWorld2 2 (exWorld2.heap 1).Code := by
    rw [HeldByOther_iff_entries]
    decide
  ⟨hids, by decide, by decide, by decide, hheld, hown,
    (ItemService_Update_duplicate_iff exWorld2 exCtx 2 2 1 30 hids (by decide)
      (by decide)).1.2 hheld,
    (ItemService_Update_duplicate_iff exWorld2 exCtx 2 1 1 30 hids (by decide)
      (by decide)).2.2.1 rfl hown⟩

/-- Claim C5 fails as stated.  In the world the three sample calls leave, which
is reachable and stores every item under its own id, item 2 has the code "A";
an update of item 2 with valid values that keep this code does not succeed: it
returns `ErrDuplicateCode`, because item 1 has the code "A" too. -/
theorem ItemService_Update_own_code_rejected :
    ItemReachable exWorld3 ∧ IdsMatch exWorld3 ∧
    exWorld3.store.items.lookup 2 = some 1 ∧
    (exWorld3.heap 2).Validate = none ∧
    (exWorld3.heap 2).Code = (exWorld3.heap 1).Code ∧
    (ItemService.Update mockItemRepository exWorld3 exCtx 2 2 40).1 =
      some Error.ErrDuplicateCode ∧
    (ItemService.Update mockItemRepository exWorld3 exCtx 2 2 40).1 ≠ none := by
  refine ⟨⟨exHeap, exCalls, rfl⟩, ?_, by decide, by decide, by decide, by decide, by decide⟩
  rw [IdsMatch_iff_entries]
  decide

/-- Claim C6.  `Item.Validate` returns `nil` exactly when code, title and
description are non-empty, the price is positive and the stock is not negative;
otherwise it returns the error of the first violated rule in the order code,
title, description, price, stock; and the heap after the call is the heap
before it: the item is not modified. -/
theorem Item_Validate_spec (h : ItemHeap) (p : Ptr) :
    ((Item.ValidateAt h p).1 = none ↔
        (h p).Code ≠ "" ∧ (h p).Title ≠ "" ∧ (h p).Description ≠ "" ∧
          0 < (h p).Price ∧ 0 ≤ (h p).Stock) ∧
    ((h p).Code = "" → (Item.ValidateAt h p).1 = some Error.ErrCodeRequired) ∧
    ((h p).Code ≠ "" → (h p).Title = "" →
        (Item.ValidateAt h p).1 = some Error.ErrTitleRequired) ∧
    ((h p).Code ≠ "" → (h p).Title ≠ "" → (h p).Description = "" →
        (Item.ValidateAt h p).1 = some Error.ErrDescriptionRequired) ∧
    ((h p).Code ≠ "" → (h p).Title ≠ "" → (h p).Description ≠ "" → (h p).Price ≤ 0 →
        (Item.ValidateAt h p).1 = some Error.ErrInvalidPrice) ∧
    ((h p).Code ≠ "" → (h p).Title ≠ "" → (h p).Description ≠ "" → 0 < (h p).Price →
        (h p).Stock < 0 → (Item.ValidateAt h p).1 = some Error.ErrInvalidStock) ∧
    (Item.ValidateAt h p).2 = h := by
  refine ⟨?_, ?_, ?_, ?_, ?_, ?_, rfl⟩ <;> simp only [Item.ValidateAt, Item.Validate]
  · constructor
    · intro hv
      split_ifs at hv with h1 h2 h3 h4 h5
      exact ⟨h1, h2, h3, by omega, by omega⟩
    · rintro ⟨h1, h2, h3, h4, h5⟩
      rw [if_neg h1, if_neg h2, if_neg h3, if_neg (not_le.2 h4), if_neg (not_lt.2 h5)]
  · intro h1; rw [if_pos h1]
  · intro h1 h2; rw [if_neg h1, if_pos h2]
  · intro h1 h2 h3; rw [if_neg h1, if_neg h2, if_pos h3]
  · intro h1 h2 h3 h4; rw [if_neg h1, if_neg h2, if_neg h3, if_pos h4]
  · intro h1 h2 h3 h4 h5
    rw [if_neg h1, if_neg h2, if_neg h3, if_neg (not_le.2 h4), if_pos h5]

/-- Claim C6 at concrete inputs: a valid item, and one whose title and price are both wrong. -/
theorem Item_Validate_spec_witness :
    (Item.ValidateAt exHeap 0).1 = none ∧
    (Item.ValidateAt (exHeap.modify 0 (fun i => { i with Title := "", Price := 0 })) 0).1 =
      some Error.ErrTitleRequired :=
  ⟨(Item_Validate_spec exHeap 0).1.2 (by decide),
    (Item_Validate_spec (exHeap.modify 0 (fun i => { i with Title := "", Price := 0 })) 0).2.2.1
      (by decide) (by decide)⟩

/-- Claim C7.  When an item is stored under `id`, `ItemService.Delete id`
succeeds, `GetByID id` then fails with `ErrItemNotFound`, and every other stored
id still resolves to the same, unchanged record; when none is stored under `id`,
`Delete id` fails with `ErrItemNotFound` and leaves the world as it is. -/
theorem ItemService_Delete_spec (w : ItemWorld MockItemRepository) (ctx : Context) (id : Int) :
    (∀ p, w.store.items.lookup id = some p →
      ∃ w', ItemService.Delete mockItemRepository w ctx id = (none, w') ∧
        ItemService.GetByID mockItemRepository w' ctx id =
          (Except.error Error.ErrItemNotFound, w') ∧
        ∀ k q, k ≠ id → w.store.items.lookup k = some q →
          ItemService.GetByID mockItemRepository w' ctx k = (Except.ok q, w') ∧
            w'.heap q = w.heap q) ∧
    (w.store.items.lookup id = none →
      ItemService.Delete mockItemRepository w ctx id = (some Error.ErrItemNotFound, w)) := by
  constructor
  · intro p hp
    refine ⟨{ w with store := { w.store with items := w.store.items.erase id } }, ?_, ?_, ?_⟩
    · simp [ItemService.Delete, mockItemRepository, MockItemRepository.Delete, hp]
    · apply FindByID_mock_none
      exact AList.lookup_erase _ _
    · intro k q hk hq
      refine ⟨?_, rfl⟩
      apply FindByID_mock_some
      simp only
      rw [AList.lookup_erase_ne hk]
      exact hq
  · intro hn
    simp [ItemService.Delete, mockItemRepository, MockItemRepository.Delete, hn]

/-- Claim C7 at a concrete input: deleting item 1 of two. -/
theorem ItemService_Delete_spec_witness :
    exWorld2.store.items.lookup 1 = some 0 ∧
    ∃ w', ItemService.Delete mockItemRepository exWorld2 exCtx 1 = (none, w') ∧
      ItemService.GetByID mockItemRepository w' exCtx 1 =
        (Except.error Error.ErrItemNotFound, w') ∧
      ∀ k q, k ≠ 1 → exWorld2.store.items.lookup k = some q →
        ItemService.GetByID mockItemRepository w' exCtx k = (Except.ok q, w') ∧
          w'.heap q = exWorld2.heap q :=
  ⟨by decide, (ItemService_Delete_spec exWorld2 exCtx 1).1 0 (by decide)⟩

/-- Claim C8.  For every hasher, signer, user store and state: when the
username is empty, or the password is empty, or the store returns an error for
the username, or the hash of the user it returns does not verify against the
password, `UserService.Login` returns the empty token and
`ErrInvalidCredentials`; hence any two rejected logins, such as a wrong password
for an existing user and a username that does not exist, return equal results. -/
theorem UserService_Login_uniform_failure :
    (∀ {σ : Type} (b : Bcrypt) (jwt : JwtSigner) (repo : UserRepository σ) (s : UserService)
        (w : UserWorld σ) (ctx : Context) (username password : String) (now : Time),
        LoginRejected b repo w ctx username password →
          (UserService.Login b jwt repo s w ctx username password now).1 =
            ("", some Error.ErrInvalidCredentials)) ∧
    (∀ {σ τ : Type} (b b' : Bcrypt) (jwt jwt' : JwtSigner) (repo : UserRepository σ)
        (repo' : UserRepository τ) (s s' : UserService) (w : UserWorld σ) (w' : UserWorld τ)
        (ctx ctx' : Context) (username password username' password' : String)
        (now now' : Time),
        LoginRejected b repo w ctx username password →
        LoginRejected b' repo' w' ctx' username' password' →
          (UserService.Login b jwt repo s w ctx username password now).1 =
            (UserService.Login b' jwt' repo' s' w' ctx' username' password' now').1) := by
  have key : ∀ {σ : Type} (b : Bcrypt) (jwt : JwtSigner) (repo : UserRepository σ)
      (s : UserService) (w : UserWorld σ) (ctx : Context) (username password : String)
      (now : Time), LoginRejected b repo w ctx username password →
        (UserService.Login b jwt repo s w ctx username password now).1 =
          ("", some Error.ErrInvalidCredentials) := by
    intro σ b jwt repo s w ctx username password now hrej
    unfold UserService.Login
    by_cases hu : username = ""
    · rw [if_pos hu]
    rw [if_neg hu]
    by_cases hp : password = ""
    · rw [if_pos hp]
    rw [if_neg hp]
    rcases hrej with h | h | ⟨err, h⟩ | ⟨user, h, hcmp⟩
    · exact absurd h hu
    · exact absurd h hp
    · rcases hfind : repo.FindByUsername w ctx username with ⟨r, w1⟩
      rw [hfind] at h
      simp only at h
      subst h
      rfl
    · rcases hfind : repo.FindByUsername w ctx username with ⟨r, w1⟩
      rw [hfind] at h hcmp
      simp only at h hcmp
      subst h
      simp only [hcmp]
      rfl
  refine ⟨key, ?_⟩
  intro σ τ b b' jwt jwt' repo repo' s s' w w' ctx ctx' username password username' password'
    now now' h h'
  rw [key b jwt repo s w ctx username password now h,
    key b' jwt' repo' s' w' ctx' username' password' now' h']

/-- Claim C8 at concrete inputs: a wrong password for "ana", and a user that does not exist. -/
theorem UserService_Login_uniform_failure_witness :
    LoginRejected exBcrypt mockUserRepository exUserWorld1 exCtx "ana" "wrong" ∧
    LoginRejected exBcrypt mockUserRepository exUserWorld1 exCtx "nobody" "secret" ∧
    (UserService.Login exBcrypt exJwt mockUserRepository exService exUserWorld1 exCtx
        "ana" "wrong" 100).1 = ("", some Error.ErrInvalidCredentials) ∧
    (UserService.Login exBcrypt exJwt mockUserRepository exService exUserWorld1 exCtx
        "ana" "wrong" 100).1 =
      (UserService.Login exBcrypt exJwt mockUserRepository exService exUserWorld1 exCtx
        "nobody" "secret" 100).1 :=
  have h1 : LoginRejected exBcrypt mockUserRepository exUserWorld1 exCtx "ana" "wrong" :=
    Or.inr (Or.inr (Or.inr ⟨0, rfl, by decide⟩))
  have h2 : LoginRejected exBcrypt mockUserRepository exUserWorld1 exCtx "nobody" "secret" :=
    Or.inr (Or.inr (Or.inl ⟨Error.ErrUserNotFound, rfl⟩))
  ⟨h1, h2,
    UserService_Login_uniform_failure.1 exBcrypt exJwt mockUserRepository exService
      exUserWorld1 exCtx "ana" "wrong" 100 h1,
    UserService_Login_uniform_failure.2 exBcrypt exBcrypt exJwt exJwt mockUserRepository
      mockUserRepository exService exService exUserWorld1 exUserWorld1 exCtx exCtx
      "ana" "wrong" "nobody" "secret" 100 100 h1 h2⟩

/-- Claim C9.  For a new user (`ID = 0`), `User.Validate` returns
`ErrUsernameRequired` exactly when the username is empty, and otherwise returns
`ErrPasswordTooShort` exactly when the byte length of the password is below 6:
length 5 is rejected, length 6 is accepted.  For a user with `ID ≠ 0` the
password is not looked at.  When `Validate` fails, `UserService.Register`
returns that error and leaves the world as it is, for every hasher and every
store: the password is not replaced by a hash and the store is not changed. -/
theorem User_Validate_and_Register_reject :
    (∀ u : User, u.ID = 0 →
      (u.Validate = some Error.ErrUsernameRequired ↔ u.Username = "") ∧
      (u.Username ≠ "" →
        (u.Validate = some Error.ErrPasswordTooShort ↔ u.Password.utf8ByteSize < 6)) ∧
      (u.Username ≠ "" → u.Password.utf8ByteSize = 5 →
        u.Validate = some Error.ErrPasswordTooShort) ∧
      (u.Username ≠ "" → u.Password.utf8ByteSize = 6 → u.Validate = none)) ∧
    (∀ u : User, u.ID ≠ 0 →
      (u.Validate = some Error.ErrUsernameRequired ↔ u.Username = "") ∧
      (u.Username ≠ "" → u.Validate = none)) ∧
    (∀ {σ : Type} (b : Bcrypt) (repo : UserRepository σ) (w : UserWorld σ) (ctx : Context)
        (user : Ptr) (salt : Nat) (t1 t2 : Time) (err : Error),
        (w.heap user).Validate = some err →
          UserService.Register b repo w ctx user salt t1 t2 = (some err, w)) := by
  refine ⟨?_, ?_, ?_⟩
  · intro u hid
    refine ⟨?_, ?_, ?_, ?_⟩
    · unfold User.Validate
      constructor
      · intro h
        by_contra hu
        rw [if_neg hu] at h
        split_ifs at h
        exact Error.noConfusion (Option.some.inj h)
      · intro hu
        rw [if_pos hu]
    · intro hu
      unfold User.Validate
      rw [if_neg hu]
      constructor
      · intro h
        split_ifs at h with hc
        exact hc.2
      · intro hlen
        rw [if_pos ⟨hid, hlen⟩]
    · intro hu hlen
      unfold User.Validate
      rw [if_neg hu, if_pos ⟨hid, by omega⟩]
    · intro hu hlen
      unfold User.Validate
      rw [if_neg hu, if_neg (by rintro ⟨_, h⟩; omega)]
  · intro u hid
    constructor
    · unfold User.Validate
      constructor
      · intro h
        by_contra hu
        rw [if_neg hu] at h
        split_ifs at h
        exact Error.noConfusion (Option.some.inj h)
      · intro hu
        rw [if_pos hu]
    · intro hu
      unfold User.Validate
      rw [if_neg hu, if_neg (fun h => hid h.1)]
  · intro σ b repo w ctx user salt t1 t2 err h
    unfold UserService.Register
    rw [h]

/-- Claim C9 at concrete inputs: passwords of 5 and of 6 bytes, and a registration without a username. -/
theorem User_Validate_and_Register_reject_witness :
    (exUser "ana" "12345").Validate = some Error.ErrPasswordTooShort ∧
    (exUser "ana" "123456").Validate = none ∧
    UserService.Register exBcrypt mockUserRepository exUserWorld1 exCtx 3 0 20 21 =
      (some Error.ErrUsernameRequired, exUserWorld1) :=
  ⟨(User_Validate_and_Register_reject.1 (exUser "ana" "12345") rfl).2.2.1 (by decide)
      (by decide),
    (User_Validate_and_Register_reject.1 (exUser "ana" "123456") rfl).2.2.2 (by decide)
      (by decide),
    User_Validate_and_Register_reject.2.2 exBcrypt mockUserRepository exUserWorld1 exCtx 3 0
      20 21 Error.ErrUsernameRequired (by decide)⟩

/-- Claim C10, as amended.  On a well-formed in-memory user store that holds a
user with the username of a valid new user (`ID = 0`): when the hasher accepts
the password, `UserService.Register` returns exactly `ErrDuplicateUsername`,
the store is unchanged and so is every stored user; when the hasher fails,
`Register` returns the hasher's error and leaves the world as it is.  In every
world reachable from the new store by `Register` calls no two stored users have
the same username. -/
theorem UserService_Register_duplicate :
    (∀ (b : Bcrypt) (w : UserWorld MockUserRepository) (ctx : Context) (user : Ptr)
        (salt : Nat) (t1 t2 : Time) (hashed : String),
        w.store.WF → UserIdsMatch w →
        (∃ k q, w.store.users.lookup k = some q ∧
          (w.heap q).Username = (w.heap user).Username) →
        (w.heap user).ID = 0 → (w.heap user).Validate = none →
        b.GenerateFromPassword salt (w.heap user).Password Bcrypt.DefaultCost =
          Except.ok hashed →
        ∃ w', UserService.Register b mockUserRepository w ctx user salt t1 t2 =
            (some Error.ErrDuplicateUsername, w') ∧
          w'.store = w.store ∧
          ∀ k q, w.store.users.lookup k = some q → w'.heap q = w.heap q) ∧
    (∀ (b : Bcrypt) (w : UserWorld MockUserRepository) (ctx : Context) (user : Ptr)
        (salt : Nat) (t1 t2 : Time) (err : Error),
        (w.heap user).Validate = none →
        b.GenerateFromPassword salt (w.heap user).Password Bcrypt.DefaultCost =
          Except.error err →
        UserService.Register b mockUserRepository w ctx user salt t1 t2 = (some err, w)) ∧
    (∀ (b : Bcrypt) (w : UserWorld MockUserRepository),
        UserReachable b w → UniqueUsernames w) := by
  refine ⟨?_, ?_, ?_⟩
  · intro b w ctx user salt t1 t2 hashed hwf hids hheld hnew hvalid hhash
    refine ⟨_, Register_mock_dup b w ctx user salt t1 t2 hashed hvalid hhash hheld, rfl, ?_⟩
    intro k q hl
    have hq : q ≠ user := by
      intro hq
      subst hq
      have h1 := hids k q hl
      have h2 := (hwf.2 k (AList.lookup_isSome.1 (by rw [hl]; rfl))).1
      omega
    exact hashedHeap_ne _ _ _ hq
  · intro b w ctx user salt t1 t2 err hvalid hhash
    exact Register_hashfail b _ w ctx user salt t1 t2 err hvalid hhash
  · intro b w hr
    exact (UserReachable_inv hr).2.2

/-- Claim C10 at a concrete input: a second "ana". -/
theorem UserService_Register_duplicate_witness :
    exUserWorld1.store.WF ∧ UserIdsMatch exUserWorld1 ∧
    exUserWorld1.store.users.lookup 1 = some 0 ∧
    (exUserWorld1.heap 0).Username = (exUserWorld1.heap 2).Username ∧
    (exUserWorld1.heap 2).ID = 0 ∧ (exUserWorld1.heap 2).Validate = none ∧
    ∃ w', UserService.Register exBcrypt mockUserRepository exUserWorld1 exCtx 2 0 20 21 =
        (some Error.ErrDuplicateUsername, w') ∧
      w'.store = exUserWorld1.store ∧
      ∀ k q, exUserWorld1.store.users.lookup k = some q → w'.heap q = exUserWorld1.heap q :=
  have hwf : exUserWorld1.store.WF := by
    rw [MockUserRepository_WF_iff_keys]
    decide
  have hids : UserIdsMatch exUserWorld1 := by
    rw [UserIdsMatch_iff_entries]
    decide
  ⟨hwf, hids, by decide, by decide, by decide, by decide,
    UserService_Register_duplicate.1 exBcrypt exUserWorld1 exCtx 2 0 20 21 "$2a$10$hunter22"
      hwf hids ⟨1, 0, by decide, by decide⟩ (by decide) (by decide) rfl⟩

/-- Claim C10 fails as stated.  The store holds "ana"; a new user "ana" whose
password has 87 bytes is valid, but the hasher rejects the password, and
`Register` returns the hasher's error, not `ErrDuplicateUsername`. -/
theorem UserService_Register_duplicate_hash_error :
    UserReachable exBcrypt exUserWorld1 ∧
    exUserWorld1.store.users.lookup 1 = some 0 ∧
    (exUserWorld1.heap 0).Username = "ana" ∧ (exUserWorld1.heap 1).Username = "ana" ∧
    (exUserWorld1.heap 1).ID = 0 ∧ (exUserWorld1.heap 1).Validate = none ∧
    UserService.Register exBcrypt mockUserRepository exUserWorld1 exCtx 1 0 20 21 =
      (some (Error.other "bcrypt: password length exceeds 72 bytes"), exUserWorld1) ∧
    (UserService.Register exBcrypt mockUserRepository exUserWorld1 exCtx 1 0 20 21).1 ≠
      some Error.ErrDuplicateUsername :=
  ⟨⟨exUserHeap, [{ ctx := exCtx, user := 0, salt := 0, t1 := 10, t2 := 11 }], rfl⟩,
    by decide, by decide, by decide, by decide, by decide, rfl, by decide⟩

/-- Claim C11, amended.  For every secret and every user with a positive id,
over a codec that round-trips the token: `UserService.generateToken` at the
instant `t` returns a token, and `UserService.ValidateToken` of a service with
the signing secret, or with any secret under which the signature of the token
verifies, yields claims with the user's `UserID` and `Username` at every
instant before the expiry date, which is `t` cut to the whole second plus one
hour; whatever the secret it yields `ErrInvalidToken` from that instant on, so
also at every instant later than `t` plus one hour; and a service with a secret
under which the signature does not verify yields `ErrInvalidToken` at every
instant.  Nothing is taken about which other secrets verify the signature. -/
theorem UserService_ValidateToken_issued (codec : JwtCodec) (s : UserService) (h : UserHeap)
    (user : Ptr) (t : Time) (hid : 0 < (h user).ID)
    (hrt : codec.RoundTrips "HS256" (issuedClaims (h user) t) (signingSecret s)) :
    ∃ tok sig,
      UserService.generateToken (jwtSigner codec) s h user t =
        ((tok, none), { jwtSecret := signingSecret s }) ∧
      codec.Sign "HS256" (Jwt.SigningString codec "HS256" (issuedClaims (h user) t))
        (signingSecret s) = Except.ok sig ∧
      ∀ (s2 : UserService) (now : Time),
        (s2.jwtSecret = signingSecret s → now < NewNumericDate t + Hour →
          ∃ c, UserService.ValidateToken (jwtLib codec) s2 tok now = some (Except.ok c) ∧
            c.UserID = (h user).ID ∧ c.Username = (h user).Username) ∧
        (codec.Verify "HS256" (Jwt.SigningString codec "HS256" (issuedClaims (h user) t)) sig
            s2.jwtSecret = none → now < NewNumericDate t + Hour →
          ∃ c, UserService.ValidateToken (jwtLib codec) s2 tok now = some (Except.ok c) ∧
            c.UserID = (h user).ID ∧ c.Username = (h user).Username) ∧
        (NewNumericDate t + Hour ≤ now →
          UserService.ValidateToken (jwtLib codec) s2 tok now =
            some (Except.error Error.ErrInvalidToken)) ∧
        (t + Hour < now →
          UserService.ValidateToken (jwtLib codec) s2 tok now =
            some (Except.error Error.ErrInvalidToken)) ∧
        (codec.Verify "HS256" (Jwt.SigningString codec "HS256" (issuedClaims (h user) t)) sig
            s2.jwtSecret ≠ none →
          UserService.ValidateToken (jwtLib codec) s2 tok now =
            some (Except.error Error.ErrInvalidToken)) := by
  obtain ⟨tok, sig, hsign, hsig, hown, hval⟩ := ValidateToken_issued codec "HS256"
    (issuedClaims (h user) t) (signingSecret s) (by decide) hrt
  refine ⟨tok, sig, ?_, hsig, ?_⟩
  · rw [generateToken_issued _ s h user t hid]
    simp only [jwtSigner, hsign]
  · intro s2 now
    have hexp : NewNumericDate t + Hour ≤ now →
        UserService.ValidateToken (jwtLib codec) s2 tok now =
          some (Except.error Error.ErrInvalidToken) := by
      intro hle
      rw [hval s2 now, if_neg]
      rintro ⟨_, hv⟩
      have hlt := (Validator_Validate_issued (h user) t now).1 hv
      exact absurd hlt (not_lt.2 hle)
    have hacc : codec.Verify "HS256"
        (Jwt.SigningString codec "HS256" (issuedClaims (h user) t)) sig s2.jwtSecret = none →
        now < NewNumericDate t + Hour →
        ∃ c, UserService.ValidateToken (jwtLib codec) s2 tok now = some (Except.ok c) ∧
          c.UserID = (h user).ID ∧ c.Username = (h user).Username := by
      intro hk hlt
      refine ⟨issuedClaims (h user) t, ?_, rfl, rfl⟩
      rw [hval s2 now, if_pos ⟨hk, (Validator_Validate_issued (h user) t now).2 hlt⟩]
    refine ⟨?_, hacc, hexp, ?_, ?_⟩
    · intro hk hlt
      exact hacc (by rw [hk]; exact hown) hlt
    · intro hlt
      apply hexp
      have hle := NewNumericDate_le t
      exact le_of_lt (lt_of_le_of_lt (add_le_add_right hle Hour) hlt)
    · intro hk
      rw [hval s2 now, if_neg]
      rintro ⟨hk', _⟩
      exact hk hk'

/-- Claim C11 at a concrete input: the token for "ana" issued half a second
after the instant 1 s, under the secret "k".  The service with the secret "k"
accepts it at 2 s; the service with the secret "other", under which the
signature does not verify, rejects it. -/
theorem UserService_ValidateToken_issued_witness :
    0 < (exUserHeap1 0).ID ∧
    exCodec.RoundTrips "HS256" (issuedClaims (exUserHeap1 0) exIssueTime)
      (signingSecret exService) ∧
    ∃ tok sig,
      UserService.generateToken (jwtSigner exCodec) exService exUserHeap1 0 exIssueTime =
        ((tok, none), { jwtSecret := signingSecret exService }) ∧
      exCodec.Sign "HS256"
        (Jwt.SigningString exCodec "HS256" (issuedClaims (exUserHeap1 0) exIssueTime))
        (signingSecret exService) = Except.ok sig ∧
      (∃ c, UserService.ValidateToken (jwtLib exCodec) exService tok 2000000000 =
          some (Except.ok c) ∧
        c.UserID = (exUserHeap1 0).ID ∧ c.Username = (exUserHeap1 0).Username) ∧
      UserService.ValidateToken (jwtLib exCodec) exService tok 3601000000000 =
        some (Except.error Error.ErrInvalidToken) ∧
      UserService.ValidateToken (jwtLib exCodec) { jwtSecret := "other" } tok 2000000000 =
        some (Except.error Error.ErrInvalidToken) :=
  have hrt : exCodec.RoundTrips "HS256" (issuedClaims (exUserHeap1 0) exIssueTime)
      (signingSecret exService) := by
    rw [exClaims_eq, exService_signingSecret]
    exact exCodec_RoundTrips_HS256
  ⟨by decide, hrt,
    (UserService_ValidateToken_issued exCodec exService exUserHeap1 0 exIssueTime (by decide)
      hrt).imp fun _tok hs => hs.imp fun sig hsig =>
        have hsg : Except.ok "HS256:k" = Except.ok sig := hsig.2.1
        have hsv : sig = "HS256:k" := (Except.ok.inj hsg).symm
        ⟨hsig.1, hsig.2.1,
          (hsig.2.2 exService 2000000000).1 rfl (by decide),
          (hsig.2.2 exService 3601000000000).2.2.1 (by decide),
          (hsig.2.2 { jwtSecret := "other" } 2000000000).2.2.2.2
            (by rw [hsv]; decide)⟩⟩

/-- Claim C11 as stated fails before `t` plus one hour is over.  The token for
"ana" is issued at 1.5 s and carries the expiry date 3601 s; at 3601.2 s, which
is before 3601.5 s, the service that issued it answers `ErrInvalidToken`.  It
fails for a different secret as well: a service whose secret is "k" with a zero
byte after it, which is the same key to HMAC, accepts the token at 2 s. -/
theorem UserService_ValidateToken_expires_early :
    (UserService.generateToken (jwtSigner exCodec) exService exUserHeap1 0 exIssueTime).1 =
      (exToken, none) ∧
    exIssueTime = 1500000000 ∧
    (3601200000000 : Time) < exIssueTime + Hour ∧
    UserService.ValidateToken (jwtLib exCodec) exService exToken 3601200000000 =
      some (Except.error Error.ErrInvalidToken) ∧
    exPaddedService.jwtSecret ≠ exService.jwtSecret ∧
    hmacKey exPaddedService.jwtSecret = hmacKey exService.jwtSecret ∧
    UserService.ValidateToken (jwtLib exCodec) exPaddedService exToken 2000000000 =
      some (Except.ok exClaims) := by
  obtain ⟨tok, sig, hsign, hsig, _, hval⟩ := ValidateToken_issued exCodec "HS256" exClaims "k"
    (by decide) exCodec_RoundTrips_HS256
  have htok : tok = exToken := by
    rw [exToken_signed] at hsign
    exact (Except.ok.inj hsign).symm
  have hsg : Except.ok "HS256:k" = Except.ok sig := hsig
  have hsv : sig = "HS256:k" := (Except.ok.inj hsg).symm
  subst htok
  subst hsv
  refine ⟨rfl, rfl, by decide, ?_, by decide, by decide, ?_⟩
  · rw [hval exService 3601200000000, if_neg]
    rintro ⟨_, hv⟩
    exact absurd hv (by decide)
  · rw [hval exPaddedService 2000000000, if_pos ⟨by decide, by decide⟩]

/-- Claim C12, amended.  For every signer, user and instant `now`: when the
user's id is positive, `UserService.generateToken` signs, under HS256 and with
the signing secret, the claims with `UserID` and `Username` of the user,
`IssuedAt` equal to `now` cut to the whole second (at most `now`, less than a
second before it) and `ExpiresAt` one hour after `IssuedAt`, 3600 seconds, and
returns what the signer returns; when the id is not positive it returns an
error and the empty token. -/
theorem UserService_generateToken_claims (jwt : JwtSigner) (s : UserService) (h : UserHeap)
    (user : Ptr) (now : Time) :
    (0 < (h user).ID →
      UserService.generateToken jwt s h user now =
        match jwt.SignedString "HS256"
            { UserID := (h user).ID, Username := (h user).Username,
              ExpiresAt := some (NewNumericDate now + Hour), NotBefore := none,
              IssuedAt := some (NewNumericDate now) } (signingSecret s) with
        | Except.error err => (("", some err), { jwtSecret := signingSecret s })
        | Except.ok tokenString => ((tokenString, none), { jwtSecret := signingSecret s })) ∧
    NewNumericDate now ≤ now ∧ now - NewNumericDate now < Second ∧
    NewNumericDate now % Second = 0 ∧
    (NewNumericDate now + Hour) - NewNumericDate now = 3600 * Second ∧
    ((h user).ID ≤ 0 →
      ∃ err, UserService.generateToken jwt s h user now = (("", some err), s)) := by
  refine ⟨fun hid => generateToken_issued jwt s h user now hid, NewNumericDate_le now, ?_, ?_,
    ?_, fun hid => ⟨_, generateToken_invalid jwt s h user now hid⟩⟩
  · have hx : ∀ x : Int, x - (x - x % 1000000000) < 1000000000 := by
      intro x
      omega
    exact hx now
  · have hx : ∀ x : Int, (x - x % 1000000000) % 1000000000 = 0 := by
      intro x
      omega
    exact hx now
  · have hx : ∀ x : Int, x + 3600 * 1000000000 - x = 3600 * 1000000000 := by
      intro x
      omega
    exact hx (NewNumericDate now)

/-- Claim C12 at concrete inputs: "ana" with the id 1 at 1.5 s, and a user
that has no id yet. -/
theorem UserService_generateToken_claims_witness :
    (0 < (exUserHeap1 0).ID ∧
      UserService.generateToken exJwt exService exUserHeap1 0 exIssueTime =
        (("HS256.ana.k", none), { jwtSecret := "k" })) ∧
    ((exUserHeap 0).ID ≤ 0 ∧
      ∃ err, UserService.generateToken exJwt exService exUserHeap 0 exIssueTime =
        (("", some err), exService)) :=
  ⟨⟨by decide,
    ((UserService_generateToken_claims exJwt exService exUserHeap1 0 exIssueTime).1
      (by decide)).trans rfl⟩,
    by decide,
    (UserService_generateToken_claims exJwt exService exUserHeap 0 exIssueTime).2.2.2.2.2
      (by decide)⟩

/-- Claim C12 as stated fails for an instant that is not a whole second.  At
1.5 s the claims handed to the signer carry the issue date 1 s, not 1.5 s: the
signer that answers with the issue date it sees answers "issued at 1 s". -/
theorem UserService_generateToken_issue_date_cut :
    exIssueTime = 1500000000 ∧
    NewNumericDate exIssueTime = 1000000000 ∧
    0 < (exUserHeap1 0).ID ∧
    (UserService.generateToken exProbeJwt exService exUserHeap1 0 exIssueTime).1 =
      ("issued at 1 s", none) ∧
    exProbeJwt.SignedString "HS256"
      { UserID := 1, Username := "ana", ExpiresAt := some (exIssueTime + Hour),
        NotBefore := none, IssuedAt := some exIssueTime } "k" =
      Except.ok "issued at 1.5 s" := by
  refine ⟨rfl, by decide, by decide, rfl, rfl⟩

/-- Claim C13.  Whatever the library does, for every string of fewer than ten
bytes `UserService.ValidateToken` returns nil claims and `ErrInvalidToken`, the
same for every parser, which it therefore does not consult; for every string of
ten bytes or more the slice `tokenString[:10]` is in bounds; the method never
panics; and the only error it returns is `ErrInvalidToken`. -/
theorem UserService_ValidateToken_short (lib : JwtLib) (s : UserService)
    (tokenString : String) (now : Time) :
    (tokenString.utf8ByteSize < 10 →
      UserService.ValidateToken lib s tokenString now =
        some (Except.error Error.ErrInvalidToken)) ∧
    (10 ≤ tokenString.utf8ByteSize →
      sliceTo tokenString 10 = some (tokenString.toUTF8.extract 0 10)) ∧
    UserService.ValidateToken lib s tokenString now ≠ none ∧
    (∀ e, UserService.ValidateToken lib s tokenString now = some (Except.error e) →
      e = Error.ErrInvalidToken) := by
  refine ⟨?_, ?_, ?_, ?_⟩
  · intro hlen
    simp only [UserService.ValidateToken, if_pos hlen]
  · intro hlen
    exact sliceTo_some _ (by omega)
  · rcases ValidateToken_cases lib s tokenString now with h | ⟨c, h⟩ <;> rw [h] <;> simp
  · intro e he
    rcases ValidateToken_cases lib s tokenString now with h | ⟨c, h⟩
    · rw [h] at he
      exact ((Except.error.inj (Option.some.inj he))).symm
    · rw [h] at he
      simp at he

/-- Claim C13 at concrete inputs: the empty string, a string of nine bytes, and
a token of the sample codec. -/
theorem UserService_ValidateToken_short_witness :
    ("".utf8ByteSize < 10 ∧
      UserService.ValidateToken (jwtLib exCodec) exService "" 0 =
        some (Except.error Error.ErrInvalidToken)) ∧
    ("a.b.c.d.e".utf8ByteSize < 10 ∧
      UserService.ValidateToken (jwtLib exCodec) exService "a.b.c.d.e" 0 =
        some (Except.error Error.ErrInvalidToken)) ∧
    (10 ≤ "header-HS256.claims-ana.HS256:k".utf8ByteSize ∧
      sliceTo "header-HS256.claims-ana.HS256:k" 10 =
        some ("header-HS256.claims-ana.HS256:k".toUTF8.extract 0 10)) :=
  ⟨⟨by decide, (UserService_ValidateToken_short (jwtLib exCodec) exService "" 0).1 (by decide)⟩,
    ⟨by decide,
      (UserService_ValidateToken_short (jwtLib exCodec) exService "a.b.c.d.e" 0).1 (by decide)⟩,
    ⟨by decide,
      (UserService_ValidateToken_short (jwtLib exCodec) exService
        "header-HS256.claims-ana.HS256:k" 0).2.1 (by decide)⟩⟩

/-- Claim C14, amended.  `UserService.ValidateToken` accepts the methods of the
HMAC type, HS256, HS384 and HS512, and no other.  For every token of three
segments whose header names any other algorithm (RS256, none, a name that is
not registered, ...) it returns `ErrInvalidToken`, whatever the signature;
and for each of the three names, over a codec that round-trips the token, it
returns the claims of the token signed under that name with the service's
secret, when its dates hold. -/
theorem UserService_ValidateToken_HMAC_only (codec : JwtCodec) (s : UserService) :
    (∀ (tokenString p0 p1 p2 alg : String) (now : Time),
      tokenString.split (fun x => x == '.') = [p0, p1, p2] →
      codec.DecodeHeader p0 = Except.ok (some alg) →
      ¬ (alg = "HS256" ∨ alg = "HS384" ∨ alg = "HS512") →
      UserService.ValidateToken (jwtLib codec) s tokenString now =
        some (Except.error Error.ErrInvalidToken)) ∧
    (∀ (alg : String) (claims : JWTClaims) (now : Time),
      alg = "HS256" ∨ alg = "HS384" ∨ alg = "HS512" →
      codec.RoundTrips alg claims s.jwtSecret →
      Validator.Validate claims now = none →
      ∃ tok, Jwt.SignedString codec alg claims s.jwtSecret = Except.ok tok ∧
        UserService.ValidateToken (jwtLib codec) s tok now = some (Except.ok claims)) := by
  constructor
  · intro tokenString p0 p1 p2 alg now hsplit hdh hno
    rcases ValidateToken_cases (jwtLib codec) s tokenString now with h | ⟨c, h⟩
    · exact h
    · obtain ⟨q0, q1, q2, alg', sig, hsplit', hdh', hm, _⟩ :=
        ValidateToken_ok_inv codec s tokenString now c h
      rw [hsplit] at hsplit'
      have h0 : p0 = q0 := by
        have := List.cons.inj hsplit'
        exact this.1
      subst h0
      rw [hdh] at hdh'
      have ha : alg = alg' := Option.some.inj (Except.ok.inj hdh')
      subst ha
      exact absurd ((GetSigningMethod_HMAC_iff alg).1 hm) hno
  · intro alg claims now halg hrt hv
    obtain ⟨tok, sig, hsign, _, hown, hval⟩ := ValidateToken_issued codec alg claims
      s.jwtSecret ((GetSigningMethod_HMAC_iff alg).2 halg) hrt
    refine ⟨tok, hsign, ?_⟩
    rw [hval s now, if_pos ⟨hown, hv⟩]

/-- Claim C14 at concrete inputs: a token whose header names "none" is
rejected, and the token signed under HS384 with the secret is accepted. -/
theorem UserService_ValidateToken_HMAC_only_witness :
    (("header-none" ++ "." ++ "claims-ana" ++ "." ++ "none:k").split (fun x => x == '.') =
        ["header-none", "claims-ana", "none:k"] ∧
      exCodec.DecodeHeader "header-none" = Except.ok (some "none") ∧
      ¬ ("none" = "HS256" ∨ "none" = "HS384" ∨ "none" = "HS512") ∧
      UserService.ValidateToken (jwtLib exCodec) exService
        ("header-none" ++ "." ++ "claims-ana" ++ "." ++ "none:k") 2000000000 =
        some (Except.error Error.ErrInvalidToken)) ∧
    (exCodec.RoundTrips "HS384" exClaims exService.jwtSecret ∧
      Validator.Validate exClaims 2000000000 = none ∧
      ∃ tok, Jwt.SignedString exCodec "HS384" exClaims exService.jwtSecret = Except.ok tok ∧
        UserService.ValidateToken (jwtLib exCodec) exService tok 2000000000 =
          some (Except.ok exClaims)) :=
  have hsplit := split_three "header-none" "claims-ana" "none:k" (by decide) (by decide)
    (by decide)
  ⟨⟨hsplit, rfl, by decide,
    (UserService_ValidateToken_HMAC_only exCodec exService).1 _ _ _ _ "none" 2000000000 hsplit
      rfl (by decide)⟩,
    exCodec_RoundTrips_HS384, by decide,
    (UserService_ValidateToken_HMAC_only exCodec exService).2 "HS384" exClaims 2000000000
      (by decide) exCodec_RoundTrips_HS384 (by decide)⟩

/-- Claim C14 as stated fails for HS384.  The token for "ana" whose header
names HS384, signed under HS384 with the secret of the service, is accepted:
`UserService.ValidateToken` returns its claims. -/
theorem UserService_ValidateToken_accepts_HS384 :
    Jwt.SignedString exCodec "HS384" exClaims exService.jwtSecret = Except.ok exToken384 ∧
    exCodec.DecodeHeader "header-HS384" = Except.ok (some "HS384") ∧
    exToken384 = "header-HS384" ++ "." ++ "claims-ana" ++ "." ++ "HS384:k" ∧
    UserService.ValidateToken (jwtLib exCodec) exService exToken384 2000000000 =
      some (Except.ok exClaims) := by
  refine ⟨rfl, rfl, by decide, ?_⟩
  obtain ⟨tok, sig, hsign, _, hown, hval⟩ := ValidateToken_issued exCodec "HS384" exClaims "k"
    (by decide) exCodec_RoundTrips_HS384
  have htok : tok = exToken384 := by
    rw [exToken384_signed] at hsign
    exact (Except.ok.inj hsign).symm
  subst htok
  rw [hval exService 2000000000, if_pos ⟨hown, by decide⟩]

/-- Claim C15.  For every store, status, page and limit (of Go's `int`),
`ItemService.List` is one call of the store's `FindAll`, whose result it returns
as it is: the status is unchanged, the limit is `limit` when `1 <= limit <= 20`
and 10 otherwise, and the offset is the value of the Go expression
`(page' - 1) * limit'`, where `page'` is `page` when `page >= 1` and 1 otherwise;
when that product fits an `int` the offset is the product itself. -/
theorem ItemService_List_delegates {σ : Type} (repo : ItemRepository σ) (w : ItemWorld σ)
    (ctx : Context) (status : String) (page limit : Int) (order : List Int)
    (hp : IsInt page) :
    ItemService.List repo w ctx status page limit order =
        repo.FindAll w ctx status (normalLimit limit)
          (wrapInt ((normalPage page - 1) * normalLimit limit)) order ∧
      (IsInt ((normalPage page - 1) * normalLimit limit) →
        ItemService.List repo w ctx status page limit order =
          repo.FindAll w ctx status (normalLimit limit)
            ((normalPage page - 1) * normalLimit limit) order) := by
  have hpage : (if page < 1 then 1 else page) = normalPage page := by
    unfold normalPage
    split_ifs <;> omega
  have hlimit : (if limit < 1 ∨ limit > 20 then 10 else limit) = normalLimit limit := by
    unfold normalLimit
    split_ifs <;> omega
  have hp1 : IsInt (normalPage page - 1) := by
    unfold IsInt normalPage at *
    split_ifs <;> omega
  have key : ItemService.List repo w ctx status page limit order =
      repo.FindAll w ctx status (normalLimit limit)
        (wrapInt ((normalPage page - 1) * normalLimit limit)) order := by
    unfold ItemService.List
    simp only [hpage, hlimit, wrapInt_of_IsInt hp1]
  refine ⟨key, ?_⟩
  intro hno
  rw [key, wrapInt_of_IsInt hno]


/-- Claim C15 at a concrete input: page 2 with the limit 30, which becomes 10. -/
theorem ItemService_List_delegates_witness :
    IsInt 2 ∧
    ItemService.List mockItemRepository exWorld15 exCtx "ACTIVE" 2 30 exOrder15 =
        mockItemRepository.FindAll exWorld15 exCtx "ACTIVE" (normalLimit 30)
          (wrapInt ((normalPage 2 - 1) * normalLimit 30)) exOrder15 ∧
      (IsInt ((normalPage 2 - 1) * normalLimit 30) →
        ItemService.List mockItemRepository exWorld15 exCtx "ACTIVE" 2 30 exOrder15 =
          mockItemRepository.FindAll exWorld15 exCtx "ACTIVE" (normalLimit 30)
            ((normalPage 2 - 1) * normalLimit 30) exOrder15) :=
  have h : IsInt 2 := ⟨by decide, by decide⟩
  ⟨h, ItemService_List_delegates mockItemRepository exWorld15 exCtx "ACTIVE" 2 30 exOrder15 h⟩

/-- Claim C16.  On an in-memory store, whatever the iteration order, for
`page >= 1`, a limit in `[1, 20]` and `(page - 1) * limit` within `int`:
`ItemService.List` returns no error, the total `n`, the number of stored items
that match the status filter, and exactly
`min(limit, max(0, n - (page - 1) * limit))` items, each a matching stored item.
For a total of 15 and a limit of 10 the handler computes 2 pages. -/
theorem ItemService_List_mock_page (w : ItemWorld MockItemRepository) (ctx : Context)
    (status : String) (page limit : Int) (order : List Int)
    (ho : IsIterationOrder w.store order)
    (hlen : IsSliceLen (matchingItems w status).length)
    (hpage : 1 ≤ page) (hlimit : 1 ≤ limit ∧ limit ≤ 20)
    (hno : IsInt ((page - 1) * limit)) :
    (∃ items, ItemService.List mockItemRepository w ctx status page limit order =
        (some (items, ((matchingItems w status).length : Int), none), w) ∧
      (items.length : Int) =
        min limit (max 0 (((matchingItems w status).length : Int) - (page - 1) * limit)) ∧
      ∀ p ∈ items, p ∈ matchingItems w status) ∧
    ItemHandler.totalPages 15 10 = 2 := by
  refine ⟨?_, by decide⟩
  have hp1 : IsInt (page - 1) := by
    have h20 : (page - 1) * 1 ≤ (page - 1) * limit :=
      Int.mul_le_mul_of_nonneg_left hlimit.1 (by omega)
    unfold IsInt at *
    omega
  have hoff : 0 ≤ (page - 1) * limit := Int.mul_nonneg (by omega) (by omega)
  have hL := filteredItems_length w status order ho
  have hev := FindAll_mock_eval w ctx status limit ((page - 1) * limit) order hoff (by omega)
    (by
      by_cases hge : (page - 1) * limit ≥ ((filteredItems w status order).length : Int)
      · exact Or.inl hge
      · right
        unfold IsSliceLen at hlen
        rw [hL] at hge
        omega)
  refine ⟨((filteredItems w status order).drop ((page - 1) * limit).toNat).take limit.toNat,
    ?_, ?_, ?_⟩
  · unfold ItemService.List
    simp only [mockItemRepository]
    rw [if_neg (by omega), if_neg (by omega), wrapInt_of_IsInt hp1, wrapInt_of_IsInt hno, hev,
      hL]
  · rw [List.length_take, List.length_drop, hL]
    omega
  · intro p hp
    exact (filteredItems_perm w status order ho).subset
      ((List.drop_sublist _ _).subset ((List.take_sublist _ _).subset hp))


/-- Claim C16 at a concrete input: page 1 of 10 over fifteen "ACTIVE" items. -/
theorem ItemService_List_mock_page_witness :
    IsIterationOrder exWorld15.store exOrder15 ∧
    (matchingItems exWorld15 "ACTIVE").length = 15 ∧
    (ItemService.List mockItemRepository exWorld15 exCtx "ACTIVE" 1 10 exOrder15).1 =
      some ([0, 1, 2, 3, 4, 5, 6, 7, 8, 9], 15, none) ∧
    (∃ items, ItemService.List mockItemRepository exWorld15 exCtx "ACTIVE" 1 10 exOrder15 =
        (some (items, ((matchingItems exWorld15 "ACTIVE").length : Int), none), exWorld15) ∧
      (items.length : Int) =
        min 10 (max 0 (((matchingItems exWorld15 "ACTIVE").length : Int) - (1 - 1) * 10)) ∧
      ∀ p ∈ items, p ∈ matchingItems exWorld15 "ACTIVE") ∧
    ItemHandler.totalPages 15 10 = 2 :=
  have ho : IsIterationOrder exWorld15.store exOrder15 := by
    unfold IsIterationOrder
    decide
  have hlen : IsSliceLen (matchingItems exWorld15 "ACTIVE").length := by
    unfold IsSliceLen
    decide
  ⟨ho, by decide, by decide,
    ItemService_List_mock_page exWorld15 exCtx "ACTIVE" 1 10 exOrder15 ho hlen (by decide)
      ⟨by decide, by decide⟩ ⟨by decide, by decide⟩⟩

/-- Claim C17, as amended.  On an in-memory store, whatever the iteration
order, for `limit >= 0` and `offset >= 0` whose sum fits an `int`:
`MockItemRepository.FindAll` returns no error and a part of the list of items
it visited and kept, so every item returned is stored, has the `Status` of the
filter when the filter is not empty, and is returned at most once (on a store
that holds every item under its own id no pointer is repeated); the total is the
number of stored items that match the filter, whatever limit, offset and order;
and when the offset is at least the total the list is empty. -/
theorem MockItemRepository_FindAll_spec (w : ItemWorld MockItemRepository) (ctx : Context)
    (status : String) (limit offset : Int) (order : List Int)
    (ho : IsIterationOrder w.store order)
    (hl : 0 ≤ limit) (h0 : 0 ≤ offset) (hsum : offset + limit < 2 ^ 63) :
    ∃ items, MockItemRepository.FindAll w ctx status limit offset order =
        (some (items, ((matchingItems w status).length : Int), none), w) ∧
      items.Sublist (filteredItems w status order) ∧
      (∀ p ∈ items, (∃ k, w.store.items.lookup k = some p) ∧
        (status ≠ "" → (w.heap p).Status = status)) ∧
      (IdsMatch w → items.Nodup) ∧
      (offset ≥ ((matchingItems w status).length : Int) → items = []) := by
  have hL := filteredItems_length w status order ho
  have hev := FindAll_mock_eval w ctx status limit offset order h0 hl (Or.inr hsum)
  have hsub : (((filteredItems w status order).drop offset.toNat).take limit.toNat).Sublist
      (filteredItems w status order) :=
    (List.take_sublist _ _).trans (List.drop_sublist _ _)
  refine ⟨((filteredItems w status order).drop offset.toNat).take limit.toNat,
    ?_, hsub, ?_, ?_, ?_⟩
  · rw [hev, hL]
  · intro p hp
    exact mem_matchingItems w status p
      ((filteredItems_perm w status order ho).subset (hsub.subset hp))
  · intro hids
    exact (filteredItems_nodup w status order ho hids).sublist hsub
  · intro hge
    have : (filteredItems w status order).drop offset.toNat = [] := by
      apply List.drop_of_length_le
      omega
    rw [this, List.take_nil]


/-- Claim C17 at a concrete input: the "ACTIVE" items of a store of two. -/
theorem MockItemRepository_FindAll_spec_witness :
    IsIterationOrder exWorld2.store [1, 2] ∧
    (MockItemRepository.FindAll exWorld2 exCtx "ACTIVE" 10 0 [1, 2]).1 = some ([0], 1, none) ∧
    ∃ items, MockItemRepository.FindAll exWorld2 exCtx "ACTIVE" 10 0 [1, 2] =
        (some (items, ((matchingItems exWorld2 "ACTIVE").length : Int), none), exWorld2) ∧
      items.Sublist (filteredItems exWorld2 "ACTIVE" [1, 2]) ∧
      (∀ p ∈ items, (∃ k, exWorld2.store.items.lookup k = some p) ∧
        ("ACTIVE" ≠ "" → (exWorld2.heap p).Status = "ACTIVE")) ∧
      (IdsMatch exWorld2 → items.Nodup) ∧
      ((0 : Int) ≥ ((matchingItems exWorld2 "ACTIVE").length : Int) → items = []) :=
  have ho : IsIterationOrder exWorld2.store [1, 2] := by
    unfold IsIterationOrder
    decide
  ⟨ho, by decide,
    MockItemRepository_FindAll_spec exWorld2 exCtx "ACTIVE" 10 0 [1, 2] ho (by decide)
      (by decide) (by decide)⟩

/-- Claim C17 fails as stated.  On a store of two items, with the offset 1 and
the limit `2^63 - 1`, both not negative, `offset + limit` wraps to `-2^63`, the
slice expression `filteredItems[1:-2^63]` is out of bounds and `FindAll` panics:
it returns nothing. -/
theorem MockItemRepository_FindAll_overflow :
    IsIterationOrder exWorld2.store [1, 2] ∧
    (0 : Int) ≤ 2 ^ 63 - 1 ∧ IsInt (2 ^ 63 - 1) ∧ (0 : Int) ≤ 1 ∧
    wrapInt (1 + (2 ^ 63 - 1)) = -2 ^ 63 ∧
    (MockItemRepository.FindAll exWorld2 exCtx "" (2 ^ 63 - 1) 1 [1, 2]).1 = none := by
  refine ⟨?_, by decide, ⟨by decide, by decide⟩, by decide, by decide, by decide⟩
  unfold IsIterationOrder
  decide

/-- Claim C18, the code evaluated at the failing input.  The store holds item 1,
updated at 11, and item 2, updated at 21.  When the map is visited in the order
1, 2, `FindAll` returns item 1 before item 2, the older one first: the result is
not in descending order of `UpdatedAt`, while in the order 2, 1 it is.  Pages of
one item each, the first fetched in the order 1, 2 and the second in the order
2, 1, both show item 1: item 2 is skipped. -/
theorem MockItemRepository_FindAll_unordered :
    IsIterationOrder exWorld2.store [1, 2] ∧ IsIterationOrder exWorld2.store [2, 1] ∧
    (exWorld2.heap 0).UpdatedAt = 11 ∧ (exWorld2.heap 1).UpdatedAt = 21 ∧
    (MockItemRepository.FindAll exWorld2 exCtx "" 10 0 [1, 2]).1 = some ([0, 1], 2, none) ∧
    ¬ UpdatedDescending exWorld2.heap [0, 1] ∧
    (MockItemRepository.FindAll exWorld2 exCtx "" 10 0 [2, 1]).1 = some ([1, 0], 2, none) ∧
    UpdatedDescending exWorld2.heap [1, 0] ∧
    (MockItemRepository.FindAll exWorld2 exCtx "" 1 0 [1, 2]).1 = some ([0], 2, none) ∧
    (MockItemRepository.FindAll exWorld2 exCtx "" 1 1 [2, 1]).1 = some ([0], 2, none) := by
  refine ⟨?_, ?_, by decide, by decide, by decide, ?_, by decide, ?_, by decide, by decide⟩
  · unfold IsIterationOrder
    decide
  · unfold IsIterationOrder
    decide
  · intro h
    exact absurd h.1 (by decide)
  · exact ⟨by decide, trivial⟩

/-- Claim C19, amended.  Over every store, when `ItemService.Update` returns nil
the store found a record `existing`, the store's `Update` was handed `existing`
and returned nil, and the caller's `*item` equals the record that call left at
`existing`.  Over the in-memory store, on which every item is stored under its
own id, that record is the one `GetByID id` then returns.  Over the SQL store,
whose rows carry their keys and whose new records are allocated above `item`,
`GetByID id` then returns a record that agrees with the caller's in every field
but `UpdatedAt`: there it carries the reading of the server's clock, and the
caller's carries the reading `t` of the process clock. -/
theorem ItemService_Update_caller_item :
    (∀ (σ : Type) (repo : ItemRepository σ) (w w' : ItemWorld σ) (ctx : Context) (id : Int)
        (item : Ptr) (t : Time),
      ItemService.Update repo w ctx id item t = (none, w') →
      ∃ existing w2 w3, (repo.FindByID w ctx id).1 = Except.ok existing ∧
        repo.Update w2 ctx existing t = (none, w3) ∧
        w'.heap item = w3.heap existing ∧ w'.store = w3.store) ∧
    (∀ (w w' : ItemWorld MockItemRepository) (ctx : Context) (id : Int) (item : Ptr)
        (t : Time), IdsMatch w →
      ItemService.Update mockItemRepository w ctx id item t = (none, w') →
      ∃ p, ItemService.GetByID mockItemRepository w' ctx id = (Except.ok p, w') ∧
        w'.heap item = w'.heap p) ∧
    (∀ (w w' : ItemWorld ItemDB) (ctx : Context) (id : Int) (item : Ptr) (t : Time),
      RowsMatch w.store → item < w.store.nextPtr →
      ItemService.Update sqlItemRepository w ctx id item t = (none, w') →
      ∃ w'', ItemService.GetByID sqlItemRepository w' ctx id =
          (Except.ok w'.store.nextPtr, w'') ∧
        (w''.heap w'.store.nextPtr).AgreesButUpdatedAt (w'.heap item) ∧
        (w''.heap w'.store.nextPtr).UpdatedAt = w.store.now ∧
        (w'.heap item).UpdatedAt = t) := by
  refine ⟨?_, ?_, ?_⟩
  · intro σ repo w w' ctx id item t h
    obtain ⟨existing, w2, w3, hf, hu, hw⟩ := Update_none_inv repo w w' ctx id item t h
    refine ⟨existing, w2, w3, hf, hu, ?_, ?_⟩
    · rw [hw]
      exact ItemHeap_write_same _ _ _
    · rw [hw]
  · intro w w' ctx id item t hids h
    exact Update_mock_none w w' ctx id item t hids h
  · intro w w' ctx id item t hrows hitem h
    exact Update_sql_none w w' ctx id item t hrows hitem h

/-- Claim C19 at concrete inputs: item 2 of the in-memory store gets the code
"C", and item 1 of the SQL store gets the values of the record at address 3. -/
theorem ItemService_Update_caller_item_witness :
    (IdsMatch exWorld2 ∧
      (ItemService.Update mockItemRepository exWorld2 exCtx 2 3 30).1 = none ∧
      ∃ p, ItemService.GetByID mockItemRepository
          (ItemService.Update mockItemRepository exWorld2 exCtx 2 3 30).2 exCtx 2 =
          (Except.ok p, (ItemService.Update mockItemRepository exWorld2 exCtx 2 3 30).2) ∧
        (ItemService.Update mockItemRepository exWorld2 exCtx 2 3 30).2.heap 3 =
          (ItemService.Update mockItemRepository exWorld2 exCtx 2 3 30).2.heap p) ∧
    (RowsMatch exSqlWorld.store ∧ 3 < exSqlWorld.store.nextPtr ∧
      (ItemService.Update sqlItemRepository exSqlWorld exCtx 1 3 2000).1 = none ∧
      ((ItemService.Update sqlItemRepository exSqlWorld exCtx 1 3 2000).2.heap 3).UpdatedAt
        = 2000) :=
  have hids : IdsMatch exWorld2 := by
    rw [IdsMatch_iff_entries]
    decide
  have hrows : RowsMatch exSqlWorld.store := by
    rw [RowsMatch_iff_entries]
    decide
  ⟨⟨hids, rfl, ItemService_Update_caller_item.2.1 exWorld2 _ exCtx 2 3 30 hids rfl⟩,
    hrows, by decide, rfl,
    (ItemService_Update_caller_item.2.2 exSqlWorld _ exCtx 1 3 2000 hrows (by decide)
      rfl).choose_spec.2.2.2⟩

/-- Claim C19 as stated fails over the SQL store.  Item 1 is updated at the
instant 2000 of the process clock while the server's clock shows 1000:
`ItemService.Update` returns nil, the caller's record carries `UpdatedAt = 2000`,
and the record `GetByID 1` then returns carries `UpdatedAt = 1000`. -/
theorem ItemService_Update_sql_clock :
    (ItemService.Update sqlItemRepository exSqlWorld exCtx 1 3 2000).1 = none ∧
    ((ItemService.Update sqlItemRepository exSqlWorld exCtx 1 3 2000).2.heap 3).UpdatedAt
      = 2000 ∧
    (ItemService.GetByID sqlItemRepository
      (ItemService.Update sqlItemRepository exSqlWorld exCtx 1 3 2000).2 exCtx 1).1
      = Except.ok 11 ∧
    ((ItemService.GetByID sqlItemRepository
      (ItemService.Update sqlItemRepository exSqlWorld exCtx 1 3 2000).2 exCtx 1).2.heap
      11).UpdatedAt = 1000 ∧
    (ItemService.GetByID sqlItemRepository
      (ItemService.Update sqlItemRepository exSqlWorld exCtx 1 3 2000).2 exCtx 1).2.heap 11 ≠
      (ItemService.Update sqlItemRepository exSqlWorld exCtx 1 3 2000).2.heap 3 := by
  refine ⟨rfl, by decide, rfl, by decide, ?_⟩
  intro h
  exact absurd (congrArg Item.UpdatedAt h) (by decide)

/-- Claim C20, the code evaluated at the failing input.  Over the SQL store
that holds item 1, created and last updated by user 5, the auth middleware has
set the gin key "userID" to 9 and the body is valid.  `ItemHandler.Update`
answers 200, and both the item of the response and the row the store persisted
have `updated_by = 5`, not 9: the handler assigns 9 to its copy, the service
does not read that field of the copy, and the context of the request carries no
"userID" for the service to read.  `created_by` is unchanged, and the other
values of the body were persisted. -/
theorem ItemHandler_Update_updated_by_lost :
    exGinContext.userID = some 9 ∧
    exGinContext.Request.userID = none ∧
    exGinContext.updateBody = Except.ok exUpdateRequest ∧
    (exSqlWorld.store.rows.lookup 1).map Item.UpdatedBy = some 5 ∧
    (ItemHandler.Update (NewItemService sqlItemRepository) exSqlWorld exGinContext
      2000).1.status = 200 ∧
    (ItemHandler.Update (NewItemService sqlItemRepository) exSqlWorld exGinContext
      2000).1.item.map ItemResponse.UpdatedBy = some 5 ∧
    (ItemHandler.Update (NewItemService sqlItemRepository) exSqlWorld exGinContext
      2000).1.item.map ItemResponse.CreatedBy = some 5 ∧
    ((ItemHandler.Update (NewItemService sqlItemRepository) exSqlWorld exGinContext
      2000).2.store.rows.lookup 1).map Item.UpdatedBy = some 5 ∧
    ((ItemHandler.Update (NewItemService sqlItemRepository) exSqlWorld exGinContext
      2000).2.store.rows.lookup 1).map Item.CreatedBy = some 5 ∧
    ((ItemHandler.Update (NewItemService sqlItemRepository) exSqlWorld exGinContext
      2000).2.store.rows.lookup 1).map Item.Title = some "new title" := by
  refine ⟨rfl, rfl, rfl, by decide, by decide, by decide, by decide, by decide, by decide,
    by decide⟩

/-- Claim C21, the code evaluated at the failing input.  For the request
`GET /items?page=1`, with the default limit 10, `ItemHandler.List` hands the
service `List(ctx, "", 10, 0)`, the limit in the place of `page` and the offset
in the place of `perPage`, whatever the service; the call the claim names,
`List(ctx, "", 1, 10)`, returns the first ten of the fifteen stored items, and
the handler answers 200 with two pages and no item: the service reads the call
as page 10 and, the size 0 being out of range, size 10. -/
theorem ItemHandler_List_swaps_page_and_limit :
    exListContext.queryStatus = "" ∧ exListContext.queryLimit = Except.ok 10 ∧
    exListContext.queryPage = Except.ok 1 ∧
    (∀ (σ : Type) (itemService : ItemServiceInterface σ) (w : ItemWorld σ) (order : List Int),
      ItemHandler.List itemService w exListContext order =
        match itemService.List w exListContext.Request "" 10 0 order with
        | (none, w1) => (none, w1)
        | (some (_, _, some _), w1) =>
          (some (RespondWithError 500 "Falha ao recuperar a lista de itens"), w1)
        | (some (items, total, none), w1) =>
          (some { status := 200, item := none, message := none,
                  list := some { TotalPages := ItemHandler.totalPages total 10,
                                 Data := items.map (fun p => toItemResponse (w1.heap p)) } },
            w1)) ∧
    (ItemService.List mockItemRepository exWorld15 exListContext.Request "" 1 10
      exOrder15).1 = some ([0, 1, 2, 3, 4, 5, 6, 7, 8, 9], 15, none) ∧
    (ItemService.List mockItemRepository exWorld15 exListContext.Request "" 10 0
      exOrder15).1 = some ([], 15, none) ∧
    (ItemHandler.List (NewItemService mockItemRepository) exWorld15 exListContext
      exOrder15).1 =
      some { status := 200, item := none, message := none,
             list := some { TotalPages := 2, Data := [] } } := by
  refine ⟨rfl, rfl, rfl, ?_, by decide, by decide, by decide⟩
  intro σ itemService w order
  exact ItemHandler_List_calls itemService w exListContext order 10 1 (Or.inl rfl) rfl
    (by decide) rfl (by decide)

/-- Claim C22, the code evaluated at the failing input.  For every service,
`AuthHandler.Login` answers a well-formed request with 200 and the token when
the service's `Login` returns no error, and with 401 when it returns an error,
whatever the error.  With the service whose `Login` fails with the error
"database error", which is not `ErrInvalidCredentials`, the answer is 401, not
500. -/
theorem AuthHandler_Login_every_error_401 :
    (∀ (S : Type) (userService : UserServiceInterface S) (st : S) (c : GinContext)
        (req : LoginRequest), c.loginBody = Except.ok req →
      (∀ token st1, userService.Login st c.Request req.Username req.Password =
          ((token, none), st1) →
        (AuthHandler.Login userService st c).1.status = 200 ∧
        (AuthHandler.Login userService st c).1.token = some token) ∧
      (∀ token err st1, userService.Login st c.Request req.Username req.Password =
          ((token, some err), st1) →
        (AuthHandler.Login userService st c).1.status = 401)) ∧
    exLoginContext.loginBody =
      Except.ok { Username := "testuser", Password := "password123" } ∧
    (exFailingUserService.Login () exLoginContext.Request "testuser" "password123").1 =
      ("", some (Error.other "database error")) ∧
    Error.other "database error" ≠ Error.ErrInvalidCredentials ∧
    (AuthHandler.Login exFailingUserService () exLoginContext).1 =
      RespondWithError 401 "Credenciais inválidas" := by
  refine ⟨?_, rfl, rfl, by decide, rfl⟩
  intro S userService st c req hreq
  constructor
  · intro token st1 h
    simp only [AuthHandler.Login, hreq, h, and_self]
  · intro token err st1 h
    simp only [AuthHandler.Login, hreq, h, RespondWithError]

/-- Claim C23, the code evaluated at the failing input.  The store holds a row
with the code "A"; `itemRepository.Save` of a record with the code "A" returns
the error of the driver for the duplicate key as it is, which is not
`ErrDuplicateCode`.  So does `ItemService.Create` when the row of another client
with the code "A" is inserted into the empty table between its `ExistsByCode`,
which finds no such code, and its `Save`. -/
theorem itemRepository_Save_raw_duplicate_error :
    (exSqlWorld.heap 0).Code = "A" ∧
    (exSqlWorld.store.rows.lookup 1).map Item.Code = some "A" ∧
    (itemRepository.Save exSqlWorld exCtx 0 2000 2001).1 = some duplicateEntry ∧
    duplicateEntry ≠ Error.ErrDuplicateCode ∧
    (itemRepository.ExistsByCode exSqlWorld0 exCtx "A" 0).1 = Except.ok false ∧
    (ItemService.Create (sqlItemRepositoryRaced (exItem "A" 1)) exSqlWorld0 exCtx 0 2000
      2001).1 = some duplicateEntry := by
  refine ⟨by decide, by decide, by decide, by decide, rfl, by decide⟩

/-- Claim C24.  For every user service and every request, `AuthMiddleware`
answers 401 and aborts, so that the protected handler does not run, if and only
if the `Authorization` header is empty, or does not start with "Bearer ", or
`ValidateToken` returns an error on the header without that prefix; otherwise
it runs the handler on the context in which the gin keys "userID" and
"username" hold the `UserID` and the `Username` of the claims `ValidateToken`
returned, and every answer of the middleware itself is a 401. -/
theorem AuthMiddleware_spec {S : Type} (userService : UserServiceInterface S) (st : S)
    (c : GinContext) :
    ((∃ response, AuthMiddleware userService st c = MiddlewareResult.aborted response) ↔
      (c.authorization = "" ∨ hasBearer c.authorization = false ∨
        ∃ err, userService.ValidateToken st (trimBearer c.authorization) =
          Except.error err)) ∧
    (∀ response, AuthMiddleware userService st c = MiddlewareResult.aborted response →
      response.status = 401) ∧
    (hasBearer c.authorization = true →
      c.authorization = "Bearer " ++ trimBearer c.authorization) ∧
    (¬ (c.authorization = "" ∨ hasBearer c.authorization = false ∨
        ∃ err, userService.ValidateToken st (trimBearer c.authorization) =
          Except.error err) →
      ∃ claims c1,
        userService.ValidateToken st (trimBearer c.authorization) = Except.ok claims ∧
        AuthMiddleware userService st c = MiddlewareResult.next c1 ∧
        c1.userID = some claims.UserID ∧ c1.username = some claims.Username ∧
        c1.Request = c.Request ∧ c1.authorization = c.authorization) := by
  obtain ⟨hA, hB, hC⟩ := AuthMiddleware_cases userService st c
  have hdec : (c.authorization = "" ∨ hasBearer c.authorization = false) ∨
      (c.authorization ≠ "" ∧ hasBearer c.authorization = true) := by
    by_cases h1 : c.authorization = ""
    · exact Or.inl (Or.inl h1)
    · cases h2 : hasBearer c.authorization with
      | false => exact Or.inl (Or.inr rfl)
      | true => exact Or.inr ⟨h1, rfl⟩
  refine ⟨?_, ?_, trimBearer_spec c.authorization, ?_⟩
  · constructor
    · rintro ⟨response, hr⟩
      rcases hdec with h | ⟨h1, h2⟩
      · rcases h with h | h
        · exact Or.inl h
        · exact Or.inr (Or.inl h)
      · cases hv : userService.ValidateToken st (trimBearer c.authorization) with
        | error err => exact Or.inr (Or.inr ⟨err, rfl⟩)
        | ok claims =>
          rw [hC claims h1 h2 hv] at hr
          cases hr
    · rintro (h | h | ⟨err, hv⟩)
      · exact ⟨_, hA (Or.inl h)⟩
      · exact ⟨_, hA (Or.inr h)⟩
      · rcases hdec with h | ⟨h1, h2⟩
        · exact ⟨_, hA h⟩
        · exact ⟨_, hB err h1 h2 hv⟩
  · intro response hr
    rcases hdec with h | ⟨h1, h2⟩
    · rw [hA h] at hr
      cases hr
      rfl
    · cases hv : userService.ValidateToken st (trimBearer c.authorization) with
      | error err =>
        rw [hB err h1 h2 hv] at hr
        cases hr
        rfl
      | ok claims =>
        rw [hC claims h1 h2 hv] at hr
        cases hr
  · intro hn
    rcases hdec with h | ⟨h1, h2⟩
    · exact absurd (h.elim Or.inl (fun h => Or.inr (Or.inl h))) hn
    · cases hv : userService.ValidateToken st (trimBearer c.authorization) with
      | error err => exact absurd (Or.inr (Or.inr ⟨err, hv⟩)) hn
      | ok claims => exact ⟨claims, _, rfl, hC claims h1 h2 hv, rfl, rfl, rfl, rfl⟩

/-- Claim C24 at concrete inputs: the header "Bearer valid-token", which the
service accepts with the claims of "ana", user 1; no header; a header of
another scheme; and a token the service rejects. -/
theorem AuthMiddleware_spec_witness :
    (∃ c1, AuthMiddleware exFailingUserService () (exAuthContext "Bearer valid-token") =
        MiddlewareResult.next c1 ∧ c1.userID = some 1 ∧ c1.username = some "ana") ∧
    (∃ response, AuthMiddleware exFailingUserService () (exAuthContext "") =
      MiddlewareResult.aborted response) ∧
    (∃ response, AuthMiddleware exFailingUserService () (exAuthContext "Basic abc") =
      MiddlewareResult.aborted response) ∧
    (∃ response, AuthMiddleware exFailingUserService () (exAuthContext "Bearer other") =
      MiddlewareResult.aborted response) :=
  ⟨⟨_, rfl, rfl, rfl⟩,
    (AuthMiddleware_spec exFailingUserService () (exAuthContext "")).1.2 (Or.inl rfl),
    (AuthMiddleware_spec exFailingUserService () (exAuthContext "Basic abc")).1.2
      (Or.inr (Or.inl (by decide))),
    (AuthMiddleware_spec exFailingUserService () (exAuthContext "Bearer other")).1.2
      (Or.inr (Or.inr ⟨Error.ErrInvalidToken, rfl⟩))⟩

/-- Claim C25.  For every item service and every create request whose body
binds and whose gin context holds the user id `u`: the record `ItemHandler.Create`
hands to the service's `Create` has `CreatedBy` and `UpdatedBy` equal to `u`,
and the handler answers 201 exactly when the service returns nil, then with the
item as the service left it, 409 exactly when it returns `ErrDuplicateCode`,
400 exactly when it returns one of the five validation errors, and 500 for
every other error. -/
theorem ItemHandler_Create_status {σ : Type} (itemService : ItemServiceInterface σ)
    (w : ItemWorld σ) (c : GinContext) (item : Ptr) (t1 t2 : Time) (req : CreateRequest)
    (u : Int) (hreq : c.createBody = Except.ok req) (hu : c.userID = some u) :
    ∃ w0 : ItemWorld σ,
      w0 = { w with heap := w.heap.write item (ItemHandler.Create.item req u) } ∧
      (w0.heap item).CreatedBy = u ∧ (w0.heap item).UpdatedBy = u ∧
      (ItemHandler.Create itemService w c item t1 t2).2 =
        (itemService.Create w0 c.Request item t1 t2).2 ∧
      ((itemService.Create w0 c.Request item t1 t2).1 = none →
        (ItemHandler.Create itemService w c item t1 t2).1.status = 201 ∧
        (ItemHandler.Create itemService w c item t1 t2).1.item =
          some (toItemResponse ((itemService.Create w0 c.Request item t1 t2).2.heap item))) ∧
      ((ItemHandler.Create itemService w c item t1 t2).1.status = 201 ↔
        (itemService.Create w0 c.Request item t1 t2).1 = none) ∧
      ((ItemHandler.Create itemService w c item t1 t2).1.status = 409 ↔
        (itemService.Create w0 c.Request item t1 t2).1 = some Error.ErrDuplicateCode) ∧
      ((ItemHandler.Create itemService w c item t1 t2).1.status = 400 ↔
        ∃ err, (itemService.Create w0 c.Request item t1 t2).1 = some err ∧
          (err = Error.ErrCodeRequired ∨ err = Error.ErrTitleRequired ∨
            err = Error.ErrDescriptionRequired ∨ err = Error.ErrInvalidPrice ∨
            err = Error.ErrInvalidStock)) ∧
      (∀ err, (itemService.Create w0 c.Request item t1 t2).1 = some err →
        err ≠ Error.ErrDuplicateCode →
        ¬ (err = Error.ErrCodeRequired ∨ err = Error.ErrTitleRequired ∨
            err = Error.ErrDescriptionRequired ∨ err = Error.ErrInvalidPrice ∨
            err = Error.ErrInvalidStock) →
        (ItemHandler.Create itemService w c item t1 t2).1.status = 500) := by
  refine ⟨_, rfl, ?_, ?_, ?_⟩
  · simp only [ItemHeap_write_same, ItemHandler.Create.item]
  · simp only [ItemHeap_write_same, ItemHandler.Create.item]
  · unfold ItemHandler.Create
    simp only [hreq, hu]
    generalize itemService.Create ⟨w.heap.write item (ItemHandler.Create.item req u), w.store⟩
      c.Request item t1 t2 = r
    obtain ⟨e, w1⟩ := r
    cases e with
    | none => simp
    | some err =>
      simp only
      by_cases h1 : err = Error.ErrDuplicateCode
      · subst h1
        simp [RespondWithError]
      · rw [if_neg h1]
        by_cases h2 : err = Error.ErrCodeRequired ∨ err = Error.ErrTitleRequired ∨
            err = Error.ErrDescriptionRequired ∨ err = Error.ErrInvalidPrice ∨
            err = Error.ErrInvalidStock
        · rw [if_pos h2]
          refine ⟨rfl, by simp, by simp [RespondWithError], by simp [RespondWithError, h1],
            ?_, ?_⟩
          · exact ⟨fun _ => ⟨err, rfl, h2⟩, fun _ => rfl⟩
          · intro err' he _ hn
            exact absurd (Option.some.inj he ▸ h2) hn
        · rw [if_neg h2]
          simp [RespondWithError, h1, h2]

/-- Claim C25 at a concrete input: user 9 creates the item "A" on the new
in-memory store, and the answer is 201. -/
theorem ItemHandler_Create_status_witness :
    exCreateContext.createBody = Except.ok exCreateRequest ∧
    exCreateContext.userID = some 9 ∧
    (ItemHandler.Create (NewItemService mockItemRepository) exWorld0 exCreateContext 5 10
      11).1.status = 201 ∧
    ∃ w0 : ItemWorld MockItemRepository,
      w0 = { exWorld0 with heap := exWorld0.heap.write 5 (ItemHandler.Create.item exCreateRequest 9) } ∧
      (w0.heap 5).CreatedBy = 9 ∧ (w0.heap 5).UpdatedBy = 9 ∧
      (ItemHandler.Create (NewItemService mockItemRepository) exWorld0 exCreateContext 5 10 11).2 =
        ((NewItemService mockItemRepository).Create w0 exCreateContext.Request 5 10 11).2 ∧
      (((NewItemService mockItemRepository).Create w0 exCreateContext.Request 5 10 11).1 = none →
        (ItemHandler.Create (NewItemService mockItemRepository) exWorld0 exCreateContext 5 10 11).1.status = 201 ∧
        (ItemHandler.Create (NewItemService mockItemRepository) exWorld0 exCreateContext 5 10 11).1.item =
          some (toItemResponse (((NewItemService mockItemRepository).Create w0 exCreateContext.Request 5 10 11).2.heap 5))) ∧
      ((ItemHandler.Create (NewItemService mockItemRepository) exWorld0 exCreateContext 5 10 11).1.status = 201 ↔
        ((NewItemService mockItemRepository).Create w0 exCreateContext.Request 5 10 11).1 = none) ∧
      ((ItemHandler.Create (NewItemService mockItemRepository) exWorld0 exCreateContext 5 10 11).1.status = 409 ↔
        ((NewItemService mockItemRepository).Create w0 exCreateContext.Request 5 10 11).1 = some Error.ErrDuplicateCode) ∧
      ((ItemHandler.Create (NewItemService mockItemRepository) exWorld0 exCreateContext 5 10 11).1.status = 400 ↔
        ∃ err, ((NewItemService mockItemRepository).Create w0 exCreateContext.Request 5 10 11).1 = some err ∧
          (err = Error.ErrCodeRequired ∨ err = Error.ErrTitleRequired ∨
            err = Error.ErrDescriptionRequired ∨ err = Error.ErrInvalidPrice ∨
            err = Error.ErrInvalidStock)) ∧
      (∀ err, ((NewItemService mockItemRepository).Create w0 exCreateContext.Request 5 10 11).1 = some err →
        err ≠ Error.ErrDuplicateCode →
        ¬ (err = Error.ErrCodeRequired ∨ err = Error.ErrTitleRequired ∨
            err = Error.ErrDescriptionRequired ∨ err = Error.ErrInvalidPrice ∨
            err = Error.ErrInvalidStock) →
        (ItemHandler.Create (NewItemService mockItemRepository) exWorld0 exCreateContext 5 10 11).1.status = 500) :=
  ⟨rfl, rfl, by decide,
    ItemHandler_Create_status (NewItemService mockItemRepository) exWorld0 exCreateContext 5 10
      11 exCreateRequest 9 rfl rfl⟩

/-- Claim C26, amended.  For every total that is not negative and every limit
in `[1, 100]` for which `total + limit - 1` fits an `int`, the `totalPages` that
`ItemHandler.List` computes is the ceiling of `total / limit`: it is 0 exactly
when the total is 0, and otherwise it is the least `k` with
`k * limit >= total`; a total of 1 with the limit 10 gives 1, and a total of 15
with the limit 10 gives 2. -/
theorem ItemHandler_totalPages_ceiling (total limit : Int) (ht : 0 ≤ total)
    (hl : 1 ≤ limit ∧ limit ≤ 100) (hno : total + limit - 1 < 2 ^ 63) :
    (ItemHandler.totalPages total limit = 0 ↔ total = 0) ∧
    (0 < total →
      total ≤ ItemHandler.totalPages total limit * limit ∧
      ∀ k : Int, total ≤ k * limit → ItemHandler.totalPages total limit ≤ k) ∧
    ItemHandler.totalPages 1 10 = 1 ∧ ItemHandler.totalPages 15 10 = 2 := by
  refine ⟨?_, fun hpos => totalPages_ceil total limit hpos hl.1 hno, by decide, by decide⟩
  constructor
  · intro h0
    by_contra hne
    have hpos : 0 < total := by omega
    have hc := (totalPages_ceil total limit hpos hl.1 hno).1
    rw [h0] at hc
    omega
  · intro h0
    unfold ItemHandler.totalPages
    rw [if_neg (by omega)]

/-- Claim C26 at a concrete input: 15 items in pages of 10. -/
theorem ItemHandler_totalPages_ceiling_witness :
    (0 : Int) ≤ 15 ∧ ((1 : Int) ≤ 10 ∧ (10 : Int) ≤ 100) ∧ (15 : Int) + 10 - 1 < 2 ^ 63 ∧
    (15 : Int) ≤ ItemHandler.totalPages 15 10 * 10 ∧
    ∀ k : Int, 15 ≤ k * 10 → ItemHandler.totalPages 15 10 ≤ k :=
  ⟨by decide, by decide, by decide,
    (ItemHandler_totalPages_ceiling 15 10 (by decide) (by decide) (by decide)).2.1
      (by decide)⟩

/-- Claim C26 as stated fails for a total near the largest `int`.  With the
total `2^63 - 1` and the limit 100, `total + limit - 1` wraps to a negative
number and `totalPages` is negative, so it is not the least `k` with
`k * limit >= total`. -/
theorem ItemHandler_totalPages_overflow :
    (0 : Int) ≤ 2 ^ 63 - 1 ∧ IsInt (2 ^ 63 - 1) ∧ ((1 : Int) ≤ 100 ∧ (100 : Int) ≤ 100) ∧
    ItemHandler.totalPages (2 ^ 63 - 1) 100 = -92233720368547757 ∧
    ¬ ((2 : Int) ^ 63 - 1 ≤ ItemHandler.totalPages (2 ^ 63 - 1) 100 * 100) := by
  refine ⟨by decide, ⟨by decide, by decide⟩, by decide, by decide, by decide⟩

/-- Claim C27, the code evaluated at the failing inputs.  The store holds item
2 with the code "B", no stock and the status "INACTIVE".  The update of item 2
to the code "A", which item 1 has, returns `ErrDuplicateCode`, and the update
to a record with the price 0 returns `ErrInvalidPrice`; after either,
`GetByID 2` returns the stored record with the new code, and after the first
with the new stock and the status "ACTIVE" as well.  Only the update of an id
that is not stored leaves the world as it was. -/
theorem ItemService_Update_failure_not_atomic :
    exWorld2.store.items.lookup 2 = some 1 ∧
    (exWorld2.heap 1).Code = "B" ∧ (exWorld2.heap 1).Stock = 0 ∧
    (exWorld2.heap 1).Status = "INACTIVE" ∧
    (ItemService.Update mockItemRepository exWorld2 exCtx 2 2 30).1 =
      some Error.ErrDuplicateCode ∧
    (ItemService.GetByID mockItemRepository
      (ItemService.Update mockItemRepository exWorld2 exCtx 2 2 30).2 exCtx 2).1 =
      Except.ok 1 ∧
    ((ItemService.Update mockItemRepository exWorld2 exCtx 2 2 30).2.heap 1).Code = "A" ∧
    ((ItemService.Update mockItemRepository exWorld2 exCtx 2 2 30).2.heap 1).Stock = 7 ∧
    ((ItemService.Update mockItemRepository exWorld2 exCtx 2 2 30).2.heap 1).Status =
      "ACTIVE" ∧
    (exWorldInvalid.heap 1).Code = "B" ∧
    (ItemService.Update mockItemRepository exWorldInvalid exCtx 2 7 30).1 =
      some Error.ErrInvalidPrice ∧
    (ItemService.GetByID mockItemRepository
      (ItemService.Update mockItemRepository exWorldInvalid exCtx 2 7 30).2 exCtx 2).1 =
      Except.ok 1 ∧
    ((ItemService.Update mockItemRepository exWorldInvalid exCtx 2 7 30).2.heap 1).Code =
      "Z" ∧
    (∀ (w : ItemWorld MockItemRepository) (ctx : Context) (id : Int) (item : Ptr) (t : Time),
      w.store.items.lookup id = none →
      ItemService.Update mockItemRepository w ctx id item t =
        (some Error.ErrItemNotFound, w)) := by
  refine ⟨by decide, by decide, by decide, by decide, by decide, rfl, by decide, by decide,
    by decide, by decide, by decide, rfl, by decide, ?_⟩
  intro w ctx id item t hl
  exact Update_mock_notfound w ctx id item t hl

/-- Claim C28, the code evaluated at the failing input.  The limit
`ItemService.List` passes on is in `[1, 20]` for every limit, but the offset is
not always non-negative: for the page `2^62 + 1` and the limit 2, both of Go's
`int`, the product `(page - 1) * limit` is `2^63` and wraps to `-2^63`.  With
that offset `MockItemRepository.FindAll` passes both of its guards, the slice
expression `filteredItems[offset:end]` is out of bounds, and `List` panics, on
the store of two items and on the empty store alike. -/
theorem ItemService_List_panics_on_overflow :
    (∀ limit : Int, 1 ≤ normalLimit limit ∧ normalLimit limit ≤ 20) ∧
    IsInt (2 ^ 62 + 1) ∧ IsInt 2 ∧
    normalPage (2 ^ 62 + 1) = 2 ^ 62 + 1 ∧ normalLimit 2 = 2 ∧
    wrapInt (wrapInt ((2 ^ 62 + 1 : Int) - 1) * 2) = -2 ^ 63 ∧
    IsIterationOrder exWorld2.store [1, 2] ∧
    (MockItemRepository.FindAll exWorld2 exCtx "" 2 (-2 ^ 63) [1, 2]).1 = none ∧
    (ItemService.List mockItemRepository exWorld2 exCtx "" (2 ^ 62 + 1) 2 [1, 2]).1 = none ∧
    IsIterationOrder exWorld0.store [] ∧
    (ItemService.List mockItemRepository exWorld0 exCtx "" (2 ^ 62 + 1) 2 []).1 = none := by
  refine ⟨?_, ⟨by decide, by decide⟩, ⟨by decide, by decide⟩, by decide, by decide, by decide,
    ?_, by decide, by decide, ?_, by decide⟩
  · intro limit
    unfold normalLimit
    split_ifs <;> omega
  · unfold IsIterationOrder
    decide
  · unfold IsIterationOrder
    decide

/-- Claim C29, amended.  Take a hasher that hashes `p` to `hashed`, a text other
than `p`, and verifies `hashed` against `p`, and a signer that returns `tok` for
the claims of the new user under HS256 and the signing secret.  On every
well-formed in-memory user store that holds no user with the name `username`,
for a new user with that name, not empty, and the password `p` of at least six
bytes: `UserService.Register` succeeds and stores the user under the next id;
the stored user's `Password` is `hashed` and not `p`; `UserService.Login` with
`username` and `p` returns exactly the token `tok` and a nil error; and `Login`
with `username` and any `q` that `hashed` does not verify against returns
`ErrInvalidCredentials`. -/
theorem UserService_Register_then_Login (b : Bcrypt) (jwt : JwtSigner) (s : UserService)
    (w : UserWorld MockUserRepository) (ctx : Context) (user : Ptr) (salt : Nat)
    (t1 t2 now : Time) (username p hashed tok : String)
    (hwf : w.store.WF)
    (hname : (w.heap user).Username = username) (hne : username ≠ "")
    (hpw : (w.heap user).Password = p) (hlen : 6 ≤ p.utf8ByteSize)
    (hfree : ∀ k q, w.store.users.lookup k = some q → (w.heap q).Username ≠ username)
    (hhash : b.GenerateFromPassword salt p Bcrypt.DefaultCost = Except.ok hashed)
    (hdiff : hashed ≠ p)
    (hverify : b.CompareHashAndPassword hashed p = none)
    (hsign : jwt.SignedString "HS256"
      { UserID := w.store.nextID, Username := username,
        ExpiresAt := some (NewNumericDate now + Hour), NotBefore := none,
        IssuedAt := some (NewNumericDate now) } (signingSecret s) = Except.ok tok) :
    ∃ w1, UserService.Register b mockUserRepository w ctx user salt t1 t2 = (none, w1) ∧
      w1.store.users.lookup w.store.nextID = some user ∧
      (w1.heap user).ID = w.store.nextID ∧
      (w1.heap user).Username = username ∧
      (w1.heap user).Password = hashed ∧ (w1.heap user).Password ≠ p ∧
      UserService.Login b jwt mockUserRepository s w1 ctx username p now =
        ((tok, none), { jwtSecret := signingSecret s }, w1) ∧
      ∀ q, b.CompareHashAndPassword hashed q ≠ none →
        UserService.Login b jwt mockUserRepository s w1 ctx username q now =
          (("", some Error.ErrInvalidCredentials), s, w1) := by
  have hvalid : (w.heap user).Validate = none := by
    unfold User.Validate
    rw [hname, hpw, if_neg hne, if_neg (by omega)]
  obtain ⟨H, hreg, _, hH⟩ := Register_mock_ok b w ctx user salt t1 t2 hashed hvalid
    (by rw [hpw]; exact hhash) (by intro k q hl; rw [hname]; exact hfree k q hl)
  have hHname : (H user).Username = username := by rw [hH]; exact hname
  have hHpw : (H user).Password = hashed := by rw [hH]
  have hHidv : (H user).ID = w.store.nextID := by rw [hH]
  have hHid : 0 < (H user).ID := by rw [hHidv]; exact hwf.1
  have hclaims : issuedClaims (H user) now =
      { UserID := w.store.nextID, Username := username,
        ExpiresAt := some (NewNumericDate now + Hour), NotBefore := none,
        IssuedAt := some (NewNumericDate now) } := by
    simp only [issuedClaims, hHidv, hHname]
  have hfind := FindByUsername_inserted H w.store.users (w.store.nextID + 1) w.store.nextID
    user ctx username hHname
  refine ⟨_, hreg, AList.lookup_insert _, hHidv, hHname, hHpw, by rw [hHpw]; exact hdiff,
    ?_, ?_⟩
  · have hp : p ≠ "" := by
      intro h
      rw [h] at hlen
      exact absurd hlen (by decide)
    rw [Login_found b jwt mockUserRepository s _ _ ctx username p now user hne hfind hHid]
    have hc : User.ComparePassword b H user p = true := by
      simp only [User.ComparePassword, hHpw, hverify, Option.isNone_none]
    rw [if_neg (by simp [hp, hc])]
    simp only [hclaims, hsign]
  · intro q hq
    rw [Login_found b jwt mockUserRepository s _ _ ctx username q now user hne hfind hHid]
    have hc : User.ComparePassword b H user q = false := by
      simp only [User.ComparePassword, hHpw]
      cases hcq : b.CompareHashAndPassword hashed q with
      | none => exact absurd hcq hq
      | some e => rfl
    rw [if_pos (Or.inr hc)]
    simp

/-- Claim C29 at a concrete input: "ana" registers on the new store with the
password "secret", which the sample hasher hashes to another text, and logs in
with the token the sample signer makes for her. -/
theorem UserService_Register_then_Login_witness :
    exUserWorld0.store.WF ∧ (exUserWorld0.heap 0).Username = "ana" ∧ "ana" ≠ "" ∧
    (exUserWorld0.heap 0).Password = "secret" ∧ 6 ≤ "secret".utf8ByteSize ∧
    exBcrypt.GenerateFromPassword 0 "secret" Bcrypt.DefaultCost = Except.ok "$2a$10$secret" ∧
    "$2a$10$secret" ≠ "secret" ∧
    exBcrypt.CompareHashAndPassword "$2a$10$secret" "secret" = none ∧
    exJwt.SignedString "HS256"
      { UserID := exUserWorld0.store.nextID, Username := "ana",
        ExpiresAt := some (NewNumericDate 100 + Hour), NotBefore := none,
        IssuedAt := some (NewNumericDate 100) } (signingSecret exService) =
      Except.ok "HS256.ana.k" ∧
    ∃ w1, UserService.Register exBcrypt mockUserRepository exUserWorld0 exCtx 0 0 10 11 =
        (none, w1) ∧
      w1.store.users.lookup exUserWorld0.store.nextID = some 0 ∧
      (w1.heap 0).ID = exUserWorld0.store.nextID ∧
      (w1.heap 0).Username = "ana" ∧
      (w1.heap 0).Password = "$2a$10$secret" ∧ (w1.heap 0).Password ≠ "secret" ∧
      UserService.Login exBcrypt exJwt mockUserRepository exService w1 exCtx "ana" "secret"
        100 = (("HS256.ana.k", none), { jwtSecret := signingSecret exService }, w1) ∧
      ∀ q, exBcrypt.CompareHashAndPassword "$2a$10$secret" q ≠ none →
        UserService.Login exBcrypt exJwt mockUserRepository exService w1 exCtx "ana" q 100 =
          (("", some Error.ErrInvalidCredentials), exService, w1) :=
  have hwf : exUserWorld0.store.WF :=
    ⟨by decide, fun k hk => absurd hk (AList.not_mem_empty k)⟩
  ⟨hwf, rfl, by decide, rfl, by decide, rfl, by decide, by decide, rfl,
    UserService_Register_then_Login exBcrypt exJwt exService exUserWorld0 exCtx 0 0 10 11 100
      "ana" "secret" "$2a$10$secret" "HS256.ana.k" hwf rfl (by decide) rfl (by decide)
      (fun k q hl => by simp [exUserWorld0, NewMockUserRepository] at hl) rfl (by decide)
      (by decide) rfl⟩

/-- Claim C29 as stated fails for a hasher that verifies what it hashed and
returns the password itself.  With it "ana" registers on the new store with
the password "secret" of six bytes, and logs in with it; the stored user's
`Password` is "secret" itself. -/
theorem UserService_Register_stores_what_the_hasher_returns :
    (∀ (salt : Nat) (p : String),
      ∃ hashed, exPlainBcrypt.GenerateFromPassword salt p Bcrypt.DefaultCost =
          Except.ok hashed ∧
        exPlainBcrypt.CompareHashAndPassword hashed p = none) ∧
    (exUserWorld0.heap 0).Username = "ana" ∧ (exUserWorld0.heap 0).Password = "secret" ∧
    6 ≤ "secret".utf8ByteSize ∧
    (UserService.Register exPlainBcrypt mockUserRepository exUserWorld0 exCtx 0 0 10 11).1 =
      none ∧
    (UserService.Register exPlainBcrypt mockUserRepository exUserWorld0 exCtx 0 0 10
      11).2.store.users.lookup 1 = some 0 ∧
    ((UserService.Register exPlainBcrypt mockUserRepository exUserWorld0 exCtx 0 0 10
      11).2.heap 0).Password = "secret" ∧
    (UserService.Login exPlainBcrypt exJwt mockUserRepository exService
      (UserService.Register exPlainBcrypt mockUserRepository exUserWorld0 exCtx 0 0 10 11).2
      exCtx "ana" "secret" 100).1 = ("HS256.ana.k", none) := by
  refine ⟨?_, rfl, rfl, by decide, by decide, by decide, by decide, by decide⟩
  intro salt p
  exact ⟨p, rfl, by simp [exPlainBcrypt]⟩

/-- Claim C30.  In every state of the in-memory user store reachable from
`NewMockUserRepository` by calls of `Register`: the counter is at least 1; every
stored user has the `ID` it is stored under, which is at least 1 and below the
counter; two users stored under different keys have different `ID`s; a
`Register` that succeeds stores the user under the value of the counter, which
it raises by one.  So every user `FindByUsername` finds has a positive `ID`:
`generateToken` on it goes on to sign, and `Login` returns either
`ErrInvalidCredentials` or what signing returns, never the error of the branch
for `ID <= 0`. -/
theorem MockUserRepository_ids_positive (b : Bcrypt) (w : UserWorld MockUserRepository)
    (h : UserReachable b w) :
    1 ≤ w.store.nextID ∧
    (∀ k p, w.store.users.lookup k = some p →
      (w.heap p).ID = k ∧ 1 ≤ (w.heap p).ID ∧ (w.heap p).ID < w.store.nextID) ∧
    (∀ k1 p1 k2 p2, w.store.users.lookup k1 = some p1 → w.store.users.lookup k2 = some p2 →
      k1 ≠ k2 → (w.heap p1).ID ≠ (w.heap p2).ID) ∧
    (∀ ctx user salt t1 t2 w1,
      UserService.Register b mockUserRepository w ctx user salt t1 t2 = (none, w1) →
      w1.store.nextID = w.store.nextID + 1 ∧
      w1.store.users.lookup w.store.nextID = some user ∧
      (w1.heap user).ID = w.store.nextID) ∧
    (∀ ctx username user w1,
      MockUserRepository.FindByUsername w ctx username = (Except.ok user, w1) →
      0 < (w1.heap user).ID ∧
      (∀ (jwt : JwtSigner) (s : UserService) (now : Time),
        UserService.generateToken jwt s w1.heap user now =
          match jwt.SignedString "HS256" (issuedClaims (w1.heap user) now)
              (signingSecret s) with
          | Except.error err => (("", some err), { jwtSecret := signingSecret s })
          | Except.ok tokenString =>
            ((tokenString, none), { jwtSecret := signingSecret s })) ∧
      (∀ (jwt : JwtSigner) (s : UserService) (password : String) (now : Time),
        username ≠ "" →
        UserService.Login b jwt mockUserRepository s w ctx username password now =
          if password = "" ∨ User.ComparePassword b w1.heap user password = false then
            (("", some Error.ErrInvalidCredentials), s, if password = "" then w else w1)
          else
            match jwt.SignedString "HS256" (issuedClaims (w1.heap user) now)
                (signingSecret s) with
            | Except.error err => (("", some err), { jwtSecret := signingSecret s }, w1)
            | Except.ok tokenString =>
              ((tokenString, none), { jwtSecret := signingSecret s }, w1))) := by
  obtain ⟨hwf, hids, _⟩ := UserReachable_inv h
  have hkey : ∀ k p, w.store.users.lookup k = some p → 0 < k ∧ k < w.store.nextID := by
    intro k p hl
    exact hwf.2 k (AList.lookup_isSome.1 (by rw [hl]; rfl))
  refine ⟨hwf.1, ?_, ?_, ?_, ?_⟩
  · intro k p hl
    have hk := hkey k p hl
    have hid := hids k p hl
    rw [hid]
    exact ⟨rfl, hk.1, hk.2⟩
  · intro k1 p1 k2 p2 h1 h2 hne
    rw [hids k1 p1 h1, hids k2 p2 h2]
    exact hne
  · intro ctx user salt t1 t2 w1 hreg
    exact Register_mock_none_inv b w w1 ctx user salt t1 t2 hreg
  · intro ctx username user w1 hfind
    obtain ⟨hw1, k, hl⟩ := FindByUsername_mock_ok w w1 ctx username user hfind
    subst hw1
    have hpos : 0 < (w1.heap user).ID := by
      rw [hids k user hl]
      exact (hkey k user hl).1
    refine ⟨hpos, ?_, ?_⟩
    · intro jwt s now
      exact generateToken_issued jwt s w1.heap user now hpos
    · intro jwt s password now hu
      exact Login_found b jwt mockUserRepository s w1 w1 ctx username password now user hu
        hfind hpos

/-- Claim C30 at a concrete input: the store after "ana" registered. -/
theorem MockUserRepository_ids_positive_witness :
    UserReachable exBcrypt exUserWorld1 ∧
    1 ≤ exUserWorld1.store.nextID ∧
    (∀ k p, exUserWorld1.store.users.lookup k = some p →
      (exUserWorld1.heap p).ID = k ∧ 1 ≤ (exUserWorld1.heap p).ID ∧
      (exUserWorld1.heap p).ID < exUserWorld1.store.nextID) ∧
    exUserWorld1.store.users.lookup 1 = some 0 ∧ (exUserWorld1.heap 0).ID = 1 :=
  have hr : UserReachable exBcrypt exUserWorld1 := ⟨exUserHeap, _, rfl⟩
  ⟨hr, (MockUserRepository_ids_positive exBcrypt exUserWorld1 hr).1,
    (MockUserRepository_ids_positive exBcrypt exUserWorld1 hr).2.1, by decide, by decide⟩

end Desafio
